import Mathlib

/-!
# ofxAutomatedInput: record / playback engine

A shallow embedding of `src/ofxAutomatedInput.cpp` and
`src/ofxAutomatedInputMouseEvent.cpp`.

Conventions of the embedding.

* The engine object is the structure `ofxAutomatedInput`; every member function is a
  function on it.  The millisecond clock `ofGetElapsedTimeMillis()` is read once per
  call and passed as the argument `now`.
* C++ integers are `Int`.  Timelines are assumed shorter than `2^31` events and
  clock values to fit their C++ types, so no arithmetic wraps; the one mixed
  signed/unsigned comparison of the source (`nextIdx >= _inputEvents.size()`) is kept,
  see `toSizeT`.
* Enumerators are kept as their integer codes, as in C++.
* The host event bus `ofEvents()` is represented by the set of channels on which the
  engine is currently registered (`Listeners`); what `update` sends out with
  `ofNotifyEvent` is returned as a list of `Emission`s.
* Pixel coordinates of the host payloads are integers here; the text formatting of
  floating point values by the XML library is not part of the model.
-/

set_option autoImplicit false

/-! ## Type tags and host enumerators -/

/-- Modelled from the spec: the type tags of `ofxAutomatedInputEvent.h`, which is not
among the sources.  The spec describes them as a bitmask over the kinds
(`Mouse|Key|Touch`, any subset) next to an integer tag per record, so every kind is
one bit and `NONE` is the empty mask. -/
def OFX_AUTOMATED_INPUT_TYPE_NONE : Int := 0

/-- Modelled from the spec: tag of Control events (see `OFX_AUTOMATED_INPUT_TYPE_NONE`). -/
def OFX_AUTOMATED_INPUT_TYPE_CONTROL : Int := 1

/-- Modelled from the spec: tag and flag bit of Mouse events. -/
def OFX_AUTOMATED_INPUT_TYPE_MOUSE : Int := 2

/-- Modelled from the spec: tag and flag bit of Key events. -/
def OFX_AUTOMATED_INPUT_TYPE_KEY : Int := 4

/-- Modelled from the spec: tag and flag bit of Touch events. -/
def OFX_AUTOMATED_INPUT_TYPE_TOUCH : Int := 8

/-- Payload of a host mouse event (`ofMouseEventArgs` of the host library): the `type`
enumerator as its integer code, the button and the position. -/
structure ofMouseEventArgs where
  type : Int
  button : Int
  x : Int
  y : Int
deriving DecidableEq, Repr

namespace ofMouseEventArgs
/-- Host enumerator `ofMouseEventArgs::Pressed`.  The engine only compares the
enumerators for equality; the codes are those of the host declaration order. -/
def Pressed : Int := 0
/-- Host enumerator `ofMouseEventArgs::Moved`. -/
def Moved : Int := 1
/-- Host enumerator `ofMouseEventArgs::Released`. -/
def Released : Int := 2
/-- Host enumerator `ofMouseEventArgs::Dragged`. -/
def Dragged : Int := 3
end ofMouseEventArgs

/-- Modelled from the spec: payload of a host key event, `{type, keycode}`; the header
and the source of the Key event class are not among the sources. -/
structure ofKeyEventArgs where
  type : Int
  key : Int
deriving DecidableEq, Repr

namespace ofKeyEventArgs
/-- Host enumerator `ofKeyEventArgs::Pressed`. -/
def Pressed : Int := 0
/-- Host enumerator `ofKeyEventArgs::Released`. -/
def Released : Int := 1
end ofKeyEventArgs

/-- Modelled from the spec: payload of a host touch event, `{type, touchId, x, y}`; the
header and the source of the Touch event class are not among the sources. -/
structure ofTouchEventArgs where
  type : Int
  id : Int
  x : Int
  y : Int
deriving DecidableEq, Repr

namespace ofTouchEventArgs
/-- Host enumerator `ofTouchEventArgs::down`. -/
def down : Int := 0
/-- Host enumerator `ofTouchEventArgs::up`. -/
def up : Int := 1
/-- Host enumerator `ofTouchEventArgs::move`. -/
def move : Int := 2
/-- Host enumerator `ofTouchEventArgs::doubleTap`. -/
def doubleTap : Int := 3
/-- Host enumerator `ofTouchEventArgs::cancel`. -/
def cancel : Int := 4
end ofTouchEventArgs

namespace ofxAutomatedInputControlEvent
/-- Modelled from the spec: enumerator `ofxAutomatedInputControlEvent::Start` of the
Control event class (its header is not among the sources); `action ∈ {Start, Stop}`. -/
def Start : Int := 0
/-- Modelled from the spec: enumerator `ofxAutomatedInputControlEvent::Stop`. -/
def Stop : Int := 1
end ofxAutomatedInputControlEvent

/-! ## Events -/

/-- The four event classes derived from `ofxAutomatedInputEvent`.  Each object carries
its `timeOffset` and the payload of its class.  The stored type tag of an object
always equals the tag of its class (the constructors set it, and `loadFromXml` only
re-reads the attribute the engine has just matched), so it is the function `type`. -/
inductive ofxAutomatedInputEvent
  | control (timeOffset : Int) (action : Int)
  | mouse (timeOffset : Int) (args : ofMouseEventArgs)
  | key (timeOffset : Int) (args : ofKeyEventArgs)
  | touch (timeOffset : Int) (args : ofTouchEventArgs)
deriving DecidableEq, Repr

namespace ofxAutomatedInputEvent

/-- Accessor `timeOffset()`. -/
def timeOffset : ofxAutomatedInputEvent → Int
  | control t _ => t
  | mouse t _ => t
  | key t _ => t
  | touch t _ => t

/-- Accessor `type()`: the type tag. -/
def type : ofxAutomatedInputEvent → Int
  | control _ _ => OFX_AUTOMATED_INPUT_TYPE_CONTROL
  | mouse _ _ => OFX_AUTOMATED_INPUT_TYPE_MOUSE
  | key _ _ => OFX_AUTOMATED_INPUT_TYPE_KEY
  | touch _ _ => OFX_AUTOMATED_INPUT_TYPE_TOUCH

end ofxAutomatedInputEvent

/-! ## Engine state -/

/-- The enumeration `ofxAutomatedInputMode`. -/
inductive ofxAutomatedInputMode
  | OFX_AUTOMATED_INPUT_MODE_IDLE
  | OFX_AUTOMATED_INPUT_MODE_RECORD
  | OFX_AUTOMATED_INPUT_MODE_PLAYBACK
deriving DecidableEq, Repr

open ofxAutomatedInputMode

/-- Registrations of the engine on the host bus `ofEvents()`: one flag per channel.
`ofAddListener` sets the flag of its channel, `ofRemoveListener` clears it. -/
structure Listeners where
  mouseMoved : Bool
  mousePressed : Bool
  mouseDragged : Bool
  mouseReleased : Bool
  keyPressed : Bool
  keyReleased : Bool
  touchDown : Bool
  touchMoved : Bool
  touchUp : Bool
  touchDoubleTap : Bool
  touchCancelled : Bool
  update : Bool
deriving DecidableEq, Repr

/-- No channel registered. -/
def Listeners.none : Listeners :=
  { mouseMoved := false, mousePressed := false, mouseDragged := false,
    mouseReleased := false, keyPressed := false, keyReleased := false,
    touchDown := false, touchMoved := false, touchUp := false,
    touchDoubleTap := false, touchCancelled := false, update := false }

/-- The data members of `ofxAutomatedInput`, and its registrations on the host bus. -/
structure ofxAutomatedInput where
  _mode : ofxAutomatedInputMode
  _bTriggerOFEvents : Bool
  _bLooping : Bool
  _loopOffsetTime : Int
  _inputEvents : List ofxAutomatedInputEvent
  _recordFlags : Int
  _recordStartTime : Int
  _playbackFlags : Int
  _playbackStartTime : Int
  _playbackIdx : Int
  listeners : Listeners
deriving DecidableEq, Repr

/-- What `update` sends out: the engine's own observer events and, when mirroring is
on, events of the host bus. -/
inductive Emission
  | playbackStartedEvent (currTimeOffset : Int)
  | playbackStoppedEvent (currTimeOffset : Int)
  | mouseInputEvent (args : ofMouseEventArgs)
  | keyInputEvent (args : ofKeyEventArgs)
  | touchInputEvent (args : ofTouchEventArgs)
  | mouseMoved (args : ofMouseEventArgs)
  | mousePressed (args : ofMouseEventArgs)
  | mouseDragged (args : ofMouseEventArgs)
  | mouseReleased (args : ofMouseEventArgs)
  | keyPressed (args : ofKeyEventArgs)
  | keyReleased (args : ofKeyEventArgs)
  | touchDown (args : ofTouchEventArgs)
  | touchMoved (args : ofTouchEventArgs)
  | touchUp (args : ofTouchEventArgs)
  | touchDoubleTap (args : ofTouchEventArgs)
  | touchCancelled (args : ofTouchEventArgs)
deriving DecidableEq, Repr

/-- The kind an emission belongs to, as a type tag: Control for the two playback
notifications, else the kind of the payload. -/
def Emission.kind : Emission → Int
  | .playbackStartedEvent _ => OFX_AUTOMATED_INPUT_TYPE_CONTROL
  | .playbackStoppedEvent _ => OFX_AUTOMATED_INPUT_TYPE_CONTROL
  | .mouseInputEvent _ => OFX_AUTOMATED_INPUT_TYPE_MOUSE
  | .mouseMoved _ => OFX_AUTOMATED_INPUT_TYPE_MOUSE
  | .mousePressed _ => OFX_AUTOMATED_INPUT_TYPE_MOUSE
  | .mouseDragged _ => OFX_AUTOMATED_INPUT_TYPE_MOUSE
  | .mouseReleased _ => OFX_AUTOMATED_INPUT_TYPE_MOUSE
  | .keyInputEvent _ => OFX_AUTOMATED_INPUT_TYPE_KEY
  | .keyPressed _ => OFX_AUTOMATED_INPUT_TYPE_KEY
  | .keyReleased _ => OFX_AUTOMATED_INPUT_TYPE_KEY
  | .touchInputEvent _ => OFX_AUTOMATED_INPUT_TYPE_TOUCH
  | .touchDown _ => OFX_AUTOMATED_INPUT_TYPE_TOUCH
  | .touchMoved _ => OFX_AUTOMATED_INPUT_TYPE_TOUCH
  | .touchUp _ => OFX_AUTOMATED_INPUT_TYPE_TOUCH
  | .touchDoubleTap _ => OFX_AUTOMATED_INPUT_TYPE_TOUCH
  | .touchCancelled _ => OFX_AUTOMATED_INPUT_TYPE_TOUCH

/-- Conversion of an `int` to `size_t` (64 bit), as the comparison
`nextIdx >= _inputEvents.size()` performs it. -/
def toSizeT (n : Int) : Int := n % 2 ^ 64

namespace ofxAutomatedInput

/-- The constructor: the four members of its initialiser list are set, the vector is
empty and nothing is registered; the other members keep whatever `junk` held. -/
def construct (junk : ofxAutomatedInput) : ofxAutomatedInput :=
  { junk with
    _mode := OFX_AUTOMATED_INPUT_MODE_IDLE
    _bTriggerOFEvents := true
    _bLooping := false
    _loopOffsetTime := 0
    _inputEvents := []
    listeners := Listeners.none }

/-- The `isRecording()` test. -/
def isRecording (s : ofxAutomatedInput) : Bool :=
  s._mode == OFX_AUTOMATED_INPUT_MODE_RECORD

/-- The `isPlaying()` test. -/
def isPlaying (s : ofxAutomatedInput) : Bool :=
  s._mode == OFX_AUTOMATED_INPUT_MODE_PLAYBACK

/-- The three `if (_recordFlags & ...)` blocks of `startRecording` (`b = true`,
`ofAddListener`) and of `stopRecording` (`b = false`, `ofRemoveListener`). -/
def setInputListeners (flags : Int) (b : Bool) (l : Listeners) : Listeners :=
  let l := if Int.land flags OFX_AUTOMATED_INPUT_TYPE_MOUSE ≠ 0 then
      { l with mouseMoved := b, mousePressed := b, mouseDragged := b, mouseReleased := b }
    else l
  let l := if Int.land flags OFX_AUTOMATED_INPUT_TYPE_KEY ≠ 0 then
      { l with keyPressed := b, keyReleased := b }
    else l
  if Int.land flags OFX_AUTOMATED_INPUT_TYPE_TOUCH ≠ 0 then
    { l with touchDown := b, touchMoved := b, touchUp := b, touchDoubleTap := b,
             touchCancelled := b }
  else l

/-- Member `stopPlayback`. -/
def stopPlayback (s : ofxAutomatedInput) : ofxAutomatedInput :=
  if s.isPlaying then
    { s with _mode := OFX_AUTOMATED_INPUT_MODE_IDLE
             listeners := { s.listeners with update := false } }
  else s

/-- Member `stopRecording`. -/
def stopRecording (now : Int) (s : ofxAutomatedInput) : ofxAutomatedInput :=
  if !s.isRecording then s
  else
    let timeOffset := now - s._recordStartTime
    { s with
      _inputEvents := s._inputEvents ++
        [.control timeOffset ofxAutomatedInputControlEvent.Stop]
      _mode := OFX_AUTOMATED_INPUT_MODE_IDLE
      listeners := setInputListeners s._recordFlags false s.listeners }

/-- Member `startRecording`. -/
def startRecording (recordFlags : Int) (now : Int) (s : ofxAutomatedInput) :
    ofxAutomatedInput :=
  if s.isRecording then s
  else
    let s := if s.isPlaying then s.stopPlayback else s
    { s with
      _mode := OFX_AUTOMATED_INPUT_MODE_RECORD
      _recordFlags := recordFlags
      _recordStartTime := now
      _inputEvents := s._inputEvents ++ [.control 0 ofxAutomatedInputControlEvent.Start]
      listeners := setInputListeners recordFlags true s.listeners }

/-- Member `toggleRecording`.  It calls `startRecording()` without an argument; the
default argument is declared in the header, which is not among the sources, and is
the parameter `defaultRecordFlags`. -/
def toggleRecording (defaultRecordFlags : Int) (now : Int) (s : ofxAutomatedInput) :
    ofxAutomatedInput :=
  if s.isRecording then s.stopRecording now
  else s.startRecording defaultRecordFlags now

/-- Member `startPlayback`. -/
def startPlayback (playbackFlags : Int) (now : Int) (s : ofxAutomatedInput) :
    ofxAutomatedInput :=
  if s.isPlaying then s
  else
    let s := if s.isRecording then s.stopRecording now else s
    { s with
      _mode := OFX_AUTOMATED_INPUT_MODE_PLAYBACK
      _playbackFlags := playbackFlags
      _playbackStartTime := now
      _playbackIdx := -1
      listeners := { s.listeners with update := true } }

/-- Member `togglePlayback`; `defaultPlaybackFlags` is the default argument of
`startPlayback`, declared in the header. -/
def togglePlayback (defaultPlaybackFlags : Int) (now : Int) (s : ofxAutomatedInput) :
    ofxAutomatedInput :=
  if s.isPlaying then s.stopPlayback
  else s.startPlayback defaultPlaybackFlags now

/-- Member `clear`. -/
def clear (now : Int) (s : ofxAutomatedInput) : ofxAutomatedInput :=
  let s := s.stopPlayback
  let s := s.stopRecording now
  { s with _inputEvents := [] }

/-- Member `mouseEventReceived`. -/
def mouseEventReceived (args : ofMouseEventArgs) (now : Int) (s : ofxAutomatedInput) :
    ofxAutomatedInput :=
  let timeOffset := now - s._recordStartTime
  { s with _inputEvents := s._inputEvents ++ [.mouse timeOffset args] }

/-- Member `keyEventReceived`. -/
def keyEventReceived (args : ofKeyEventArgs) (now : Int) (s : ofxAutomatedInput) :
    ofxAutomatedInput :=
  let timeOffset := now - s._recordStartTime
  { s with _inputEvents := s._inputEvents ++ [.key timeOffset args] }

/-- Member `touchEventReceived`. -/
def touchEventReceived (args : ofTouchEventArgs) (now : Int) (s : ofxAutomatedInput) :
    ofxAutomatedInput :=
  let timeOffset := now - s._recordStartTime
  { s with _inputEvents := s._inputEvents ++ [.touch timeOffset args] }

/-- The body of the `Control` branch of `update` (lines 141-151). -/
def triggerControl (action : Int) (currTimeOffset : Int) : List Emission :=
  if action = ofxAutomatedInputControlEvent.Start then
    [.playbackStartedEvent currTimeOffset]
  else if action = ofxAutomatedInputControlEvent.Stop then
    [.playbackStoppedEvent currTimeOffset]
  else []

/-- The body of the `Mouse` branch of `update` (lines 154-173). -/
def triggerMouse (bTriggerOFEvents : Bool) (args : ofMouseEventArgs) : List Emission :=
  (if bTriggerOFEvents then
    if args.type = ofMouseEventArgs.Moved then [.mouseMoved args]
    else if args.type = ofMouseEventArgs.Pressed then [.mousePressed args]
    else if args.type = ofMouseEventArgs.Dragged then [.mouseDragged args]
    else if args.type = ofMouseEventArgs.Released then [.mouseReleased args]
    else []
  else []) ++ [.mouseInputEvent args]

/-- The body of the `Key` branch of `update` (lines 174-187). -/
def triggerKey (bTriggerOFEvents : Bool) (args : ofKeyEventArgs) : List Emission :=
  (if bTriggerOFEvents then
    if args.type = ofKeyEventArgs.Pressed then [.keyPressed args]
    else if args.type = ofKeyEventArgs.Released then [.keyReleased args]
    else []
  else []) ++ [.keyInputEvent args]

/-- The body of the `Touch` branch of `update` (lines 188-210). -/
def triggerTouch (bTriggerOFEvents : Bool) (args : ofTouchEventArgs) : List Emission :=
  (if bTriggerOFEvents then
    if args.type = ofTouchEventArgs.down then [.touchDown args]
    else if args.type = ofTouchEventArgs.move then [.touchMoved args]
    else if args.type = ofTouchEventArgs.up then [.touchUp args]
    else if args.type = ofTouchEventArgs.doubleTap then [.touchDoubleTap args]
    else if args.type = ofTouchEventArgs.cancel then [.touchCancelled args]
    else []
  else []) ++ [.touchInputEvent args]

/-- Lines 140-214 of `update`: what is sent out for the due event `e`.  The source
tests `type()` and then casts to the class; here the class is matched, and the test
`type() & _playbackFlags` of line 153 is made in each of the three input classes.
The `Unrecognized event type` branch of line 211 has no event that reaches it. -/
def trigger (s : ofxAutomatedInput) (e : ofxAutomatedInputEvent) (currTimeOffset : Int) :
    List Emission :=
  match e with
  | .control _ action => triggerControl action currTimeOffset
  | .mouse _ args =>
    if Int.land e.type s._playbackFlags ≠ 0 then triggerMouse s._bTriggerOFEvents args
    else []
  | .key _ args =>
    if Int.land e.type s._playbackFlags ≠ 0 then triggerKey s._bTriggerOFEvents args
    else []
  | .touch _ args =>
    if Int.land e.type s._playbackFlags ≠ 0 then triggerTouch s._bTriggerOFEvents args
    else []

/-- The element access `_inputEvents[idx]` with an `int` index; `none` stands for a read
outside the vector. -/
def eventAt (s : ofxAutomatedInput) (idx : Int) : Option ofxAutomatedInputEvent :=
  if 0 ≤ idx then s._inputEvents.get? idx.toNat else none

/-- Member `update`, the per-tick callback: the new state and what was sent out. -/
def update (now : Int) (s : ofxAutomatedInput) : ofxAutomatedInput × List Emission :=
  if s.isPlaying then
    let currTimeOffset := now - s._playbackStartTime
    let nextIdx := s._playbackIdx + 1
    if toSizeT nextIdx ≥ s._inputEvents.length then
      if s._bLooping then
        ({ s with _playbackStartTime := now + s._loopOffsetTime, _playbackIdx := -1 }, [])
      else (s.stopPlayback, [])
    else
      match s.eventAt nextIdx with
      | some e =>
        if e.timeOffset ≤ currTimeOffset then
          ({ s with _playbackIdx := s._playbackIdx + 1 }, s.trigger e currTimeOffset)
        else (s, [])
      | none => (s, [])
  else (s, [])

end ofxAutomatedInput

/-! ## Persistence -/

/-- One `event` tag of the XML document: its `event_type` attribute, if present, and the
value tags inside it, in document order. -/
structure XmlEventTag where
  event_type : Option Int
  values : List (String × Int)
deriving DecidableEq, Repr

/-- Call `xml.getValue(name, defaultValue)` inside a pushed `event` tag: the first value
tag of that name, else the default. -/
def XmlEventTag.getValue (tag : XmlEventTag) (name : String) (defaultValue : Int) : Int :=
  (tag.values.lookup name).getD defaultValue

/-- Call `xml.getAttribute("event", "event_type", defaultValue, idx)` on the tag of
index `idx`. -/
def XmlEventTag.getAttribute (tag : XmlEventTag) (defaultValue : Int) : Int :=
  tag.event_type.getD defaultValue

/-- The XML document as the engine uses it: the `event` tags inside the root tag
`automated_input`, or `none` when the document has no such root tag. -/
structure ofxXmlSettings where
  automated_input : Option (List XmlEventTag)
deriving DecidableEq, Repr

/-- The payloads and the action of default-constructed event objects (`new
ofxAutomatedInputMouseEvent()` and the like), which `loadFromXml` keeps for a field
that is absent from the record.  The default constructors are declared in headers
that are not among the sources, so this is a parameter. -/
structure DefaultEvents where
  action : Int
  mouse : ofMouseEventArgs
  key : ofKeyEventArgs
  touch : ofTouchEventArgs
deriving DecidableEq, Repr

namespace ofxAutomatedInputMouseEvent

/-- Member `ofxAutomatedInputMouseEvent::saveToXml`: one more `event` tag. -/
def saveToXml (_timeOffset : Int) (_args : ofMouseEventArgs) (xml : List XmlEventTag) :
    List XmlEventTag :=
  xml ++ [{ event_type := some OFX_AUTOMATED_INPUT_TYPE_MOUSE,
            values := [("time_offset", _timeOffset), ("type", _args.type),
                       ("button", _args.button), ("x", _args.x), ("y", _args.y)] }]

/-- Member `ofxAutomatedInputMouseEvent::loadFromXml` on the tag of index `idx`; `_args`
is the payload of the freshly constructed object. -/
def loadFromXml (_args : ofMouseEventArgs) (tag : XmlEventTag) : ofxAutomatedInputEvent :=
  .mouse (tag.getValue "time_offset" 0)
    { type := tag.getValue "type" ofMouseEventArgs.Moved
      button := tag.getValue "button" _args.button
      x := tag.getValue "x" _args.x
      y := tag.getValue "y" _args.y }

end ofxAutomatedInputMouseEvent

namespace ofxAutomatedInputControlEvent

/-- Modelled from the spec: `saveToXml` of the Control event class, whose source is not
among the sources; a record holds the type tag, `time_offset` and the payload. -/
def saveToXml (_timeOffset : Int) (_action : Int) (xml : List XmlEventTag) :
    List XmlEventTag :=
  xml ++ [{ event_type := some OFX_AUTOMATED_INPUT_TYPE_CONTROL,
            values := [("time_offset", _timeOffset), ("action", _action)] }]

/-- Modelled from the spec: `loadFromXml` of the Control event class; an absent field
falls back to its default. -/
def loadFromXml (_action : Int) (tag : XmlEventTag) : ofxAutomatedInputEvent :=
  .control (tag.getValue "time_offset" 0) (tag.getValue "action" _action)

end ofxAutomatedInputControlEvent

namespace ofxAutomatedInputKeyEvent

/-- Modelled from the spec: `saveToXml` of the Key event class, whose source is not
among the sources. -/
def saveToXml (_timeOffset : Int) (_args : ofKeyEventArgs) (xml : List XmlEventTag) :
    List XmlEventTag :=
  xml ++ [{ event_type := some OFX_AUTOMATED_INPUT_TYPE_KEY,
            values := [("time_offset", _timeOffset), ("type", _args.type),
                       ("key", _args.key)] }]

/-- Modelled from the spec: `loadFromXml` of the Key event class. -/
def loadFromXml (_args : ofKeyEventArgs) (tag : XmlEventTag) : ofxAutomatedInputEvent :=
  .key (tag.getValue "time_offset" 0)
    { type := tag.getValue "type" _args.type
      key := tag.getValue "key" _args.key }

end ofxAutomatedInputKeyEvent

namespace ofxAutomatedInputTouchEvent

/-- Modelled from the spec: `saveToXml` of the Touch event class, whose source is not
among the sources. -/
def saveToXml (_timeOffset : Int) (_args : ofTouchEventArgs) (xml : List XmlEventTag) :
    List XmlEventTag :=
  xml ++ [{ event_type := some OFX_AUTOMATED_INPUT_TYPE_TOUCH,
            values := [("time_offset", _timeOffset), ("type", _args.type),
                       ("touchId", _args.id), ("x", _args.x), ("y", _args.y)] }]

/-- Modelled from the spec: `loadFromXml` of the Touch event class. -/
def loadFromXml (_args : ofTouchEventArgs) (tag : XmlEventTag) : ofxAutomatedInputEvent :=
  .touch (tag.getValue "time_offset" 0)
    { type := tag.getValue "type" _args.type
      id := tag.getValue "touchId" _args.id
      x := tag.getValue "x" _args.x
      y := tag.getValue "y" _args.y }

end ofxAutomatedInputTouchEvent

/-- The virtual call `_inputEvents[i]->saveToXml(xml)`. -/
def ofxAutomatedInputEvent.saveToXml (e : ofxAutomatedInputEvent) (xml : List XmlEventTag) :
    List XmlEventTag :=
  match e with
  | .control t a => ofxAutomatedInputControlEvent.saveToXml t a xml
  | .mouse t a => ofxAutomatedInputMouseEvent.saveToXml t a xml
  | .key t a => ofxAutomatedInputKeyEvent.saveToXml t a xml
  | .touch t a => ofxAutomatedInputTouchEvent.saveToXml t a xml

namespace ofxAutomatedInput

/-- Member `saveToXml`: the state it leaves and the document handed to
`xml.saveFile(path)`, whose result (the success of the write) it returns. -/
def saveToXml (now : Int) (s : ofxAutomatedInput) : ofxAutomatedInput × ofxXmlSettings :=
  let s := s.stopPlayback
  let s := s.stopRecording now
  (s, { automated_input := some (s._inputEvents.foldl (fun xml e => e.saveToXml xml) []) })

/-- One pass of the loop body of `loadFromXml` (lines 71-94) on the tag of index `i`. -/
def loadEvent (d : DefaultEvents) (events : List ofxAutomatedInputEvent)
    (tag : XmlEventTag) : List ofxAutomatedInputEvent :=
  let type := tag.getAttribute OFX_AUTOMATED_INPUT_TYPE_NONE
  if type = OFX_AUTOMATED_INPUT_TYPE_CONTROL then
    events ++ [ofxAutomatedInputControlEvent.loadFromXml d.action tag]
  else if type = OFX_AUTOMATED_INPUT_TYPE_MOUSE then
    events ++ [ofxAutomatedInputMouseEvent.loadFromXml d.mouse tag]
  else if type = OFX_AUTOMATED_INPUT_TYPE_KEY then
    events ++ [ofxAutomatedInputKeyEvent.loadFromXml d.key tag]
  else if type = OFX_AUTOMATED_INPUT_TYPE_TOUCH then
    events ++ [ofxAutomatedInputTouchEvent.loadFromXml d.touch tag]
  else events

/-- Member `loadFromXml`.  `file` is what `xml.loadFile(path)` finds (`none`: the file
cannot be loaded).  The result is the state left and the returned flag; it is `none`
when the call reads `_inputEvents.back()` (line 107) of an empty vector, which is
undefined behaviour. -/
def loadFromXml (d : DefaultEvents) (file : Option ofxXmlSettings) (now : Int)
    (s : ofxAutomatedInput) : Option (ofxAutomatedInput × Bool) :=
  let s := s.clear now
  match file with
  | none => some (s, false)
  | some xml =>
    let s := match xml.automated_input with
      | some tags => { s with _inputEvents := tags.foldl (loadEvent d) s._inputEvents }
      | none => s
    match s._inputEvents.getLast? with
    | some _ => some (s, true)
    | none => none

end ofxAutomatedInput

/-! ## The host: bus deliveries and traces of calls -/

/-- The four mouse channels of the host bus. -/
inductive MouseChannel
  | mouseMoved | mousePressed | mouseDragged | mouseReleased
deriving DecidableEq, Repr

/-- The two key channels of the host bus. -/
inductive KeyChannel
  | keyPressed | keyReleased
deriving DecidableEq, Repr

/-- The five touch channels of the host bus. -/
inductive TouchChannel
  | touchDown | touchMoved | touchUp | touchDoubleTap | touchCancelled
deriving DecidableEq, Repr

/-- Whether the engine is registered on a mouse channel. -/
def Listeners.mouse (l : Listeners) : MouseChannel → Bool
  | .mouseMoved => l.mouseMoved
  | .mousePressed => l.mousePressed
  | .mouseDragged => l.mouseDragged
  | .mouseReleased => l.mouseReleased

/-- Whether the engine is registered on a key channel. -/
def Listeners.key (l : Listeners) : KeyChannel → Bool
  | .keyPressed => l.keyPressed
  | .keyReleased => l.keyReleased

/-- Whether the engine is registered on a touch channel. -/
def Listeners.touch (l : Listeners) : TouchChannel → Bool
  | .touchDown => l.touchDown
  | .touchMoved => l.touchMoved
  | .touchUp => l.touchUp
  | .touchDoubleTap => l.touchDoubleTap
  | .touchCancelled => l.touchCancelled

/-- The default arguments of `startRecording` and `startPlayback`, which
`toggleRecording` and `togglePlayback` use; they are declared in the header. -/
structure DefaultFlags where
  recordFlags : Int
  playbackFlags : Int
deriving DecidableEq, Repr

/-- A call of a public member function, or an event of the host bus. -/
inductive Op
  | startRecording (recordFlags : Int)
  | stopRecording
  | toggleRecording
  | startPlayback (playbackFlags : Int)
  | stopPlayback
  | togglePlayback
  | clear
  | saveToXml
  | setLooping (bLooping : Bool)
  | setLoopOffsetTime (loopOffsetTime : Int)
  | setTriggerOFEvents (bTriggerOFEvents : Bool)
  | mouseEvent (channel : MouseChannel) (args : ofMouseEventArgs)
  | keyEvent (channel : KeyChannel) (args : ofKeyEventArgs)
  | touchEvent (channel : TouchChannel) (args : ofTouchEventArgs)
  | tick
deriving DecidableEq, Repr

namespace ofxAutomatedInput

/-- The host bus notifies a mouse channel: the engine's callback runs if it is
registered there. -/
def hostMouseEvent (channel : MouseChannel) (args : ofMouseEventArgs) (now : Int)
    (s : ofxAutomatedInput) : ofxAutomatedInput :=
  if s.listeners.mouse channel then s.mouseEventReceived args now else s

/-- The host bus notifies a key channel. -/
def hostKeyEvent (channel : KeyChannel) (args : ofKeyEventArgs) (now : Int)
    (s : ofxAutomatedInput) : ofxAutomatedInput :=
  if s.listeners.key channel then s.keyEventReceived args now else s

/-- The host bus notifies a touch channel. -/
def hostTouchEvent (channel : TouchChannel) (args : ofTouchEventArgs) (now : Int)
    (s : ofxAutomatedInput) : ofxAutomatedInput :=
  if s.listeners.touch channel then s.touchEventReceived args now else s

/-- The host's per-frame tick: `update` runs if it is registered on the tick channel. -/
def hostUpdate (now : Int) (s : ofxAutomatedInput) : ofxAutomatedInput × List Emission :=
  if s.listeners.update then s.update now else (s, [])

/-- Modelled from the spec: the setters of the looping flag, of the loop offset and of
the mirroring flag (`Op.setLooping`, `Op.setLoopOffsetTime`, `Op.setTriggerOFEvents`)
are declared in the header, which is not among the sources; each stores its argument.
The other operations are the member functions and host deliveries above, at clock
time `now`. -/
def apply (d : DefaultFlags) (now : Int) (op : Op) (s : ofxAutomatedInput) :
    ofxAutomatedInput :=
  match op with
  | .startRecording recordFlags => s.startRecording recordFlags now
  | .stopRecording => s.stopRecording now
  | .toggleRecording => s.toggleRecording d.recordFlags now
  | .startPlayback playbackFlags => s.startPlayback playbackFlags now
  | .stopPlayback => s.stopPlayback
  | .togglePlayback => s.togglePlayback d.playbackFlags now
  | .clear => s.clear now
  | .saveToXml => (s.saveToXml now).1
  | .setLooping b => { s with _bLooping := b }
  | .setLoopOffsetTime t => { s with _loopOffsetTime := t }
  | .setTriggerOFEvents b => { s with _bTriggerOFEvents := b }
  | .mouseEvent channel args => s.hostMouseEvent channel args now
  | .keyEvent channel args => s.hostKeyEvent channel args now
  | .touchEvent channel args => s.hostTouchEvent channel args now
  | .tick => (s.hostUpdate now).1

/-- A trace of operations, each with the clock time at which it happens, applied in
order. -/
def run (d : DefaultFlags) (s : ofxAutomatedInput) : List (Int × Op) → ofxAutomatedInput
  | [] => s
  | (now, op) :: rest => run d (s.apply d now op) rest

/-- The states after each of a sequence of ticks (calls of `update` at the given clock
times), the starting state first. -/
def tickStates (s : ofxAutomatedInput) : List Int → List ofxAutomatedInput
  | [] => [s]
  | now :: rest => s :: tickStates (s.update now).1 rest

/-- What each of a sequence of ticks sends out, tick by tick. -/
def tickEmissions (s : ofxAutomatedInput) : List Int → List (List Emission)
  | [] => []
  | now :: rest => (s.update now).2 :: tickEmissions (s.update now).1 rest

end ofxAutomatedInput

/-- A freshly constructed engine, the members the constructor leaves unset being zero. -/
def fresh : ofxAutomatedInput :=
  ofxAutomatedInput.construct
    { _mode := .OFX_AUTOMATED_INPUT_MODE_IDLE, _bTriggerOFEvents := false,
      _bLooping := false, _loopOffsetTime := 0, _inputEvents := [], _recordFlags := 0,
      _recordStartTime := 0, _playbackFlags := 0, _playbackStartTime := 0,
      _playbackIdx := 0, listeners := Listeners.none }

/-- The three-event timeline `[Start@0, Mouse(Pressed)@100, Stop@150]`. -/
def demoTimeline : List ofxAutomatedInputEvent :=
  [.control 0 ofxAutomatedInputControlEvent.Start,
   .mouse 100 { type := ofMouseEventArgs.Pressed, button := 0, x := 5, y := 7 },
   .control 150 ofxAutomatedInputControlEvent.Stop]

/-- An Idle engine holding `demoTimeline`. -/
def demoEngine : ofxAutomatedInput := { fresh with _inputEvents := demoTimeline }

/-! ## Invariants and auxiliary definitions -/

namespace ofxAutomatedInput

/-- The record that `saveToXml` of an event appends. -/
def encode : ofxAutomatedInputEvent → XmlEventTag
  | .control t a =>
    { event_type := some OFX_AUTOMATED_INPUT_TYPE_CONTROL,
      values := [("time_offset", t), ("action", a)] }
  | .mouse t a =>
    { event_type := some OFX_AUTOMATED_INPUT_TYPE_MOUSE,
      values := [("time_offset", t), ("type", a.type), ("button", a.button), ("x", a.x),
                 ("y", a.y)] }
  | .key t a =>
    { event_type := some OFX_AUTOMATED_INPUT_TYPE_KEY,
      values := [("time_offset", t), ("type", a.type), ("key", a.key)] }
  | .touch t a =>
    { event_type := some OFX_AUTOMATED_INPUT_TYPE_TOUCH,
      values := [("time_offset", t), ("type", a.type), ("touchId", a.id), ("x", a.x),
                 ("y", a.y)] }

/-- Invariant of a playback session without looping: looping is off and, while
playing, the cursor lies between `-1` and the last index. -/
def CursorInv (s : ofxAutomatedInput) : Prop :=
  s._bLooping = false ∧
    (s.isPlaying = true →
      -1 ≤ s._playbackIdx ∧ s._playbackIdx ≤ (s._inputEvents.length : Int) - 1)

/-- The relation of C3 between the states before and after a tick. -/
def CursorStep (a b : ofxAutomatedInput) : Prop :=
  a._playbackIdx ≤ b._playbackIdx ∧
    (a.isPlaying = true → b.isPlaying = false →
      b._playbackIdx = (b._inputEvents.length : Int) - 1)

/-- The registrations that go with a mode: none when Idle, the input channels of
`_recordFlags` when recording, the tick channel when playing. -/
def expectedListeners (s : ofxAutomatedInput) : Listeners :=
  match s._mode with
  | .OFX_AUTOMATED_INPUT_MODE_IDLE => Listeners.none
  | .OFX_AUTOMATED_INPUT_MODE_RECORD => setInputListeners s._recordFlags true Listeners.none
  | .OFX_AUTOMATED_INPUT_MODE_PLAYBACK => { Listeners.none with update := true }

/-- The registrations of `s` are those that go with its mode. -/
def ListenersOK (s : ofxAutomatedInput) : Prop := s.listeners = expectedListeners s

/-- Order of two neighbours in the timeline: offsets do not decrease, except that a
`Control(Start)` at offset 0 may follow anything. -/
def SessionOrder (a b : ofxAutomatedInputEvent) : Prop :=
  a.timeOffset ≤ b.timeOffset ∨ b = .control 0 ofxAutomatedInputControlEvent.Start

/-- Invariant behind C5 at clock time `clock`: neighbours are in `SessionOrder`, and
while recording the session began no later than `clock` and no offset recorded so far
exceeds the current one. -/
def OrderInv (clock : Int) (s : ofxAutomatedInput) : Prop :=
  List.Chain' SessionOrder s._inputEvents ∧
    (s.isRecording = true →
      s._recordStartTime ≤ clock ∧
        ∀ e ∈ s._inputEvents.getLast?, e.timeOffset ≤ clock - s._recordStartTime)

end ofxAutomatedInput

/-- Whether an event is a `Control(Start)`. -/
def ofxAutomatedInputEvent.isStart : ofxAutomatedInputEvent → Bool
  | .control _ action => action == ofxAutomatedInputControlEvent.Start
  | _ => false

/-- Whether an event is a `Control(Stop)`. -/
def ofxAutomatedInputEvent.isStop : ofxAutomatedInputEvent → Bool
  | .control _ action => action == ofxAutomatedInputControlEvent.Stop
  | _ => false

namespace ofxAutomatedInput

/-- Invariant behind C6: every `Control(Start)` is at offset 0, the Starts are as many
as the Stops plus one while recording, and outside a recording the last event, if any,
is a `Control(Stop)`. -/
def MarkerInv (s : ofxAutomatedInput) : Prop :=
  (∀ t, ofxAutomatedInputEvent.control t ofxAutomatedInputControlEvent.Start ∈
      s._inputEvents → t = 0) ∧
  (s._inputEvents.countP (·.isStart) =
      s._inputEvents.countP (·.isStop) + if s.isRecording then 1 else 0) ∧
  (s.isRecording = false → ∀ e ∈ s._inputEvents.getLast?,
      ∃ t, e = .control t ofxAutomatedInputControlEvent.Stop)

/-- The states the engine can be in: those a trace of operations and host events
reaches from a freshly constructed engine. -/
def Reachable (d : DefaultFlags) (s : ofxAutomatedInput) : Prop :=
  ∃ (junk : ofxAutomatedInput) (trace : List (Int × Op)), s = run d (construct junk) trace

end ofxAutomatedInput

/-- `demoEngine` with looping enabled and a loop offset of 50 ms. -/
def demoLoopEngine : ofxAutomatedInput :=
  { demoEngine with _bLooping := true, _loopOffsetTime := 50 }

namespace ofxAutomatedInput

/-- A player on the timeline `[Start@0, Mouse@100, Stop@150]` with looping enabled, a
loop offset of 50 ms and Mouse among the playback flags. -/
def LoopDemo (args : ofMouseEventArgs) (q : ofxAutomatedInput) : Prop :=
  q.isPlaying = true ∧
  q._inputEvents = [.control 0 ofxAutomatedInputControlEvent.Start, .mouse 100 args,
    .control 150 ofxAutomatedInputControlEvent.Stop] ∧
  q._bLooping = true ∧ q._loopOffsetTime = 50 ∧
  Int.land OFX_AUTOMATED_INPUT_TYPE_MOUSE q._playbackFlags ≠ 0

end ofxAutomatedInput

/-- Whether an emission is an event of the host bus (mirroring), as opposed to one of
the engine's own observer events. -/
def Emission.isHost : Emission → Bool
  | .playbackStartedEvent _ => false
  | .playbackStoppedEvent _ => false
  | .mouseInputEvent _ => false
  | .keyInputEvent _ => false
  | .touchInputEvent _ => false
  | _ => true

/-- Whether an operation is an event of the host bus (an input event or the tick). -/
def Op.isHostEvent : Op → Bool
  | .mouseEvent _ _ => true
  | .keyEvent _ _ => true
  | .touchEvent _ _ => true
  | .tick => true
  | _ => false

/-- A call of the public surface: an operation of `Op`, or `loadFromXml` on what the
path holds (`none`: no loadable file). -/
inductive Call
  | op (o : Op)
  | loadFromXml (file : Option ofxXmlSettings)
deriving DecidableEq, Repr

namespace ofxAutomatedInput

/-- The state of `loadFromXml` when it reaches its last log line (line 107), for a
document that `xml.loadFile` could load: the timeline cleared and refilled from the
document. -/
def loadedState (d : DefaultEvents) (xml : ofxXmlSettings) (now : Int)
    (s : ofxAutomatedInput) : ofxAutomatedInput :=
  match xml.automated_input with
  | some tags => { s.clear now with _inputEvents := tags.foldl (loadEvent d) [] }
  | none => s.clear now

/-- The decoding of one record, in the words of the spec: a record whose `event_type`
tag is one of Control, Mouse, Key, Touch is decoded by the loader of that kind; a
record with another tag, or without a tag, has no decoding. -/
def decodeRecord (d : DefaultEvents) (tag : XmlEventTag) : Option ofxAutomatedInputEvent :=
  match tag.event_type with
  | none => none
  | some t =>
    if t = OFX_AUTOMATED_INPUT_TYPE_CONTROL then
      some (ofxAutomatedInputControlEvent.loadFromXml d.action tag)
    else if t = OFX_AUTOMATED_INPUT_TYPE_MOUSE then
      some (ofxAutomatedInputMouseEvent.loadFromXml d.mouse tag)
    else if t = OFX_AUTOMATED_INPUT_TYPE_KEY then
      some (ofxAutomatedInputKeyEvent.loadFromXml d.key tag)
    else if t = OFX_AUTOMATED_INPUT_TYPE_TOUCH then
      some (ofxAutomatedInputTouchEvent.loadFromXml d.touch tag)
    else none

/-- What a recording begun at clock time `start` with the flags `recordFlags` keeps of
a host event delivered at clock time `now`, in the words of the spec: an input event
whose kind is in the flags is appended with the offset `now - start`; an event of a
kind that is not in the flags is not observed. -/
def recorded (recordFlags start : Int) : Int × Op → Option ofxAutomatedInputEvent
  | (now, .mouseEvent _ args) =>
    if Int.land recordFlags OFX_AUTOMATED_INPUT_TYPE_MOUSE ≠ 0 then
      some (.mouse (now - start) args)
    else none
  | (now, .keyEvent _ args) =>
    if Int.land recordFlags OFX_AUTOMATED_INPUT_TYPE_KEY ≠ 0 then
      some (.key (now - start) args)
    else none
  | (now, .touchEvent _ args) =>
    if Int.land recordFlags OFX_AUTOMATED_INPUT_TYPE_TOUCH ≠ 0 then
      some (.touch (now - start) args)
    else none
  | _ => none

/-- One call at clock time `now`; `none` when `loadFromXml` has no defined result. -/
def applyCall (d : DefaultFlags) (de : DefaultEvents) (now : Int) (c : Call)
    (s : ofxAutomatedInput) : Option ofxAutomatedInput :=
  match c with
  | .op o => some (s.apply d now o)
  | .loadFromXml file => (s.loadFromXml de file now).map Prod.fst

/-- A trace of calls, each with its clock time, applied in order; `none` once a call
has no defined result. -/
def runCalls (d : DefaultFlags) (de : DefaultEvents) (s : ofxAutomatedInput) :
    List (Int × Call) → Option ofxAutomatedInput
  | [] => some s
  | (now, c) :: rest =>
    match applyCall d de now c s with
    | some s' => runCalls d de s' rest
    | none => none

/-- The states that a trace of calls, `loadFromXml` included, reaches from a freshly
constructed engine. -/
def ReachableByCalls (d : DefaultFlags) (de : DefaultEvents) (s : ofxAutomatedInput) :
    Prop :=
  ∃ (junk : ofxAutomatedInput) (trace : List (Int × Call)),
    runCalls d de (construct junk) trace = some s

/-- Cursor bounds: while playing, `_playbackIdx` lies between `-1` and the last index
of the timeline. -/
def CursorBound (s : ofxAutomatedInput) : Prop :=
  s.isPlaying = true →
    -1 ≤ s._playbackIdx ∧ s._playbackIdx ≤ (s._inputEvents.length : Int) - 1

/-- Invariant of recorded timelines at clock time `clock`: no offset is negative, and
while recording the session began no later than `clock`. -/
def OffsetsInv (clock : Int) (s : ofxAutomatedInput) : Prop :=
  (∀ e ∈ s._inputEvents, 0 ≤ e.timeOffset) ∧
    (s.isRecording = true → s._recordStartTime ≤ clock)

end ofxAutomatedInput

/-- A document whose root container holds one record with the unknown type tag 99. -/
def demoUnknownFile : ofxXmlSettings :=
  { automated_input := some [{ event_type := some 99, values := [("time_offset", 5)] }] }

/-- A document with a Mouse record, a record with an unknown tag, a record without a
tag and a Control record. -/
def demoMixedFile : ofxXmlSettings :=
  { automated_input := some
      [{ event_type := some OFX_AUTOMATED_INPUT_TYPE_MOUSE,
         values := [("time_offset", 20), ("type", 0), ("button", 1), ("x", 3), ("y", 4)] },
       { event_type := some 99, values := [("time_offset", 30)] },
       { event_type := none, values := [("time_offset", 40)] },
       { event_type := some OFX_AUTOMATED_INPUT_TYPE_CONTROL,
         values := [("time_offset", 50), ("action", 1)] }] }

/-- Default payloads for the examples: everything zero. -/
def demoDefaults : DefaultEvents :=
  { action := 0, mouse := ⟨0, 0, 0, 0⟩, key := ⟨0, 0⟩, touch := ⟨0, 0, 0, 0⟩ }

/-- A document whose root container holds one Mouse record with the negative
`time_offset` of -100. -/
def demoNegativeFile : ofxXmlSettings :=
  { automated_input := some
      [{ event_type := some OFX_AUTOMATED_INPUT_TYPE_MOUSE,
         values := [("time_offset", -100), ("type", 1), ("button", 0), ("x", 3),
                    ("y", 4)] }] }

/-! ## Shared lemmas -/

namespace ofxAutomatedInput

theorem saveToXml_event (e : ofxAutomatedInputEvent) (xml : List XmlEventTag) :
    e.saveToXml xml = xml ++ [encode e] := by
  cases e <;> rfl

theorem foldl_saveToXml (events : List ofxAutomatedInputEvent) (xml : List XmlEventTag) :
    events.foldl (fun xml e => e.saveToXml xml) xml = xml ++ events.map encode := by
  induction events generalizing xml with
  | nil => simp
  | cons e rest ih =>
    rw [List.foldl_cons, ih, saveToXml_event]
    simp

theorem loadEvent_encode (d : DefaultEvents) (events : List ofxAutomatedInputEvent)
    (e : ofxAutomatedInputEvent) : loadEvent d events (encode e) = events ++ [e] := by
  cases e <;> rfl

theorem foldl_loadEvent_encode (d : DefaultEvents)
    (events acc : List ofxAutomatedInputEvent) :
    (events.map encode).foldl (loadEvent d) acc = acc ++ events := by
  induction events generalizing acc with
  | nil => simp
  | cons e rest ih =>
    rw [List.map_cons, List.foldl_cons, ih, loadEvent_encode]
    simp

theorem stopPlayback_of_not_playing (s : ofxAutomatedInput) (h : s.isPlaying = false) :
    s.stopPlayback = s := by
  simp [stopPlayback, h]

theorem stopRecording_of_not_recording (now : Int) (s : ofxAutomatedInput)
    (h : s.isRecording = false) : s.stopRecording now = s := by
  simp [stopRecording, h]

theorem clear_inputEvents (now : Int) (s : ofxAutomatedInput) :
    (s.clear now)._inputEvents = [] := rfl

/-- Saving the non-empty timeline of an Idle engine and loading the document into any
engine returns `true` and leaves exactly the saved timeline. -/
theorem loadFromXml_saveToXml (d : DefaultEvents) (s r : ofxAutomatedInput)
    (now now' : Int) (hidle : s._mode = OFX_AUTOMATED_INPUT_MODE_IDLE)
    (hne : s._inputEvents ≠ []) :
    r.loadFromXml d (some (s.saveToXml now).2) now' =
      some ({ r.clear now' with _inputEvents := s._inputEvents }, true) := by
  have hp : s.stopPlayback = s := stopPlayback_of_not_playing s (by simp [isPlaying, hidle])
  have hr : s.stopRecording now = s :=
    stopRecording_of_not_recording now s (by simp [isRecording, hidle])
  have hl : ∃ e, s._inputEvents.getLast? = some e := by
    cases h : s._inputEvents.getLast? with
    | none => exact absurd (List.getLast?_eq_none_iff.mp h) hne
    | some e => exact ⟨e, rfl⟩
  obtain ⟨e, he⟩ := hl
  simp only [loadFromXml, saveToXml, hp, hr, foldl_saveToXml, List.nil_append,
    foldl_loadEvent_encode, clear_inputEvents, he]

theorem triggerControl_kind (action cur : Int) (em : Emission)
    (h : em ∈ triggerControl action cur) : em.kind = OFX_AUTOMATED_INPUT_TYPE_CONTROL := by
  unfold triggerControl at h
  split_ifs at h <;> simp at h <;> subst h <;> rfl

theorem triggerMouse_kind (b : Bool) (args : ofMouseEventArgs) (em : Emission)
    (h : em ∈ triggerMouse b args) : em.kind = OFX_AUTOMATED_INPUT_TYPE_MOUSE := by
  unfold triggerMouse at h
  rw [List.mem_append] at h
  rcases h with h | h
  · split_ifs at h <;> simp at h <;> subst h <;> rfl
  · simp at h; subst h; rfl

theorem triggerKey_kind (b : Bool) (args : ofKeyEventArgs) (em : Emission)
    (h : em ∈ triggerKey b args) : em.kind = OFX_AUTOMATED_INPUT_TYPE_KEY := by
  unfold triggerKey at h
  rw [List.mem_append] at h
  rcases h with h | h
  · split_ifs at h <;> simp at h <;> subst h <;> rfl
  · simp at h; subst h; rfl

theorem triggerTouch_kind (b : Bool) (args : ofTouchEventArgs) (em : Emission)
    (h : em ∈ triggerTouch b args) : em.kind = OFX_AUTOMATED_INPUT_TYPE_TOUCH := by
  unfold triggerTouch at h
  rw [List.mem_append] at h
  rcases h with h | h
  · split_ifs at h <;> simp at h <;> subst h <;> rfl
  · simp at h; subst h; rfl

/-- Whatever `update` sends out for a due event has the kind of that event, and an
input event sends something out only if its type bit is in `_playbackFlags`. -/
theorem trigger_kind (s : ofxAutomatedInput) (e : ofxAutomatedInputEvent) (cur : Int)
    (em : Emission) (h : em ∈ s.trigger e cur) :
    em.kind = e.type ∧
      (e.type = OFX_AUTOMATED_INPUT_TYPE_CONTROL ∨ Int.land e.type s._playbackFlags ≠ 0) := by
  cases e with
  | control t a => exact ⟨triggerControl_kind a cur em h, Or.inl rfl⟩
  | mouse t a =>
    simp only [trigger] at h
    split_ifs at h with hf
    · exact ⟨triggerMouse_kind _ a em h, Or.inr hf⟩
    · simp at h
  | key t a =>
    simp only [trigger] at h
    split_ifs at h with hf
    · exact ⟨triggerKey_kind _ a em h, Or.inr hf⟩
    · simp at h
  | touch t a =>
    simp only [trigger] at h
    split_ifs at h with hf
    · exact ⟨triggerTouch_kind _ a em h, Or.inr hf⟩
    · simp at h

theorem update_not_playing (now : Int) (s : ofxAutomatedInput)
    (hp : s.isPlaying = false) : s.update now = (s, []) := by
  simp [update, hp]

theorem update_rewind (now : Int) (s : ofxAutomatedInput) (hp : s.isPlaying = true)
    (hx : toSizeT (s._playbackIdx + 1) ≥ s._inputEvents.length)
    (hl : s._bLooping = true) :
    s.update now =
      ({ s with _playbackStartTime := now + s._loopOffsetTime, _playbackIdx := -1 }, []) := by
  simp [update, hp, hx, hl]

theorem update_stop (now : Int) (s : ofxAutomatedInput) (hp : s.isPlaying = true)
    (hx : toSizeT (s._playbackIdx + 1) ≥ s._inputEvents.length)
    (hl : s._bLooping = false) : s.update now = (s.stopPlayback, []) := by
  simp [update, hp, hx, hl]

theorem update_due (now : Int) (s : ofxAutomatedInput) (e : ofxAutomatedInputEvent)
    (hp : s.isPlaying = true)
    (hx : ¬ toSizeT (s._playbackIdx + 1) ≥ s._inputEvents.length)
    (he : s.eventAt (s._playbackIdx + 1) = some e)
    (hd : e.timeOffset ≤ now - s._playbackStartTime) :
    s.update now =
      ({ s with _playbackIdx := s._playbackIdx + 1 },
        s.trigger e (now - s._playbackStartTime)) := by
  simp [update, hp, hx, he, hd]

theorem update_not_due (now : Int) (s : ofxAutomatedInput) (e : ofxAutomatedInputEvent)
    (hp : s.isPlaying = true)
    (hx : ¬ toSizeT (s._playbackIdx + 1) ≥ s._inputEvents.length)
    (he : s.eventAt (s._playbackIdx + 1) = some e)
    (hd : ¬ e.timeOffset ≤ now - s._playbackStartTime) :
    s.update now = (s, []) := by
  simp [update, hp, hx, he, hd]

theorem update_outside (now : Int) (s : ofxAutomatedInput)
    (hp : s.isPlaying = true)
    (hx : ¬ toSizeT (s._playbackIdx + 1) ≥ s._inputEvents.length)
    (he : s.eventAt (s._playbackIdx + 1) = none) :
    s.update now = (s, []) := by
  simp [update, hp, hx, he]

/-- The six ways a tick can go. -/
theorem update_cases (now : Int) (s : ofxAutomatedInput) :
    (s.isPlaying = false ∧ s.update now = (s, [])) ∨
    (s.isPlaying = true ∧ toSizeT (s._playbackIdx + 1) ≥ s._inputEvents.length ∧
      s._bLooping = true ∧
      s.update now =
        ({ s with _playbackStartTime := now + s._loopOffsetTime, _playbackIdx := -1 }, [])) ∨
    (s.isPlaying = true ∧ toSizeT (s._playbackIdx + 1) ≥ s._inputEvents.length ∧
      s._bLooping = false ∧ s.update now = (s.stopPlayback, [])) ∨
    (∃ e, s.isPlaying = true ∧ ¬ toSizeT (s._playbackIdx + 1) ≥ s._inputEvents.length ∧
      s.eventAt (s._playbackIdx + 1) = some e ∧ e.timeOffset ≤ now - s._playbackStartTime ∧
      s.update now =
        ({ s with _playbackIdx := s._playbackIdx + 1 },
          s.trigger e (now - s._playbackStartTime))) ∨
    (s.isPlaying = true ∧ s.update now = (s, [])) := by
  by_cases hp : s.isPlaying = true
  · by_cases hx : toSizeT (s._playbackIdx + 1) ≥ s._inputEvents.length
    · by_cases hl : s._bLooping = true
      · exact Or.inr (Or.inl ⟨hp, hx, hl, update_rewind now s hp hx hl⟩)
      · have hl' : s._bLooping = false := by simpa using hl
        exact Or.inr (Or.inr (Or.inl ⟨hp, hx, hl', update_stop now s hp hx hl'⟩))
    · rcases Option.eq_none_or_eq_some (s.eventAt (s._playbackIdx + 1)) with he | ⟨e, he⟩
      · exact Or.inr (Or.inr (Or.inr (Or.inr ⟨hp, update_outside now s hp hx he⟩)))
      · by_cases hd : e.timeOffset ≤ now - s._playbackStartTime
        · exact Or.inr (Or.inr (Or.inr (Or.inl
            ⟨e, hp, hx, he, hd, update_due now s e hp hx he hd⟩)))
        · exact Or.inr (Or.inr (Or.inr (Or.inr ⟨hp, update_not_due now s e hp hx he hd⟩)))
  · have hp' : s.isPlaying = false := by simpa using hp
    exact Or.inl ⟨hp', update_not_playing now s hp'⟩

/-- A tick leaves the flags, the mirror setting, the looping settings and the timeline
as they are. -/
theorem update_frame (now : Int) (s : ofxAutomatedInput) :
    (s.update now).1._playbackFlags = s._playbackFlags ∧
    (s.update now).1._bTriggerOFEvents = s._bTriggerOFEvents ∧
    (s.update now).1._bLooping = s._bLooping ∧
    (s.update now).1._loopOffsetTime = s._loopOffsetTime ∧
    (s.update now).1._inputEvents = s._inputEvents := by
  rcases update_cases now s with ⟨_, h⟩ | ⟨_, _, _, h⟩ | ⟨hp, _, _, h⟩ | ⟨e, _, _, _, _, h⟩ |
    ⟨_, h⟩ <;> rw [h] <;> simp [stopPlayback]
  split_ifs
  simp

/-- What a tick sends out comes from the due event at `_playbackIdx + 1`. -/
theorem update_emission (now : Int) (s : ofxAutomatedInput) (em : Emission)
    (h : em ∈ (s.update now).2) :
    ∃ e, s.eventAt (s._playbackIdx + 1) = some e ∧
      em ∈ s.trigger e (now - s._playbackStartTime) := by
  rcases update_cases now s with ⟨_, h'⟩ | ⟨_, _, _, h'⟩ | ⟨hp, _, _, h'⟩ |
    ⟨e, _, _, he, _, h'⟩ | ⟨_, h'⟩ <;> rw [h'] at h <;> simp at h
  exact ⟨e, he, h⟩

theorem eventAt_lt (s : ofxAutomatedInput) (idx : Int) (e : ofxAutomatedInputEvent)
    (h : s.eventAt idx = some e) : 0 ≤ idx ∧ idx < s._inputEvents.length := by
  unfold eventAt at h
  split_ifs at h with h0
  refine ⟨h0, ?_⟩
  have := (List.get?_eq_some.mp h).1
  omega

theorem toSizeT_le (n : Int) (h : 0 ≤ n) : toSizeT n ≤ n := by
  unfold toSizeT
  omega

theorem tickEmissions_kind (ticks : List Int) (s : ofxAutomatedInput)
    (out : List Emission) (hout : out ∈ s.tickEmissions ticks) (em : Emission)
    (hem : em ∈ out) :
    em.kind = OFX_AUTOMATED_INPUT_TYPE_CONTROL ∨ Int.land em.kind s._playbackFlags ≠ 0 := by
  induction ticks generalizing s with
  | nil => simp [tickEmissions] at hout
  | cons now rest ih =>
    simp only [tickEmissions, List.mem_cons] at hout
    rcases hout with h | h
    · subst h
      obtain ⟨e, _, he⟩ := update_emission now s em hem
      obtain ⟨hk, hc⟩ := trigger_kind s e _ em he
      rw [hk]
      exact hc
    · have := ih (s.update now).1 h
      rwa [(update_frame now s).1] at this

theorem head?_tickStates (s : ofxAutomatedInput) (ticks : List Int) :
    (s.tickStates ticks).head? = some s := by
  cases ticks <;> rfl

/-- A relation that every tick establishes between the state before and after it, given
an invariant that ticks keep, links the consecutive states of a run of ticks. -/
theorem chain_tickStates (P : ofxAutomatedInput → Prop)
    (R : ofxAutomatedInput → ofxAutomatedInput → Prop)
    (hstep : ∀ (s : ofxAutomatedInput) (now : Int), P s →
      P (s.update now).1 ∧ R s (s.update now).1)
    (ticks : List Int) (s : ofxAutomatedInput) (hs : P s) :
    List.Chain' R (s.tickStates ticks) := by
  induction ticks generalizing s with
  | nil => simp [tickStates]
  | cons now rest ih =>
    simp only [tickStates]
    rw [List.chain'_cons']
    refine ⟨?_, ih _ (hstep s now hs).1⟩
    intro y hy
    rw [head?_tickStates] at hy
    cases hy
    exact (hstep s now hs).2

theorem eventAt_some_not_exhausted (s : ofxAutomatedInput) (idx : Int)
    (e : ofxAutomatedInputEvent) (h : s.eventAt idx = some e) :
    ¬ toSizeT idx ≥ s._inputEvents.length := by
  have h1 := eventAt_lt s idx e h
  have h2 := toSizeT_le idx h1.1
  omega

theorem cursor_step (s : ofxAutomatedInput) (now : Int) (hs : CursorInv s) :
    CursorInv (s.update now).1 ∧ CursorStep s (s.update now).1 := by
  obtain ⟨hl, hi⟩ := hs
  rcases update_cases now s with ⟨hp, h⟩ | ⟨_, _, hl', _⟩ | ⟨hp, hx, _, h⟩ |
    ⟨e, hp, _, he, _, h⟩ | ⟨hp, h⟩
  · rw [h]
    exact ⟨⟨hl, hi⟩, le_refl _, fun h1 => by simp [hp] at h1⟩
  · rw [hl] at hl'
    cases hl'
  · rw [h]
    obtain ⟨h1, h2⟩ := hi hp
    have h3 := toSizeT_le (s._playbackIdx + 1) (by omega)
    have hm : s.stopPlayback.isPlaying = false := by
      simp only [stopPlayback, hp, if_true]
      rfl
    have hidx : s.stopPlayback._playbackIdx = s._playbackIdx := by
      simp [stopPlayback, hp]
    have hev : s.stopPlayback._inputEvents = s._inputEvents := by
      simp [stopPlayback, hp]
    have hlo : s.stopPlayback._bLooping = s._bLooping := by
      simp [stopPlayback, hp]
    refine ⟨⟨by simp only [hlo, hl], fun h4 => by simp [hm] at h4⟩, ?_, fun _ _ => ?_⟩
    · simp only [hidx, le_refl]
    · simp only [hidx, hev]
      omega
  · rw [h]
    obtain ⟨h1, h2⟩ := hi hp
    have h3 := eventAt_lt s _ e he
    refine ⟨⟨hl, fun _ => ⟨?_, ?_⟩⟩, ?_, fun _ h4 => ?_⟩
    · show -1 ≤ s._playbackIdx + 1
      omega
    · show s._playbackIdx + 1 ≤ (s._inputEvents.length : Int) - 1
      omega
    · show s._playbackIdx ≤ s._playbackIdx + 1
      omega
    · have : s.isPlaying = false := h4
      simp [hp] at this
  · rw [h]
    exact ⟨⟨hl, hi⟩, le_refl _, fun h1 h2 => by simp [hp] at h2⟩

theorem startPlayback_cursorInv (s : ofxAutomatedInput) (playbackFlags now : Int)
    (hp : s.isPlaying = false) (hl : s._bLooping = false) :
    CursorInv (s.startPlayback playbackFlags now) := by
  unfold CursorInv startPlayback stopRecording
  simp only [hp]
  by_cases hr : s.isRecording = true
  · simp [hr, hl]
    omega
  · simp [hr, hl]

theorem run_append (d : DefaultFlags) (s : ofxAutomatedInput) (a b : List (Int × Op)) :
    run d s (a ++ b) = run d (run d s a) b := by
  induction a generalizing s with
  | nil => rfl
  | cons x rest ih =>
    obtain ⟨now, op⟩ := x
    exact ih _

/-- While the engine is registered on the four mouse channels, every mouse event of
the host is appended with the offset `now - _recordStartTime`. -/
theorem run_mouseEvents (d : DefaultFlags)
    (evs : List (Int × MouseChannel × ofMouseEventArgs)) (r : ofxAutomatedInput)
    (hm : ∀ ch, r.listeners.mouse ch = true) :
    run d r (evs.map fun e => (e.1, Op.mouseEvent e.2.1 e.2.2)) =
      { r with _inputEvents := r._inputEvents ++
          evs.map fun e => .mouse (e.1 - r._recordStartTime) e.2.2 } := by
  induction evs generalizing r with
  | nil => simp [run]
  | cons e rest ih =>
    obtain ⟨now, ch, args⟩ := e
    simp only [List.map_cons, run, apply, hostMouseEvent, hm ch, if_true, mouseEventReceived]
    rw [ih]
    · simp
    · exact hm

theorem setInputListeners_mouse (l : Listeners) (ch : MouseChannel) :
    (setInputListeners OFX_AUTOMATED_INPUT_TYPE_MOUSE true l).mouse ch = true := by
  cases ch <;> rfl

theorem setInputListeners_off_on (flags : Int) :
    setInputListeners flags false (setInputListeners flags true Listeners.none) =
      Listeners.none := by
  unfold setInputListeners Listeners.none
  by_cases h1 : Int.land flags OFX_AUTOMATED_INPUT_TYPE_MOUSE ≠ 0 <;>
  by_cases h2 : Int.land flags OFX_AUTOMATED_INPUT_TYPE_KEY ≠ 0 <;>
  by_cases h3 : Int.land flags OFX_AUTOMATED_INPUT_TYPE_TOUCH ≠ 0 <;>
  simp [h1, h2, h3]

theorem stopPlayback_listenersOK (s : ofxAutomatedInput) (h : ListenersOK s) :
    ListenersOK s.stopPlayback := by
  obtain ⟨mode, b1, b2, lo, evs, rf, rs, pf, ps, pi, l⟩ := s
  simp only [ListenersOK, expectedListeners] at h
  subst h
  cases mode <;> rfl

theorem stopRecording_listenersOK (now : Int) (s : ofxAutomatedInput) (h : ListenersOK s) :
    ListenersOK (s.stopRecording now) := by
  obtain ⟨mode, b1, b2, lo, evs, rf, rs, pf, ps, pi, l⟩ := s
  simp only [ListenersOK, expectedListeners] at h
  subst h
  cases mode
  · rfl
  · simp only [ListenersOK, expectedListeners, stopRecording, isRecording, beq_self_eq_true,
      Bool.not_true, Bool.false_eq_true, if_false, setInputListeners_off_on]
  · rfl

theorem startRecording_listenersOK (flags now : Int) (s : ofxAutomatedInput)
    (h : ListenersOK s) : ListenersOK (s.startRecording flags now) := by
  obtain ⟨mode, b1, b2, lo, evs, rf, rs, pf, ps, pi, l⟩ := s
  simp only [ListenersOK, expectedListeners] at h
  subst h
  cases mode <;> rfl

theorem startPlayback_listenersOK (flags now : Int) (s : ofxAutomatedInput)
    (h : ListenersOK s) : ListenersOK (s.startPlayback flags now) := by
  obtain ⟨mode, b1, b2, lo, evs, rf, rs, pf, ps, pi, l⟩ := s
  simp only [ListenersOK, expectedListeners] at h
  subst h
  cases mode
  · rfl
  · simp [ListenersOK, expectedListeners, startPlayback, stopRecording, isPlaying,
      isRecording, setInputListeners_off_on]
  · rfl

theorem update_listenersOK (now : Int) (s : ofxAutomatedInput) (h : ListenersOK s) :
    ListenersOK (s.update now).1 := by
  rcases update_cases now s with ⟨_, h'⟩ | ⟨_, _, _, h'⟩ | ⟨_, _, _, h'⟩ |
    ⟨e, _, _, _, _, h'⟩ | ⟨_, h'⟩ <;> rw [h']
  · exact h
  · exact h
  · exact stopPlayback_listenersOK s h
  · exact h
  · exact h

theorem apply_listenersOK (d : DefaultFlags) (now : Int) (op : Op) (s : ofxAutomatedInput)
    (h : ListenersOK s) : ListenersOK (s.apply d now op) := by
  cases op with
  | startRecording f => exact startRecording_listenersOK f now s h
  | stopRecording => exact stopRecording_listenersOK now s h
  | toggleRecording =>
    simp only [apply, toggleRecording]
    split_ifs
    · exact stopRecording_listenersOK now s h
    · exact startRecording_listenersOK _ now s h
  | startPlayback f => exact startPlayback_listenersOK f now s h
  | stopPlayback => exact stopPlayback_listenersOK s h
  | togglePlayback =>
    simp only [apply, togglePlayback]
    split_ifs
    · exact stopPlayback_listenersOK s h
    · exact startPlayback_listenersOK _ now s h
  | clear => exact stopRecording_listenersOK now _ (stopPlayback_listenersOK s h)
  | saveToXml => exact stopRecording_listenersOK now _ (stopPlayback_listenersOK s h)
  | setLooping b => exact h
  | setLoopOffsetTime t => exact h
  | setTriggerOFEvents b => exact h
  | mouseEvent ch args =>
    simp only [apply, hostMouseEvent]
    split_ifs
    · exact h
    · exact h
  | keyEvent ch args =>
    simp only [apply, hostKeyEvent]
    split_ifs
    · exact h
    · exact h
  | touchEvent ch args =>
    simp only [apply, hostTouchEvent]
    split_ifs
    · exact h
    · exact h
  | tick =>
    simp only [apply, hostUpdate]
    split_ifs
    · exact update_listenersOK now s h
    · exact h

theorem construct_listenersOK (junk : ofxAutomatedInput) : ListenersOK (construct junk) := rfl

theorem run_listenersOK (d : DefaultFlags) (trace : List (Int × Op)) (s : ofxAutomatedInput)
    (h : ListenersOK s) : ListenersOK (run d s trace) := by
  induction trace generalizing s with
  | nil => exact h
  | cons x rest ih =>
    obtain ⟨now, op⟩ := x
    exact ih _ (apply_listenersOK d now op s h)

theorem chain'_snoc {α : Type} (R : α → α → Prop) (l : List α) (x : α)
    (hl : List.Chain' R l) (hx : ∀ y ∈ l.getLast?, R y x) : List.Chain' R (l ++ [x]) := by
  rw [List.chain'_append]
  refine ⟨hl, List.chain'_singleton x, fun y hy z hz => ?_⟩
  simp at hz
  subst hz
  exact hx y hy

theorem OrderInv.mono {c c' : Int} {s : ofxAutomatedInput} (h : OrderInv c s)
    (hc : c ≤ c') : OrderInv c' s := by
  refine ⟨h.1, fun hr => ?_⟩
  obtain ⟨h1, h2⟩ := h.2 hr
  exact ⟨le_trans h1 hc, fun e he => by have := h2 e he; omega⟩

theorem stopPlayback_orderInv (c : Int) (s : ofxAutomatedInput) (h : OrderInv c s) :
    OrderInv c s.stopPlayback := by
  obtain ⟨mode, b1, b2, lo, evs, rf, rs, pf, ps, pi, l⟩ := s
  cases mode
  · exact h
  · exact h
  · exact ⟨h.1, fun hr => by simp [stopPlayback, isPlaying, isRecording] at hr⟩

theorem stopRecording_orderInv (now : Int) (s : ofxAutomatedInput) (h : OrderInv now s) :
    OrderInv now (s.stopRecording now) := by
  obtain ⟨mode, b1, b2, lo, evs, rf, rs, pf, ps, pi, l⟩ := s
  cases mode
  · exact h
  · obtain ⟨h1, h2⟩ := h
    obtain ⟨h3, h4⟩ := h2 rfl
    refine ⟨?_, fun hr => by simp [stopRecording, isRecording] at hr⟩
    exact chain'_snoc _ _ _ h1 (fun y hy => Or.inl (h4 y hy))
  · exact h

theorem startRecording_orderInv (flags now : Int) (s : ofxAutomatedInput)
    (h : OrderInv now s) : OrderInv now (s.startRecording flags now) := by
  obtain ⟨mode, b1, b2, lo, evs, rf, rs, pf, ps, pi, l⟩ := s
  have key : OrderInv now
      { _mode := .OFX_AUTOMATED_INPUT_MODE_RECORD, _bTriggerOFEvents := b1, _bLooping := b2,
        _loopOffsetTime := lo,
        _inputEvents := evs ++ [.control 0 ofxAutomatedInputControlEvent.Start],
        _recordFlags := flags, _recordStartTime := now, _playbackFlags := pf,
        _playbackStartTime := ps, _playbackIdx := pi,
        listeners := setInputListeners flags true l } := by
    refine ⟨chain'_snoc _ _ _ h.1 (fun y _ => Or.inr rfl), fun _ => ⟨le_refl _, ?_⟩⟩
    intro e he
    simp at he
    subst he
    simp [ofxAutomatedInputEvent.timeOffset]
  cases mode
  · exact key
  · exact h
  · refine ⟨key.1, fun hr => ?_⟩
    exact key.2 rfl

theorem startPlayback_orderInv (flags now : Int) (s : ofxAutomatedInput)
    (h : OrderInv now s) : OrderInv now (s.startPlayback flags now) := by
  have h1 := stopRecording_orderInv now s h
  obtain ⟨mode, b1, b2, lo, evs, rf, rs, pf, ps, pi, l⟩ := s
  cases mode
  · exact ⟨h.1, fun hr => by simp [startPlayback, isPlaying, isRecording] at hr⟩
  · exact ⟨h1.1, fun hr => by simp [startPlayback, isPlaying, isRecording] at hr⟩
  · exact h

theorem update_orderInv (c now : Int) (s : ofxAutomatedInput) (h : OrderInv c s) :
    OrderInv c (s.update now).1 := by
  rcases update_cases now s with ⟨_, h'⟩ | ⟨hp, _, _, h'⟩ | ⟨_, _, _, h'⟩ |
    ⟨e, hp, _, _, _, h'⟩ | ⟨_, h'⟩ <;> rw [h']
  · exact h
  · refine ⟨h.1, fun hr => ?_⟩
    have hr' : s.isRecording = true := hr
    simp only [isPlaying, isRecording, beq_iff_eq] at hp hr'
    rw [hp] at hr'
    cases hr'
  · exact stopPlayback_orderInv c s h
  · refine ⟨h.1, fun hr => ?_⟩
    have hr' : s.isRecording = true := hr
    simp only [isPlaying, isRecording, beq_iff_eq] at hp hr'
    rw [hp] at hr'
    cases hr'
  · exact h

theorem recording_of_mouse (s : ofxAutomatedInput) (ch : MouseChannel) (h : ListenersOK s)
    (hm : s.listeners.mouse ch = true) : s.isRecording = true := by
  obtain ⟨mode, b1, b2, lo, evs, rf, rs, pf, ps, pi, l⟩ := s
  simp only [ListenersOK, expectedListeners] at h
  subst h
  cases mode
  · cases ch <;> simp [Listeners.mouse, Listeners.none] at hm
  · rfl
  · cases ch <;> simp [Listeners.mouse, Listeners.none] at hm

theorem recording_of_key (s : ofxAutomatedInput) (ch : KeyChannel) (h : ListenersOK s)
    (hm : s.listeners.key ch = true) : s.isRecording = true := by
  obtain ⟨mode, b1, b2, lo, evs, rf, rs, pf, ps, pi, l⟩ := s
  simp only [ListenersOK, expectedListeners] at h
  subst h
  cases mode
  · cases ch <;> simp [Listeners.key, Listeners.none] at hm
  · rfl
  · cases ch <;> simp [Listeners.key, Listeners.none] at hm

theorem recording_of_touch (s : ofxAutomatedInput) (ch : TouchChannel) (h : ListenersOK s)
    (hm : s.listeners.touch ch = true) : s.isRecording = true := by
  obtain ⟨mode, b1, b2, lo, evs, rf, rs, pf, ps, pi, l⟩ := s
  simp only [ListenersOK, expectedListeners] at h
  subst h
  cases mode
  · cases ch <;> simp [Listeners.touch, Listeners.none] at hm
  · rfl
  · cases ch <;> simp [Listeners.touch, Listeners.none] at hm

/-- Appending, while recording, an event stamped with the current offset keeps the
order invariant. -/
theorem received_orderInv (now : Int) (s : ofxAutomatedInput) (e : ofxAutomatedInputEvent)
    (he : e.timeOffset = now - s._recordStartTime) (hr : s.isRecording = true)
    (h : OrderInv now s) : OrderInv now { s with _inputEvents := s._inputEvents ++ [e] } := by
  obtain ⟨h1, h2⟩ := h
  obtain ⟨h3, h4⟩ := h2 hr
  refine ⟨chain'_snoc _ _ _ h1 (fun y hy => Or.inl ?_), fun _ => ⟨h3, ?_⟩⟩
  · rw [he]
    exact h4 y hy
  · intro x hx
    simp at hx
    subst hx
    exact le_of_eq he

theorem apply_orderInv (d : DefaultFlags) (now : Int) (op : Op) (s : ofxAutomatedInput)
    (hl : ListenersOK s) (h : OrderInv now s) : OrderInv now (s.apply d now op) := by
  cases op with
  | startRecording f => exact startRecording_orderInv f now s h
  | stopRecording => exact stopRecording_orderInv now s h
  | toggleRecording =>
    simp only [apply, toggleRecording]
    split_ifs
    · exact stopRecording_orderInv now s h
    · exact startRecording_orderInv _ now s h
  | startPlayback f => exact startPlayback_orderInv f now s h
  | stopPlayback => exact stopPlayback_orderInv now s h
  | togglePlayback =>
    simp only [apply, togglePlayback]
    split_ifs
    · exact stopPlayback_orderInv now s h
    · exact startPlayback_orderInv _ now s h
  | clear =>
    refine ⟨List.chain'_nil, fun hr => ?_⟩
    obtain ⟨mode, b1, b2, lo, evs, rf, rs, pf, ps, pi, l⟩ := s
    cases mode <;>
      simp [apply, clear, stopPlayback, stopRecording, isRecording, isPlaying] at hr
  | saveToXml => exact stopRecording_orderInv now _ (stopPlayback_orderInv now s h)
  | setLooping b => exact h
  | setLoopOffsetTime t => exact h
  | setTriggerOFEvents b => exact h
  | mouseEvent ch args =>
    simp only [apply, hostMouseEvent]
    split_ifs with hm
    · exact received_orderInv now s _ rfl (recording_of_mouse s ch hl hm) h
    · exact h
  | keyEvent ch args =>
    simp only [apply, hostKeyEvent]
    split_ifs with hm
    · exact received_orderInv now s _ rfl (recording_of_key s ch hl hm) h
    · exact h
  | touchEvent ch args =>
    simp only [apply, hostTouchEvent]
    split_ifs with hm
    · exact received_orderInv now s _ rfl (recording_of_touch s ch hl hm) h
    · exact h
  | tick =>
    simp only [apply, hostUpdate]
    split_ifs
    · exact update_orderInv now now s h
    · exact h

theorem run_orderInv (d : DefaultFlags) (trace : List (Int × Op)) (c : Int)
    (s : ofxAutomatedInput) (hl : ListenersOK s) (h : OrderInv c s)
    (hclock : List.Chain (· ≤ ·) c (trace.map Prod.fst)) :
    List.Chain' SessionOrder (run d s trace)._inputEvents := by
  induction trace generalizing c s with
  | nil => exact h.1
  | cons x rest ih =>
    obtain ⟨now, op⟩ := x
    simp only [List.map_cons, List.chain_cons] at hclock
    exact ih now _ (apply_listenersOK d now op s hl)
      (apply_orderInv d now op s hl (h.mono hclock.1)) hclock.2

theorem stopPlayback_markerInv (s : ofxAutomatedInput) (h : MarkerInv s) :
    MarkerInv s.stopPlayback := by
  obtain ⟨mode, b1, b2, lo, evs, rf, rs, pf, ps, pi, l⟩ := s
  cases mode <;> exact h

theorem stopRecording_markerInv (now : Int) (s : ofxAutomatedInput) (h : MarkerInv s) :
    MarkerInv (s.stopRecording now) := by
  obtain ⟨mode, b1, b2, lo, evs, rf, rs, pf, ps, pi, l⟩ := s
  cases mode
  · exact h
  · obtain ⟨h1, h2, _⟩ := h
    refine ⟨?_, ?_, ?_⟩
    · intro t ht
      simp [stopRecording, isRecording, ofxAutomatedInputControlEvent.Start,
        ofxAutomatedInputControlEvent.Stop] at ht
      exact h1 t ht
    · simp [stopRecording, isRecording, ofxAutomatedInputEvent.isStart,
        ofxAutomatedInputEvent.isStop, ofxAutomatedInputControlEvent.Start,
        ofxAutomatedInputControlEvent.Stop] at h2 ⊢
      exact h2
    · intro _ e he
      simp [stopRecording, isRecording] at he
      exact ⟨_, he.symm⟩
  · exact h

theorem startRecording_markerInv (flags now : Int) (s : ofxAutomatedInput)
    (h : MarkerInv s) : MarkerInv (s.startRecording flags now) := by
  obtain ⟨mode, b1, b2, lo, evs, rf, rs, pf, ps, pi, l⟩ := s
  obtain ⟨h1, h2, h3⟩ := h
  cases mode
  · refine ⟨?_, ?_, fun hr => by simp [startRecording, isRecording, isPlaying] at hr⟩
    · intro t ht
      simp [startRecording, isRecording, isPlaying] at ht
      rcases ht with ht | ht
      · exact h1 t ht
      · exact ht
    · simp [startRecording, isRecording, isPlaying, ofxAutomatedInputEvent.isStart,
        ofxAutomatedInputEvent.isStop, ofxAutomatedInputControlEvent.Start,
        ofxAutomatedInputControlEvent.Stop] at h2 ⊢
      exact h2
  · exact ⟨h1, h2, h3⟩
  · refine ⟨?_, ?_, fun hr => by simp [startRecording, isRecording, isPlaying] at hr⟩
    · intro t ht
      simp [startRecording, stopPlayback, isRecording, isPlaying] at ht
      rcases ht with ht | ht
      · exact h1 t ht
      · exact ht
    · simp [startRecording, stopPlayback, isRecording, isPlaying,
        ofxAutomatedInputEvent.isStart, ofxAutomatedInputEvent.isStop,
        ofxAutomatedInputControlEvent.Start, ofxAutomatedInputControlEvent.Stop] at h2 ⊢
      exact h2

theorem startPlayback_markerInv (flags now : Int) (s : ofxAutomatedInput)
    (h : MarkerInv s) : MarkerInv (s.startPlayback flags now) := by
  have h1 := stopRecording_markerInv now s h
  obtain ⟨mode, b1, b2, lo, evs, rf, rs, pf, ps, pi, l⟩ := s
  cases mode
  · exact h
  · exact h1
  · exact h

theorem update_markerInv (now : Int) (s : ofxAutomatedInput) (h : MarkerInv s) :
    MarkerInv (s.update now).1 := by
  rcases update_cases now s with ⟨_, h'⟩ | ⟨hp, _, _, h'⟩ | ⟨_, _, _, h'⟩ |
    ⟨e, hp, _, _, _, h'⟩ | ⟨_, h'⟩ <;> rw [h']
  · exact h
  · exact h
  · exact stopPlayback_markerInv s h
  · exact h
  · exact h

/-- Appending an input event while recording keeps the marker invariant. -/
theorem received_markerInv (s : ofxAutomatedInput) (e : ofxAutomatedInputEvent)
    (he1 : e.isStart = false) (he2 : e.isStop = false) (hr : s.isRecording = true)
    (h : MarkerInv s) : MarkerInv { s with _inputEvents := s._inputEvents ++ [e] } := by
  obtain ⟨h1, h2, _⟩ := h
  refine ⟨?_, ?_, fun hr' => ?_⟩
  · intro t ht
    simp only [List.mem_append, List.mem_singleton] at ht
    rcases ht with ht | ht
    · exact h1 t ht
    · rw [← ht] at he1
      simp [ofxAutomatedInputEvent.isStart] at he1
  · simp only [List.countP_append, List.countP_singleton, he1, he2]
    simpa using h2
  · have hr'' : s.isRecording = false := hr'
    rw [hr] at hr''
    cases hr''

theorem apply_markerInv (d : DefaultFlags) (now : Int) (op : Op) (s : ofxAutomatedInput)
    (hl : ListenersOK s) (h : MarkerInv s) : MarkerInv (s.apply d now op) := by
  cases op with
  | startRecording f => exact startRecording_markerInv f now s h
  | stopRecording => exact stopRecording_markerInv now s h
  | toggleRecording =>
    simp only [apply, toggleRecording]
    split_ifs
    · exact stopRecording_markerInv now s h
    · exact startRecording_markerInv _ now s h
  | startPlayback f => exact startPlayback_markerInv f now s h
  | stopPlayback => exact stopPlayback_markerInv s h
  | togglePlayback =>
    simp only [apply, togglePlayback]
    split_ifs
    · exact stopPlayback_markerInv s h
    · exact startPlayback_markerInv _ now s h
  | clear =>
    obtain ⟨mode, b1, b2, lo, evs, rf, rs, pf, ps, pi, l⟩ := s
    cases mode <;>
      simp [MarkerInv, apply, clear, stopPlayback, stopRecording, isRecording, isPlaying]
  | saveToXml => exact stopRecording_markerInv now _ (stopPlayback_markerInv s h)
  | setLooping b => exact h
  | setLoopOffsetTime t => exact h
  | setTriggerOFEvents b => exact h
  | mouseEvent ch args =>
    simp only [apply, hostMouseEvent]
    split_ifs with hm
    · exact received_markerInv s _ rfl rfl (recording_of_mouse s ch hl hm) h
    · exact h
  | keyEvent ch args =>
    simp only [apply, hostKeyEvent]
    split_ifs with hm
    · exact received_markerInv s _ rfl rfl (recording_of_key s ch hl hm) h
    · exact h
  | touchEvent ch args =>
    simp only [apply, hostTouchEvent]
    split_ifs with hm
    · exact received_markerInv s _ rfl rfl (recording_of_touch s ch hl hm) h
    · exact h
  | tick =>
    simp only [apply, hostUpdate]
    split_ifs
    · exact update_markerInv now s h
    · exact h

theorem run_markerInv (d : DefaultFlags) (trace : List (Int × Op)) (s : ofxAutomatedInput)
    (hl : ListenersOK s) (h : MarkerInv s) : MarkerInv (run d s trace) := by
  induction trace generalizing s with
  | nil => exact h
  | cons x rest ih =>
    obtain ⟨now, op⟩ := x
    exact ih _ (apply_listenersOK d now op s hl) (apply_markerInv d now op s hl h)

theorem setInputListeners_update (flags : Int) (b : Bool) (l : Listeners) :
    (setInputListeners flags b l).update = l.update := by
  unfold setInputListeners
  by_cases h1 : Int.land flags OFX_AUTOMATED_INPUT_TYPE_MOUSE ≠ 0 <;>
  by_cases h2 : Int.land flags OFX_AUTOMATED_INPUT_TYPE_KEY ≠ 0 <;>
  by_cases h3 : Int.land flags OFX_AUTOMATED_INPUT_TYPE_TOUCH ≠ 0 <;>
  simp [h1, h2, h3]

theorem Reachable.listenersOK {d : DefaultFlags} {s : ofxAutomatedInput}
    (h : Reachable d s) : ListenersOK s := by
  obtain ⟨junk, trace, rfl⟩ := h
  exact run_listenersOK d trace _ (construct_listenersOK junk)

theorem loopDemo_start (args : ofMouseEventArgs) (q : ofxAutomatedInput) (now : Int)
    (h : LoopDemo args q) (hi : q._playbackIdx = -1) (hd : q._playbackStartTime ≤ now) :
    q.update now = ({ q with _playbackIdx := 0 },
      [.playbackStartedEvent (now - q._playbackStartTime)]) := by
  obtain ⟨hp, hev, _, _, _⟩ := h
  have he : q.eventAt (q._playbackIdx + 1) =
      some (.control 0 ofxAutomatedInputControlEvent.Start) := by
    simp [eventAt, hi, hev]
  rw [update_due now q _ hp (eventAt_some_not_exhausted q _ _ he) he
    (by simp only [ofxAutomatedInputEvent.timeOffset]; omega), hi]
  rfl

theorem loopDemo_mouse (args : ofMouseEventArgs) (q : ofxAutomatedInput) (now : Int)
    (h : LoopDemo args q) (hi : q._playbackIdx = 0)
    (hd : q._playbackStartTime + 100 ≤ now) :
    q.update now = ({ q with _playbackIdx := 1 }, triggerMouse q._bTriggerOFEvents args) := by
  obtain ⟨hp, hev, _, _, hm⟩ := h
  have he : q.eventAt (q._playbackIdx + 1) = some (.mouse 100 args) := by
    simp [eventAt, hi, hev]
  rw [update_due now q _ hp (eventAt_some_not_exhausted q _ _ he) he
    (by simp only [ofxAutomatedInputEvent.timeOffset]; omega), hi]
  have hm' : Int.land (ofxAutomatedInputEvent.mouse 100 args).type q._playbackFlags ≠ 0 := hm
  simp only [trigger, hm', if_true, ne_eq, not_false_eq_true]
  rfl

theorem loopDemo_stop (args : ofMouseEventArgs) (q : ofxAutomatedInput) (now : Int)
    (h : LoopDemo args q) (hi : q._playbackIdx = 1)
    (hd : q._playbackStartTime + 150 ≤ now) :
    q.update now = ({ q with _playbackIdx := 2 },
      [.playbackStoppedEvent (now - q._playbackStartTime)]) := by
  obtain ⟨hp, hev, _, _, _⟩ := h
  have he : q.eventAt (q._playbackIdx + 1) =
      some (.control 150 ofxAutomatedInputControlEvent.Stop) := by
    simp [eventAt, hi, hev]
  rw [update_due now q _ hp (eventAt_some_not_exhausted q _ _ he) he
    (by simp only [ofxAutomatedInputEvent.timeOffset]; omega), hi]
  rfl

theorem loopDemo_rewind (args : ofMouseEventArgs) (q : ofxAutomatedInput) (now : Int)
    (h : LoopDemo args q) (hi : q._playbackIdx = 2) :
    q.update now = ({ q with _playbackStartTime := now + 50, _playbackIdx := -1 }, []) := by
  obtain ⟨hp, hev, hl, ho, _⟩ := h
  rw [update_rewind now q hp (by rw [hi, hev]; simp [toSizeT]) hl, ho]

theorem loopDemo_wait (args : ofMouseEventArgs) (q : ofxAutomatedInput) (now : Int)
    (h : LoopDemo args q) (hi : q._playbackIdx = -1) (hd : now < q._playbackStartTime) :
    q.update now = (q, []) := by
  obtain ⟨hp, hev, _, _, _⟩ := h
  have he : q.eventAt (q._playbackIdx + 1) =
      some (.control 0 ofxAutomatedInputControlEvent.Start) := by
    simp [eventAt, hi, hev]
  exact update_not_due now q _ hp (eventAt_some_not_exhausted q _ _ he) he
    (by simp only [ofxAutomatedInputEvent.timeOffset]; omega)

theorem loadEvent_eq_decodeRecord (d : DefaultEvents) (events : List ofxAutomatedInputEvent)
    (tag : XmlEventTag) :
    loadEvent d events tag = events ++ (decodeRecord d tag).toList := by
  unfold loadEvent decodeRecord XmlEventTag.getAttribute
  cases h : tag.event_type with
  | none => simp [OFX_AUTOMATED_INPUT_TYPE_NONE, OFX_AUTOMATED_INPUT_TYPE_CONTROL,
      OFX_AUTOMATED_INPUT_TYPE_MOUSE, OFX_AUTOMATED_INPUT_TYPE_KEY,
      OFX_AUTOMATED_INPUT_TYPE_TOUCH]
  | some t =>
    simp only [Option.getD_some]
    split_ifs <;> simp

theorem foldl_loadEvent (d : DefaultEvents) (tags : List XmlEventTag)
    (acc : List ofxAutomatedInputEvent) :
    tags.foldl (loadEvent d) acc = acc ++ tags.filterMap (decodeRecord d) := by
  induction tags generalizing acc with
  | nil => simp
  | cons tag rest ih =>
    rw [List.foldl_cons, ih, loadEvent_eq_decodeRecord, List.filterMap_cons]
    cases decodeRecord d tag <;> simp

theorem loadFromXml_none (d : DefaultEvents) (now : Int) (s : ofxAutomatedInput) :
    s.loadFromXml d none now = some (s.clear now, false) := rfl

theorem loadFromXml_some (d : DefaultEvents) (xml : ofxXmlSettings) (now : Int)
    (s : ofxAutomatedInput) :
    s.loadFromXml d (some xml) now =
      match (s.loadedState d xml now)._inputEvents.getLast? with
      | some _ => some (s.loadedState d xml now, true)
      | none => none := by
  obtain ⟨root⟩ := xml
  cases root <;> rfl

theorem loadedState_inputEvents (d : DefaultEvents) (tags : List XmlEventTag) (now : Int)
    (s : ofxAutomatedInput) :
    (s.loadedState d { automated_input := some tags } now)._inputEvents =
      tags.filterMap (decodeRecord d) := by
  simp [loadedState, foldl_loadEvent]

/-- Loading a document in which at least one record has a recognized tag returns `true`
and leaves exactly the decodings of the recognized records, in file order. -/
theorem loadFromXml_recognized (d : DefaultEvents) (tags : List XmlEventTag) (now : Int)
    (s : ofxAutomatedInput) (hne : tags.filterMap (decodeRecord d) ≠ []) :
    s.loadFromXml d (some { automated_input := some tags }) now =
      some ({ s.clear now with _inputEvents := tags.filterMap (decodeRecord d) }, true) := by
  rw [loadFromXml_some]
  have h1 := loadedState_inputEvents d tags now s
  have h2 : s.loadedState d { automated_input := some tags } now =
      { s.clear now with _inputEvents := tags.filterMap (decodeRecord d) } := by
    simp [loadedState, foldl_loadEvent]
  rw [h2]
  cases h : (tags.filterMap (decodeRecord d)).getLast? with
  | none => exact absurd (List.getLast?_eq_none_iff.mp h) hne
  | some e => simp [h]

/-- The call returns `false` exactly when the file cannot be loaded. -/
theorem loadFromXml_false (d : DefaultEvents) (file : Option ofxXmlSettings) (now : Int)
    (s r : ofxAutomatedInput) (h : s.loadFromXml d file now = some (r, false)) :
    file = none ∧ r._inputEvents = [] := by
  cases file with
  | none =>
    rw [loadFromXml_none] at h
    cases h
    exact ⟨rfl, rfl⟩
  | some xml =>
    rw [loadFromXml_some] at h
    split at h <;> simp at h

theorem clear_listenersOK (now : Int) (s : ofxAutomatedInput) (h : ListenersOK s) :
    ListenersOK (s.clear now) :=
  stopRecording_listenersOK now _ (stopPlayback_listenersOK s h)

theorem clear_mode (now : Int) (s : ofxAutomatedInput) :
    (s.clear now)._mode = .OFX_AUTOMATED_INPUT_MODE_IDLE := by
  obtain ⟨mode, b1, b2, lo, evs, rf, rs, pf, ps, pi, l⟩ := s
  cases mode <;> rfl

theorem loadedState_mode (d : DefaultEvents) (xml : ofxXmlSettings) (now : Int)
    (s : ofxAutomatedInput) :
    (s.loadedState d xml now)._mode = .OFX_AUTOMATED_INPUT_MODE_IDLE := by
  obtain ⟨root⟩ := xml
  cases root <;> exact clear_mode now s

theorem loadedState_listenersOK (d : DefaultEvents) (xml : ofxXmlSettings) (now : Int)
    (s : ofxAutomatedInput) (h : ListenersOK s) : ListenersOK (s.loadedState d xml now) := by
  obtain ⟨root⟩ := xml
  cases root <;> exact clear_listenersOK now s h

/-- What a defined `loadFromXml` leaves: the cleared engine, or the state of line 107. -/
theorem loadFromXml_result (d : DefaultEvents) (file : Option ofxXmlSettings) (now : Int)
    (s r : ofxAutomatedInput) (b : Bool) (h : s.loadFromXml d file now = some (r, b)) :
    r = s.clear now ∨ ∃ xml, r = s.loadedState d xml now := by
  cases file with
  | none =>
    rw [loadFromXml_none] at h
    cases h
    exact Or.inl rfl
  | some xml =>
    rw [loadFromXml_some] at h
    split at h
    · cases h
      exact Or.inr ⟨xml, rfl⟩
    · cases h

theorem applyCall_listenersOK (d : DefaultFlags) (de : DefaultEvents) (now : Int) (c : Call)
    (s r : ofxAutomatedInput) (h : ListenersOK s) (hr : applyCall d de now c s = some r) :
    ListenersOK r := by
  cases c with
  | op o =>
    simp only [applyCall, Option.some.injEq] at hr
    subst hr
    exact apply_listenersOK d now o s h
  | loadFromXml file =>
    simp only [applyCall, Option.map_eq_some'] at hr
    obtain ⟨⟨r', b⟩, hl, rfl⟩ := hr
    rcases loadFromXml_result de file now s r' b hl with h1 | ⟨xml, h1⟩
    · rw [h1]
      exact clear_listenersOK now s h
    · rw [h1]
      exact loadedState_listenersOK de xml now s h

/-- An invariant that every operation and every defined `loadFromXml` keeps holds in
every state a trace of calls reaches. -/
theorem runCalls_invariant (P : ofxAutomatedInput → Prop) (d : DefaultFlags)
    (de : DefaultEvents)
    (hstep : ∀ (now : Int) (c : Call) (s r : ofxAutomatedInput), P s →
      applyCall d de now c s = some r → P r)
    (trace : List (Int × Call)) (s r : ofxAutomatedInput) (hs : P s)
    (hr : runCalls d de s trace = some r) : P r := by
  induction trace generalizing s with
  | nil =>
    simp only [runCalls, Option.some.injEq] at hr
    subst hr
    exact hs
  | cons x rest ih =>
    obtain ⟨now, c⟩ := x
    simp only [runCalls] at hr
    cases hc : applyCall d de now c s with
    | none => simp [hc] at hr
    | some s' =>
      simp only [hc] at hr
      exact ih s' (hstep now c s s' hs hc) hr

theorem reachableByCalls_listenersOK {d : DefaultFlags} {de : DefaultEvents}
    {s : ofxAutomatedInput} (h : ReachableByCalls d de s) : ListenersOK s := by
  obtain ⟨junk, trace, hr⟩ := h
  exact runCalls_invariant ListenersOK d de
    (fun now c s r hs hc => applyCall_listenersOK d de now c s r hs hc) trace _ _
    (construct_listenersOK junk) hr

theorem setInputListeners_none_mouse (flags : Int) (ch : MouseChannel) :
    (setInputListeners flags true Listeners.none).mouse ch =
      decide (Int.land flags OFX_AUTOMATED_INPUT_TYPE_MOUSE ≠ 0) := by
  unfold setInputListeners Listeners.none
  by_cases h1 : Int.land flags OFX_AUTOMATED_INPUT_TYPE_MOUSE ≠ 0 <;>
  by_cases h2 : Int.land flags OFX_AUTOMATED_INPUT_TYPE_KEY ≠ 0 <;>
  by_cases h3 : Int.land flags OFX_AUTOMATED_INPUT_TYPE_TOUCH ≠ 0 <;>
  cases ch <;> simp [h1, h2, h3, Listeners.mouse]

theorem setInputListeners_none_key (flags : Int) (ch : KeyChannel) :
    (setInputListeners flags true Listeners.none).key ch =
      decide (Int.land flags OFX_AUTOMATED_INPUT_TYPE_KEY ≠ 0) := by
  unfold setInputListeners Listeners.none
  by_cases h1 : Int.land flags OFX_AUTOMATED_INPUT_TYPE_MOUSE ≠ 0 <;>
  by_cases h2 : Int.land flags OFX_AUTOMATED_INPUT_TYPE_KEY ≠ 0 <;>
  by_cases h3 : Int.land flags OFX_AUTOMATED_INPUT_TYPE_TOUCH ≠ 0 <;>
  cases ch <;> simp [h1, h2, h3, Listeners.key]

theorem setInputListeners_none_touch (flags : Int) (ch : TouchChannel) :
    (setInputListeners flags true Listeners.none).touch ch =
      decide (Int.land flags OFX_AUTOMATED_INPUT_TYPE_TOUCH ≠ 0) := by
  unfold setInputListeners Listeners.none
  by_cases h1 : Int.land flags OFX_AUTOMATED_INPUT_TYPE_MOUSE ≠ 0 <;>
  by_cases h2 : Int.land flags OFX_AUTOMATED_INPUT_TYPE_KEY ≠ 0 <;>
  by_cases h3 : Int.land flags OFX_AUTOMATED_INPUT_TYPE_TOUCH ≠ 0 <;>
  cases ch <;> simp [h1, h2, h3, Listeners.touch]

/-- While a recording with flags `F`, begun at `start`, has the registrations that
`startRecording` made, a host event changes the state by what `recorded` keeps of it. -/
theorem apply_hostEvent_recording (d : DefaultFlags) (F start now : Int) (op : Op)
    (r : ofxAutomatedInput) (hop : op.isHostEvent = true)
    (hs : r._recordStartTime = start)
    (hl : r.listeners = setInputListeners F true Listeners.none) :
    r.apply d now op =
      { r with _inputEvents := r._inputEvents ++ (recorded F start (now, op)).toList } := by
  obtain ⟨mode, b1, b2, lo, evs, rf, rs, pf, ps, pi, l⟩ := r
  simp only at hs hl
  subst hs hl
  cases op with
  | mouseEvent ch args =>
    simp only [apply, hostMouseEvent, setInputListeners_none_mouse, recorded,
      mouseEventReceived]
    by_cases h : Int.land F OFX_AUTOMATED_INPUT_TYPE_MOUSE ≠ 0 <;> simp [h]
  | keyEvent ch args =>
    simp only [apply, hostKeyEvent, setInputListeners_none_key, recorded,
      keyEventReceived]
    by_cases h : Int.land F OFX_AUTOMATED_INPUT_TYPE_KEY ≠ 0 <;> simp [h]
  | touchEvent ch args =>
    simp only [apply, hostTouchEvent, setInputListeners_none_touch, recorded,
      touchEventReceived]
    by_cases h : Int.land F OFX_AUTOMATED_INPUT_TYPE_TOUCH ≠ 0 <;> simp [h]
  | tick =>
    have hu : (setInputListeners F true Listeners.none).update = false := by
      rw [setInputListeners_update]
      rfl
    simp [apply, hostUpdate, hu, recorded]
  | _ => simp [Op.isHostEvent] at hop

theorem run_hostEvents_recording (d : DefaultFlags) (F start : Int)
    (stream : List (Int × Op)) (r : ofxAutomatedInput)
    (hhost : ∀ x ∈ stream, x.2.isHostEvent = true)
    (hs : r._recordStartTime = start)
    (hl : r.listeners = setInputListeners F true Listeners.none) :
    run d r stream =
      { r with _inputEvents := r._inputEvents ++ stream.filterMap (recorded F start) } := by
  induction stream generalizing r with
  | nil => simp [run]
  | cons x rest ih =>
    obtain ⟨now, op⟩ := x
    have h1 := apply_hostEvent_recording d F start now op r
      (hhost (now, op) (List.mem_cons_self _ _)) hs hl
    simp only [run]
    rw [h1, ih]
    · cases h : recorded F start (now, op) <;> simp [List.filterMap_cons, h]
    · exact fun y hy => hhost y (List.mem_cons_of_mem _ hy)
    · exact hs
    · exact hl

theorem recorded_type (F start : Int) (x : Int × Op) (e : ofxAutomatedInputEvent)
    (h : recorded F start x = some e) :
    e.type ≠ OFX_AUTOMATED_INPUT_TYPE_CONTROL ∧ Int.land F e.type ≠ 0 ∧
      e.timeOffset = x.1 - start := by
  obtain ⟨now, op⟩ := x
  cases op <;> simp only [recorded] at h <;> try cases h
  all_goals
    split_ifs at h with hf
    cases h
    exact ⟨by simp [ofxAutomatedInputEvent.type, OFX_AUTOMATED_INPUT_TYPE_CONTROL,
      OFX_AUTOMATED_INPUT_TYPE_MOUSE, OFX_AUTOMATED_INPUT_TYPE_KEY,
      OFX_AUTOMATED_INPUT_TYPE_TOUCH], hf, rfl⟩

theorem triggerMouse_spec (b : Bool) (args : ofMouseEventArgs) :
    (triggerMouse b args).filter (fun em => !em.isHost) = [.mouseInputEvent args] ∧
    (b = false → triggerMouse b args = [.mouseInputEvent args]) ∧
    (∀ em ∈ triggerMouse b args, em.isHost = true → b = true ∧
      ((args.type = ofMouseEventArgs.Moved ∧ em = .mouseMoved args) ∨
       (args.type = ofMouseEventArgs.Pressed ∧ em = .mousePressed args) ∨
       (args.type = ofMouseEventArgs.Dragged ∧ em = .mouseDragged args) ∨
       (args.type = ofMouseEventArgs.Released ∧ em = .mouseReleased args))) ∧
    (b = true →
      (args.type = ofMouseEventArgs.Moved →
        triggerMouse b args = [.mouseMoved args, .mouseInputEvent args]) ∧
      (args.type = ofMouseEventArgs.Pressed →
        triggerMouse b args = [.mousePressed args, .mouseInputEvent args]) ∧
      (args.type = ofMouseEventArgs.Dragged →
        triggerMouse b args = [.mouseDragged args, .mouseInputEvent args]) ∧
      (args.type = ofMouseEventArgs.Released →
        triggerMouse b args = [.mouseReleased args, .mouseInputEvent args])) := by
  unfold triggerMouse
  cases b
  · simp [Emission.isHost]
  · simp only [if_true]
    split_ifs with h1 h2 h3 h4 <;>
      simp_all [Emission.isHost, ofMouseEventArgs.Moved, ofMouseEventArgs.Pressed,
        ofMouseEventArgs.Dragged, ofMouseEventArgs.Released]

theorem triggerKey_spec (b : Bool) (args : ofKeyEventArgs) :
    (triggerKey b args).filter (fun em => !em.isHost) = [.keyInputEvent args] ∧
    (b = false → triggerKey b args = [.keyInputEvent args]) ∧
    (∀ em ∈ triggerKey b args, em.isHost = true → b = true ∧
      ((args.type = ofKeyEventArgs.Pressed ∧ em = .keyPressed args) ∨
       (args.type = ofKeyEventArgs.Released ∧ em = .keyReleased args))) ∧
    (b = true →
      (args.type = ofKeyEventArgs.Pressed →
        triggerKey b args = [.keyPressed args, .keyInputEvent args]) ∧
      (args.type = ofKeyEventArgs.Released →
        triggerKey b args = [.keyReleased args, .keyInputEvent args])) := by
  unfold triggerKey
  cases b
  · simp [Emission.isHost]
  · simp only [if_true]
    split_ifs with h1 h2 <;>
      simp_all [Emission.isHost, ofKeyEventArgs.Pressed, ofKeyEventArgs.Released]

theorem triggerTouch_spec (b : Bool) (args : ofTouchEventArgs) :
    (triggerTouch b args).filter (fun em => !em.isHost) = [.touchInputEvent args] ∧
    (b = false → triggerTouch b args = [.touchInputEvent args]) ∧
    (∀ em ∈ triggerTouch b args, em.isHost = true → b = true ∧
      ((args.type = ofTouchEventArgs.down ∧ em = .touchDown args) ∨
       (args.type = ofTouchEventArgs.move ∧ em = .touchMoved args) ∨
       (args.type = ofTouchEventArgs.up ∧ em = .touchUp args) ∨
       (args.type = ofTouchEventArgs.doubleTap ∧ em = .touchDoubleTap args) ∨
       (args.type = ofTouchEventArgs.cancel ∧ em = .touchCancelled args))) ∧
    (b = true →
      (args.type = ofTouchEventArgs.down →
        triggerTouch b args = [.touchDown args, .touchInputEvent args]) ∧
      (args.type = ofTouchEventArgs.move →
        triggerTouch b args = [.touchMoved args, .touchInputEvent args]) ∧
      (args.type = ofTouchEventArgs.up →
        triggerTouch b args = [.touchUp args, .touchInputEvent args]) ∧
      (args.type = ofTouchEventArgs.doubleTap →
        triggerTouch b args = [.touchDoubleTap args, .touchInputEvent args]) ∧
      (args.type = ofTouchEventArgs.cancel →
        triggerTouch b args = [.touchCancelled args, .touchInputEvent args])) := by
  unfold triggerTouch
  cases b
  · simp [Emission.isHost]
  · simp only [if_true]
    split_ifs with h1 h2 h3 h4 h5 <;>
      simp_all [Emission.isHost, ofTouchEventArgs.down, ofTouchEventArgs.move,
        ofTouchEventArgs.up, ofTouchEventArgs.doubleTap, ofTouchEventArgs.cancel]

/-- What a tick sends out for a due input event whose type bit is in the flags. -/
theorem update_due_mouse (now t : Int) (s : ofxAutomatedInput) (args : ofMouseEventArgs)
    (hp : s.isPlaying = true)
    (he : s.eventAt (s._playbackIdx + 1) = some (.mouse t args))
    (hd : t ≤ now - s._playbackStartTime)
    (hf : Int.land OFX_AUTOMATED_INPUT_TYPE_MOUSE s._playbackFlags ≠ 0) :
    (s.update now).2 = triggerMouse s._bTriggerOFEvents args := by
  rw [update_due now s _ hp (eventAt_some_not_exhausted s _ _ he) he hd]
  have hf' : Int.land (ofxAutomatedInputEvent.mouse t args).type s._playbackFlags ≠ 0 := hf
  simp only [trigger, hf', ne_eq, not_false_eq_true, if_true]

theorem update_due_key (now t : Int) (s : ofxAutomatedInput) (args : ofKeyEventArgs)
    (hp : s.isPlaying = true)
    (he : s.eventAt (s._playbackIdx + 1) = some (.key t args))
    (hd : t ≤ now - s._playbackStartTime)
    (hf : Int.land OFX_AUTOMATED_INPUT_TYPE_KEY s._playbackFlags ≠ 0) :
    (s.update now).2 = triggerKey s._bTriggerOFEvents args := by
  rw [update_due now s _ hp (eventAt_some_not_exhausted s _ _ he) he hd]
  have hf' : Int.land (ofxAutomatedInputEvent.key t args).type s._playbackFlags ≠ 0 := hf
  simp only [trigger, hf', ne_eq, not_false_eq_true, if_true]

theorem update_due_touch (now t : Int) (s : ofxAutomatedInput) (args : ofTouchEventArgs)
    (hp : s.isPlaying = true)
    (he : s.eventAt (s._playbackIdx + 1) = some (.touch t args))
    (hd : t ≤ now - s._playbackStartTime)
    (hf : Int.land OFX_AUTOMATED_INPUT_TYPE_TOUCH s._playbackFlags ≠ 0) :
    (s.update now).2 = triggerTouch s._bTriggerOFEvents args := by
  rw [update_due now s _ hp (eventAt_some_not_exhausted s _ _ he) he hd]
  have hf' : Int.land (ofxAutomatedInputEvent.touch t args).type s._playbackFlags ≠ 0 := hf
  simp only [trigger, hf', ne_eq, not_false_eq_true, if_true]

theorem offsetsInv_mono {c c' : Int} {s : ofxAutomatedInput} (h : OffsetsInv c s)
    (hc : c ≤ c') : OffsetsInv c' s :=
  ⟨h.1, fun hr => le_trans (h.2 hr) hc⟩

theorem stopPlayback_offsetsInv (c : Int) (s : ofxAutomatedInput) (h : OffsetsInv c s) :
    OffsetsInv c s.stopPlayback := by
  obtain ⟨mode, b1, b2, lo, evs, rf, rs, pf, ps, pi, l⟩ := s
  cases mode
  · exact h
  · exact h
  · exact ⟨h.1, fun hr => by simp [stopPlayback, isPlaying, isRecording] at hr⟩

theorem stopRecording_offsetsInv (now : Int) (s : ofxAutomatedInput)
    (h : OffsetsInv now s) : OffsetsInv now (s.stopRecording now) := by
  obtain ⟨mode, b1, b2, lo, evs, rf, rs, pf, ps, pi, l⟩ := s
  cases mode
  · exact h
  · obtain ⟨h1, h2⟩ := h
    have h3 : rs ≤ now := h2 rfl
    refine ⟨fun e he => ?_, fun hr => by simp [stopRecording, isRecording] at hr⟩
    simp only [stopRecording, isRecording, beq_self_eq_true, Bool.not_true,
      Bool.false_eq_true, if_false, List.mem_append, List.mem_singleton] at he
    rcases he with he | he
    · exact h1 e he
    · rw [he]
      simp only [ofxAutomatedInputEvent.timeOffset]
      omega
  · exact h

theorem startRecording_offsetsInv (flags now : Int) (s : ofxAutomatedInput)
    (h : OffsetsInv now s) : OffsetsInv now (s.startRecording flags now) := by
  obtain ⟨mode, b1, b2, lo, evs, rf, rs, pf, ps, pi, l⟩ := s
  have key : ∀ e ∈ evs ++ [ofxAutomatedInputEvent.control 0
      ofxAutomatedInputControlEvent.Start], 0 ≤ e.timeOffset := by
    intro e he
    simp only [List.mem_append, List.mem_singleton] at he
    rcases he with he | he
    · exact h.1 e he
    · rw [he]
      exact le_refl _
  cases mode
  · exact ⟨key, fun _ => le_refl _⟩
  · exact h
  · exact ⟨key, fun _ => le_refl _⟩

theorem startPlayback_offsetsInv (flags now : Int) (s : ofxAutomatedInput)
    (h : OffsetsInv now s) : OffsetsInv now (s.startPlayback flags now) := by
  have h1 := stopRecording_offsetsInv now s h
  obtain ⟨mode, b1, b2, lo, evs, rf, rs, pf, ps, pi, l⟩ := s
  cases mode
  · exact ⟨h.1, fun hr => by simp [startPlayback, isPlaying, isRecording] at hr⟩
  · exact ⟨h1.1, fun hr => by simp [startPlayback, isPlaying, isRecording] at hr⟩
  · exact h

theorem update_offsetsInv (c now : Int) (s : ofxAutomatedInput) (h : OffsetsInv c s) :
    OffsetsInv c (s.update now).1 := by
  rcases update_cases now s with ⟨_, h'⟩ | ⟨hp, _, _, h'⟩ | ⟨_, _, _, h'⟩ |
    ⟨e, hp, _, _, _, h'⟩ | ⟨_, h'⟩ <;> rw [h']
  · exact h
  · exact ⟨h.1, fun hr => h.2 hr⟩
  · exact stopPlayback_offsetsInv c s h
  · exact ⟨h.1, fun hr => h.2 hr⟩
  · exact h

theorem received_offsetsInv (now : Int) (s : ofxAutomatedInput) (e : ofxAutomatedInputEvent)
    (he : e.timeOffset = now - s._recordStartTime) (hr : s.isRecording = true)
    (h : OffsetsInv now s) :
    OffsetsInv now { s with _inputEvents := s._inputEvents ++ [e] } := by
  have h3 := h.2 hr
  refine ⟨fun x hx => ?_, fun hr' => h.2 hr'⟩
  simp only [List.mem_append, List.mem_singleton] at hx
  rcases hx with hx | hx
  · exact h.1 x hx
  · rw [hx, he]
    omega

theorem apply_offsetsInv (d : DefaultFlags) (now : Int) (op : Op) (s : ofxAutomatedInput)
    (hl : ListenersOK s) (h : OffsetsInv now s) : OffsetsInv now (s.apply d now op) := by
  cases op with
  | startRecording f => exact startRecording_offsetsInv f now s h
  | stopRecording => exact stopRecording_offsetsInv now s h
  | toggleRecording =>
    simp only [apply, toggleRecording]
    split_ifs
    · exact stopRecording_offsetsInv now s h
    · exact startRecording_offsetsInv _ now s h
  | startPlayback f => exact startPlayback_offsetsInv f now s h
  | stopPlayback => exact stopPlayback_offsetsInv now s h
  | togglePlayback =>
    simp only [apply, togglePlayback]
    split_ifs
    · exact stopPlayback_offsetsInv now s h
    · exact startPlayback_offsetsInv _ now s h
  | clear =>
    refine ⟨fun e he => by simp [apply, clear] at he, fun hr => ?_⟩
    obtain ⟨mode, b1, b2, lo, evs, rf, rs, pf, ps, pi, l⟩ := s
    cases mode <;>
      simp [apply, clear, stopPlayback, stopRecording, isRecording, isPlaying] at hr
  | saveToXml => exact stopRecording_offsetsInv now _ (stopPlayback_offsetsInv now s h)
  | setLooping b => exact h
  | setLoopOffsetTime t => exact h
  | setTriggerOFEvents b => exact h
  | mouseEvent ch args =>
    simp only [apply, hostMouseEvent]
    split_ifs with hm
    · exact received_offsetsInv now s _ rfl (recording_of_mouse s ch hl hm) h
    · exact h
  | keyEvent ch args =>
    simp only [apply, hostKeyEvent]
    split_ifs with hm
    · exact received_offsetsInv now s _ rfl (recording_of_key s ch hl hm) h
    · exact h
  | touchEvent ch args =>
    simp only [apply, hostTouchEvent]
    split_ifs with hm
    · exact received_offsetsInv now s _ rfl (recording_of_touch s ch hl hm) h
    · exact h
  | tick =>
    simp only [apply, hostUpdate]
    split_ifs
    · exact update_offsetsInv now now s h
    · exact h

/-- A timeline recorded under a non-decreasing clock has no negative offset. -/
theorem run_offsets_nonneg (d : DefaultFlags) (trace : List (Int × Op)) (c : Int)
    (s : ofxAutomatedInput) (hl : ListenersOK s) (h : OffsetsInv c s)
    (hclock : List.Chain (· ≤ ·) c (trace.map Prod.fst)) :
    ∀ e ∈ (run d s trace)._inputEvents, 0 ≤ e.timeOffset := by
  induction trace generalizing c s with
  | nil => exact h.1
  | cons x rest ih =>
    obtain ⟨now, op⟩ := x
    simp only [List.map_cons, List.chain_cons] at hclock
    exact ih now _ (apply_listenersOK d now op s hl)
      (apply_offsetsInv d now op s hl (offsetsInv_mono h hclock.1)) hclock.2

/-- The timelines that the operations and host events build from a freshly constructed
engine under a non-decreasing clock have no negative offset. -/
theorem construct_run_offsets_nonneg (d : DefaultFlags) (junk : ofxAutomatedInput)
    (trace : List (Int × Op)) (hclock : List.Chain' (· ≤ ·) (trace.map Prod.fst)) :
    ∀ e ∈ (run d (construct junk) trace)._inputEvents, 0 ≤ e.timeOffset := by
  cases trace with
  | nil => intro e he; simp [run, construct] at he
  | cons x rest =>
    have h0 : OffsetsInv x.1 (construct junk) :=
      ⟨fun e he => by simp [construct] at he, fun hr => by simp [construct, isRecording] at hr⟩
    exact run_offsets_nonneg d (x :: rest) x.1 _ (construct_listenersOK junk) h0
      (List.Chain.cons (le_refl _) hclock)

/-- A tick that advances the cursor found the next event due. -/
theorem update_advance_due (now : Int) (s : ofxAutomatedInput) (hb : -1 ≤ s._playbackIdx)
    (h : (s.update now).1._playbackIdx = s._playbackIdx + 1) :
    ∃ e, s.eventAt (s._playbackIdx + 1) = some e ∧
      e.timeOffset ≤ now - s._playbackStartTime := by
  rcases update_cases now s with ⟨_, h'⟩ | ⟨_, _, _, h'⟩ | ⟨hp, _, _, h'⟩ |
    ⟨e, _, _, he, hd, h'⟩ | ⟨_, h'⟩
  · rw [h'] at h
    simp only at h
    omega
  · rw [h'] at h
    simp only at h
    omega
  · rw [h'] at h
    simp only [stopPlayback, hp, if_true] at h
    omega
  · exact ⟨e, he, hd⟩
  · rw [h'] at h
    simp only at h
    omega

/-- A tick that sends something out found the next event due. -/
theorem update_emission_due (now : Int) (s : ofxAutomatedInput) (em : Emission)
    (h : em ∈ (s.update now).2) :
    ∃ e, s.eventAt (s._playbackIdx + 1) = some e ∧
      e.timeOffset ≤ now - s._playbackStartTime := by
  rcases update_cases now s with ⟨_, h'⟩ | ⟨_, _, _, h'⟩ | ⟨hp, _, _, h'⟩ |
    ⟨e, _, _, he, hd, h'⟩ | ⟨_, h'⟩ <;> rw [h'] at h <;> simp at h
  exact ⟨e, he, hd⟩

/-- With the cursor at `-1`, no negative offset in the timeline and the session
anchored at `bound`, ticks before `bound` send out nothing and leave the cursor. -/
theorem ticks_before_anchor (bound : Int) (ticks : List Int) (q : ofxAutomatedInput)
    (hi : q._playbackIdx = -1) (hoff : ∀ e ∈ q._inputEvents, 0 ≤ e.timeOffset)
    (ha : q.isPlaying = true → q._inputEvents ≠ [] → q._playbackStartTime = bound)
    (ht : ∀ t ∈ ticks, t < bound) :
    (∀ out ∈ q.tickEmissions ticks, out = []) ∧
    (∀ a ∈ q.tickStates ticks, a._playbackIdx = -1) := by
  induction ticks generalizing q with
  | nil =>
    refine ⟨fun out h => by simp [tickEmissions] at h, fun a h => ?_⟩
    simp only [tickStates, List.mem_singleton] at h
    rw [h]
    exact hi
  | cons t rest ih =>
    have htb : t < bound := ht t (List.mem_cons_self _ _)
    have key : (q.update t).2 = [] ∧ (q.update t).1._playbackIdx = -1 ∧
        (∀ e ∈ (q.update t).1._inputEvents, 0 ≤ e.timeOffset) ∧
        ((q.update t).1.isPlaying = true → (q.update t).1._inputEvents ≠ [] →
          (q.update t).1._playbackStartTime = bound) := by
      rcases update_cases t q with ⟨_, h'⟩ | ⟨_, hx, _, h'⟩ | ⟨hp, _, _, h'⟩ |
        ⟨e, hp, _, he, hd, h'⟩ | ⟨_, h'⟩
      · rw [h']
        exact ⟨rfl, hi, hoff, ha⟩
      · rw [h']
        refine ⟨rfl, rfl, hoff, fun _ hne => ?_⟩
        rw [hi] at hx
        have : q._inputEvents = [] := by
          simpa [toSizeT] using hx
        exact absurd this hne
      · rw [h']
        refine ⟨rfl, ?_, ?_, fun hq => ?_⟩
        · simp only [stopPlayback, hp, if_true]
          exact hi
        · simp only [stopPlayback, hp, if_true]
          exact hoff
        · have hm : q.stopPlayback.isPlaying = false := by
            simp only [stopPlayback, hp, if_true]
            rfl
          have hq' : q.stopPlayback.isPlaying = true := hq
          rw [hm] at hq'
          cases hq'
      · exfalso
        have hm : e ∈ q._inputEvents := by
          unfold eventAt at he
          split_ifs at he
          exact List.get?_mem he
        have h0 := hoff e hm
        have h1 := ha hp (List.ne_nil_of_mem hm)
        omega
      · rw [h']
        exact ⟨rfl, hi, hoff, ha⟩
    obtain ⟨k1, k2, k3, k4⟩ := key
    have := ih (q.update t).1 k2 k3 k4 (fun u hu => ht u (List.mem_cons_of_mem _ hu))
    refine ⟨fun out h => ?_, fun a h => ?_⟩
    · simp only [tickEmissions, List.mem_cons] at h
      rcases h with h | h
      · rw [h, k1]
      · exact this.1 out h
    · simp only [tickStates, List.mem_cons] at h
      rcases h with h | h
      · rw [h]
        exact hi
      · exact this.2 a h

theorem cursorBound_of_not_playing (s : ofxAutomatedInput) (h : s.isPlaying = false) :
    CursorBound s := by
  intro hp
  rw [h] at hp
  cases hp

theorem update_cursorBound (now : Int) (s : ofxAutomatedInput) (h : CursorBound s) :
    CursorBound (s.update now).1 := by
  rcases update_cases now s with ⟨_, h'⟩ | ⟨hp, _, _, h'⟩ | ⟨hp, _, _, h'⟩ |
    ⟨e, hp, _, he, _, h'⟩ | ⟨_, h'⟩ <;> rw [h']
  · exact h
  · intro _
    exact ⟨le_refl _, by show (-1 : Int) ≤ (s._inputEvents.length : Int) - 1; omega⟩
  · apply cursorBound_of_not_playing
    simp only [stopPlayback, hp, if_true]
    rfl
  · intro _
    have h1 := h hp
    have h2 := eventAt_lt s _ e he
    refine ⟨?_, ?_⟩
    · show -1 ≤ s._playbackIdx + 1
      omega
    · show s._playbackIdx + 1 ≤ (s._inputEvents.length : Int) - 1
      omega
  · exact h

theorem not_playing_of_recording (s : ofxAutomatedInput) (h : s.isRecording = true) :
    s.isPlaying = false := by
  obtain ⟨mode, b1, b2, lo, evs, rf, rs, pf, ps, pi, l⟩ := s
  cases mode <;> simp [isRecording, isPlaying] at h ⊢

theorem apply_cursorBound (d : DefaultFlags) (now : Int) (op : Op) (s : ofxAutomatedInput)
    (hl : ListenersOK s) (h : CursorBound s) : CursorBound (s.apply d now op) := by
  cases op with
  | tick =>
    simp only [apply, hostUpdate]
    split_ifs
    · exact update_cursorBound now s h
    · exact h
  | mouseEvent ch args =>
    simp only [apply, hostMouseEvent]
    split_ifs with hm
    · exact cursorBound_of_not_playing _
        (not_playing_of_recording s (recording_of_mouse s ch hl hm))
    · exact h
  | keyEvent ch args =>
    simp only [apply, hostKeyEvent]
    split_ifs with hm
    · exact cursorBound_of_not_playing _
        (not_playing_of_recording s (recording_of_key s ch hl hm))
    · exact h
  | touchEvent ch args =>
    simp only [apply, hostTouchEvent]
    split_ifs with hm
    · exact cursorBound_of_not_playing _
        (not_playing_of_recording s (recording_of_touch s ch hl hm))
    · exact h
  | setLooping b => exact h
  | setLoopOffsetTime t => exact h
  | setTriggerOFEvents b => exact h
  | _ =>
    obtain ⟨mode, b1, b2, lo, evs, rf, rs, pf, ps, pi, l⟩ := s
    cases mode <;>
      first
      | exact h
      | (apply cursorBound_of_not_playing; rfl)
      | (intro _; exact ⟨le_refl _, by
          simp [apply, startPlayback, togglePlayback, stopRecording, isPlaying,
            isRecording]
          try omega⟩)

theorem applyCall_cursorBound (d : DefaultFlags) (de : DefaultEvents) (now : Int) (c : Call)
    (s r : ofxAutomatedInput) (h : ListenersOK s ∧ CursorBound s)
    (hr : applyCall d de now c s = some r) : ListenersOK r ∧ CursorBound r := by
  refine ⟨applyCall_listenersOK d de now c s r h.1 hr, ?_⟩
  cases c with
  | op o =>
    simp only [applyCall, Option.some.injEq] at hr
    subst hr
    exact apply_cursorBound d now o s h.1 h.2
  | loadFromXml file =>
    simp only [applyCall, Option.map_eq_some'] at hr
    obtain ⟨⟨r', b⟩, hl, rfl⟩ := hr
    apply cursorBound_of_not_playing
    rcases loadFromXml_result de file now s r' b hl with h1 | ⟨xml, h1⟩
    · simp only [h1, isPlaying, clear_mode]
      rfl
    · simp only [h1, isPlaying, loadedState_mode]
      rfl

theorem reachableByCalls_cursorBound {d : DefaultFlags} {de : DefaultEvents}
    {s : ofxAutomatedInput} (h : ReachableByCalls d de s) : CursorBound s := by
  obtain ⟨junk, trace, hr⟩ := h
  exact (runCalls_invariant (fun s => ListenersOK s ∧ CursorBound s) d de
    (fun now c s r hs hc => applyCall_cursorBound d de now c s r hs hc) trace _ _
    ⟨construct_listenersOK junk, cursorBound_of_not_playing _ rfl⟩ hr).2

theorem listeners_mouse_iff (flags : Int) (ch : MouseChannel) :
    (setInputListeners flags true Listeners.none).mouse ch = true ↔
      Int.land flags OFX_AUTOMATED_INPUT_TYPE_MOUSE ≠ 0 := by
  rw [setInputListeners_none_mouse]
  simp

theorem listeners_key_iff (flags : Int) (ch : KeyChannel) :
    (setInputListeners flags true Listeners.none).key ch = true ↔
      Int.land flags OFX_AUTOMATED_INPUT_TYPE_KEY ≠ 0 := by
  rw [setInputListeners_none_key]
  simp

theorem listeners_touch_iff (flags : Int) (ch : TouchChannel) :
    (setInputListeners flags true Listeners.none).touch ch = true ↔
      Int.land flags OFX_AUTOMATED_INPUT_TYPE_TOUCH ≠ 0 := by
  rw [setInputListeners_none_touch]
  simp

theorem listeners_update_off (flags : Int) :
    (setInputListeners flags true Listeners.none).update = false := by
  rw [setInputListeners_update]
  rfl

/-- Every state that a trace of operations reaches is reached by a trace of calls. -/
theorem runCalls_of_run (d : DefaultFlags) (de : DefaultEvents) (trace : List (Int × Op))
    (s : ofxAutomatedInput) :
    runCalls d de s (trace.map fun x => (x.1, Call.op x.2)) = some (run d s trace) := by
  induction trace generalizing s with
  | nil => rfl
  | cons x rest ih =>
    obtain ⟨now, op⟩ := x
    simp only [List.map_cons, runCalls, applyCall, run]
    exact ih _

theorem reachableByCalls_of_reachable {d : DefaultFlags} (de : DefaultEvents)
    {s : ofxAutomatedInput} (h : Reachable d s) : ReachableByCalls d de s := by
  obtain ⟨junk, trace, rfl⟩ := h
  exact ⟨junk, _, runCalls_of_run d de trace _⟩

/-- The Mouse branch sends out host events, none without mirroring, and then the
observer notification with the payload. -/
theorem triggerMouse_shape (b : Bool) (args : ofMouseEventArgs) :
    ∃ host : List Emission,
      (∀ em ∈ host, em.isHost = true ∧ em.kind = OFX_AUTOMATED_INPUT_TYPE_MOUSE) ∧
      (b = false → host = []) ∧
      triggerMouse b args = host ++ [.mouseInputEvent args] := by
  unfold triggerMouse
  refine ⟨_, ?_, ?_, rfl⟩
  · intro em hem
    split_ifs at hem <;> simp at hem <;> subst hem <;> exact ⟨rfl, rfl⟩
  · intro hb
    simp [hb]

/-- Ticks that leave the state as it is and send out nothing. -/
theorem tickEmissions_idle (q : ofxAutomatedInput) (l rest : List Int)
    (h : ∀ t ∈ l, q.update t = (q, [])) :
    q.tickEmissions (l ++ rest) = l.map (fun _ => []) ++ q.tickEmissions rest := by
  induction l with
  | nil => rfl
  | cons t l ih =>
    have h1 := h t (List.mem_cons_self _ _)
    have h2 := ih (fun u hu => h u (List.mem_cons_of_mem _ hu))
    show (q.update t).2 :: (q.update t).1.tickEmissions (l ++ rest) = _
    rw [h1, List.map_cons, List.cons_append]
    exact congrArg _ h2

theorem loopDemo_wait_mouse (args : ofMouseEventArgs) (q : ofxAutomatedInput) (now : Int)
    (h : LoopDemo args q) (hi : q._playbackIdx = 0)
    (hd : now < q._playbackStartTime + 100) : q.update now = (q, []) := by
  obtain ⟨hp, hev, _, _, _⟩ := h
  have he : q.eventAt (q._playbackIdx + 1) = some (.mouse 100 args) := by
    simp [eventAt, hi, hev]
  exact update_not_due now q _ hp (eventAt_some_not_exhausted q _ _ he) he
    (by simp only [ofxAutomatedInputEvent.timeOffset]; omega)

end ofxAutomatedInput

/-! ## Claims -/

open ofxAutomatedInput

/-- C1 (the code at the failing input): an Idle engine holding the empty timeline saves
a document with an empty root container, and loading that document back reads
`_inputEvents.back()` of an empty vector: the call has no defined result, where the
round trip promises the empty timeline again. -/
theorem C1_roundtrip_empty_timeline_undefined (d : DefaultEvents) (now now' : Int) :
    fresh._mode = OFX_AUTOMATED_INPUT_MODE_IDLE ∧ fresh._inputEvents = [] ∧
    (fresh.saveToXml now).2 = { automated_input := some [] } ∧
    fresh.loadFromXml d (some (fresh.saveToXml now).2) now' = none := by
  refine ⟨rfl, rfl, rfl, rfl⟩

/-- C2: Filter correctness.  For every engine state `s` (any timeline, any
`_playbackFlags`, any mirror setting) and every sequence of tick times: if the bit of
kind `K` (Mouse, Key or Touch) is not in `_playbackFlags`, no tick sends out anything
of kind `K`, neither an observer notification nor a host event; and a due
Control(Start) or Control(Stop) sends out `playbackStartedEvent` or
`playbackStoppedEvent` with the current offset, whatever `_playbackFlags` holds. -/
theorem C2_filter_correctness (s : ofxAutomatedInput) :
    (∀ (K : Int) (ticks : List Int),
      (K = OFX_AUTOMATED_INPUT_TYPE_MOUSE ∨ K = OFX_AUTOMATED_INPUT_TYPE_KEY ∨
        K = OFX_AUTOMATED_INPUT_TYPE_TOUCH) →
      Int.land K s._playbackFlags = 0 →
      ∀ out ∈ s.tickEmissions ticks, ∀ em ∈ out, em.kind ≠ K) ∧
    (∀ (now t : Int), s.isPlaying = true →
      s.eventAt (s._playbackIdx + 1) = some (.control t ofxAutomatedInputControlEvent.Start) →
      t ≤ now - s._playbackStartTime →
      (s.update now).2 = [.playbackStartedEvent (now - s._playbackStartTime)]) ∧
    (∀ (now t : Int), s.isPlaying = true →
      s.eventAt (s._playbackIdx + 1) = some (.control t ofxAutomatedInputControlEvent.Stop) →
      t ≤ now - s._playbackStartTime →
      (s.update now).2 = [.playbackStoppedEvent (now - s._playbackStartTime)]) := by
  refine ⟨?_, ?_, ?_⟩
  · intro K ticks hK hflags out hout em hem hk
    rcases tickEmissions_kind ticks s out hout em hem with h | h
    · rw [hk] at h
      rcases hK with hK | hK | hK <;> rw [hK] at h <;> exact absurd h (by decide)
    · rw [hk] at h
      exact h hflags
  · intro now t hp he hd
    rw [update_due now s _ hp (eventAt_some_not_exhausted s _ _ he) he hd]
    rfl
  · intro now t hp he hd
    rw [update_due now s _ hp (eventAt_some_not_exhausted s _ _ he) he hd]
    rfl

/-- C2 at a concrete input: `demoTimeline` played with the empty flag set sends out the
two Control notifications and nothing of kind Mouse. -/
theorem C2_filter_correctness_witness :
    Int.land OFX_AUTOMATED_INPUT_TYPE_MOUSE (demoEngine.startPlayback 0 0)._playbackFlags = 0 ∧
    (demoEngine.startPlayback 0 0).tickEmissions [0, 100, 150] =
      [[.playbackStartedEvent 0], [], [.playbackStoppedEvent 150]] ∧
    (∀ out ∈ (demoEngine.startPlayback 0 0).tickEmissions [0, 100, 150],
      ∀ em ∈ out, em.kind ≠ OFX_AUTOMATED_INPUT_TYPE_MOUSE) ∧
    ((demoEngine.startPlayback 0 0).update 0).2 = [.playbackStartedEvent 0] :=
  ⟨by decide, by decide,
   (C2_filter_correctness (demoEngine.startPlayback 0 0)).1 OFX_AUTOMATED_INPUT_TYPE_MOUSE
     [0, 100, 150] (Or.inl rfl) (by decide),
   (C2_filter_correctness (demoEngine.startPlayback 0 0)).2.1 0 0 (by decide) (by decide)
     (by decide)⟩

/-- C3: Monotonic cursor.  In a playback session begun by `startPlayback` (from a state
that was not playing) with looping disabled, over every sequence of tick times:
`_playbackIdx` never decreases from one tick to the next, and at the tick on which
`update` stops playback `_playbackIdx` equals `_inputEvents.size() - 1`. -/
theorem C3_monotonic_cursor (s : ofxAutomatedInput) (playbackFlags start : Int)
    (ticks : List Int) (hp : s.isPlaying = false) (hl : s._bLooping = false) :
    List.Chain' (fun a b => a._playbackIdx ≤ b._playbackIdx ∧
        (a.isPlaying = true → b.isPlaying = false →
          b._playbackIdx = (b._inputEvents.length : Int) - 1))
      ((s.startPlayback playbackFlags start).tickStates ticks) :=
  chain_tickStates CursorInv CursorStep cursor_step ticks _
    (startPlayback_cursorInv s playbackFlags start hp hl)

/-- C3 at a concrete input: `demoTimeline` played without looping; the cursor goes
`-1, 0, 1, 2, 2` and playback stops on the fourth tick with the cursor at `3 - 1`. -/
theorem C3_monotonic_cursor_witness :
    ((demoEngine.startPlayback 2 0).tickStates [0, 100, 150, 160]).map
        (fun a => (a._playbackIdx, a.isPlaying)) =
      [(-1, true), (0, true), (1, true), (2, true), (2, false)] ∧
    List.Chain' (fun a b => a._playbackIdx ≤ b._playbackIdx ∧
        (a.isPlaying = true → b.isPlaying = false →
          b._playbackIdx = (b._inputEvents.length : Int) - 1))
      ((demoEngine.startPlayback 2 0).tickStates [0, 100, 150, 160]) :=
  ⟨by decide, C3_monotonic_cursor demoEngine 2 0 [0, 100, 150, 160] (by decide) (by decide)⟩

/-- C4: Recording scenario, generalised.  From an Idle engine with an empty timeline,
`startRecording(Mouse)` at clock time `start`, then mouse events `e_1..e_n` delivered
by the host at clock times `t_1..t_n`, then `stopRecording` at clock time `stop`, leave
the timeline `[Control(Start)@0, Mouse(e_1)@(t_1-start), ..., Mouse(e_n)@(t_n-start),
Control(Stop)@(stop-start)]` and the mode Idle. -/
theorem C4_recording_scenario (d : DefaultFlags) (s : ofxAutomatedInput)
    (start stop : Int) (evs : List (Int × MouseChannel × ofMouseEventArgs))
    (hidle : s._mode = .OFX_AUTOMATED_INPUT_MODE_IDLE) (hempty : s._inputEvents = []) :
    (run d s ((start, Op.startRecording OFX_AUTOMATED_INPUT_TYPE_MOUSE) ::
        (evs.map fun e => (e.1, Op.mouseEvent e.2.1 e.2.2)) ++
        [(stop, Op.stopRecording)]))._inputEvents =
      .control 0 ofxAutomatedInputControlEvent.Start ::
        (evs.map fun e => .mouse (e.1 - start) e.2.2) ++
        [.control (stop - start) ofxAutomatedInputControlEvent.Stop] ∧
    (run d s ((start, Op.startRecording OFX_AUTOMATED_INPUT_TYPE_MOUSE) ::
        (evs.map fun e => (e.1, Op.mouseEvent e.2.1 e.2.2)) ++
        [(stop, Op.stopRecording)]))._mode = .OFX_AUTOMATED_INPUT_MODE_IDLE := by
  have hr : s.isRecording = false := by simp [isRecording, hidle]
  have hp : s.isPlaying = false := by simp [isPlaying, hidle]
  have h0 : s.startRecording OFX_AUTOMATED_INPUT_TYPE_MOUSE start =
      { s with
        _mode := .OFX_AUTOMATED_INPUT_MODE_RECORD
        _recordFlags := OFX_AUTOMATED_INPUT_TYPE_MOUSE
        _recordStartTime := start
        _inputEvents := [.control 0 ofxAutomatedInputControlEvent.Start]
        listeners := setInputListeners OFX_AUTOMATED_INPUT_TYPE_MOUSE true s.listeners } := by
    simp [startRecording, hr, hp, hempty]
  rw [List.cons_append, run, apply, h0, run_append,
    run_mouseEvents d evs _ (setInputListeners_mouse s.listeners)]
  simp [run, apply, stopRecording, isRecording]

/-- C4 at the input of the scenario: `Pressed` at 0, `Released` at 50 and
`stopRecording` at 60 give `[Start@0, Pressed@0, Released@50, Stop@60]`. -/
theorem C4_recording_scenario_witness :
    (run ⟨0, 0⟩ fresh
      [(0, Op.startRecording OFX_AUTOMATED_INPUT_TYPE_MOUSE),
       (0, Op.mouseEvent .mousePressed ⟨ofMouseEventArgs.Pressed, 0, 3, 4⟩),
       (50, Op.mouseEvent .mouseReleased ⟨ofMouseEventArgs.Released, 0, 3, 4⟩),
       (60, Op.stopRecording)])._inputEvents =
      [.control 0 ofxAutomatedInputControlEvent.Start,
       .mouse 0 ⟨ofMouseEventArgs.Pressed, 0, 3, 4⟩,
       .mouse 50 ⟨ofMouseEventArgs.Released, 0, 3, 4⟩,
       .control 60 ofxAutomatedInputControlEvent.Stop] ∧
    (run ⟨0, 0⟩ fresh
      [(0, Op.startRecording OFX_AUTOMATED_INPUT_TYPE_MOUSE),
       (0, Op.mouseEvent .mousePressed ⟨ofMouseEventArgs.Pressed, 0, 3, 4⟩),
       (50, Op.mouseEvent .mouseReleased ⟨ofMouseEventArgs.Released, 0, 3, 4⟩),
       (60, Op.stopRecording)])._mode = .OFX_AUTOMATED_INPUT_MODE_IDLE :=
  C4_recording_scenario ⟨0, 0⟩ fresh 0 60
    [(0, .mousePressed, ⟨ofMouseEventArgs.Pressed, 0, 3, 4⟩),
     (50, .mouseReleased, ⟨ofMouseEventArgs.Released, 0, 3, 4⟩)] rfl rfl

/-- C5 as stated fails: under the non-decreasing clock `0, 10, 20`, recording, stopping
and recording again leaves the offsets `0, 10, 0` in storage order. -/
theorem C5_offsets_nondecreasing_counterexample :
    List.Chain' (· ≤ ·) ([(0, Op.startRecording 2), (10, Op.stopRecording),
      (20, Op.startRecording 2)].map Prod.fst : List Int) ∧
    (run ⟨0, 0⟩ fresh [(0, Op.startRecording 2), (10, Op.stopRecording),
      (20, Op.startRecording 2)])._inputEvents.map (·.timeOffset) = [0, 10, 0] ∧
    ¬ List.Chain' (· ≤ ·)
      ((run ⟨0, 0⟩ fresh [(0, Op.startRecording 2), (10, Op.stopRecording),
        (20, Op.startRecording 2)])._inputEvents.map (·.timeOffset)) := by
  have h : (run ⟨0, 0⟩ fresh [(0, Op.startRecording 2), (10, Op.stopRecording),
      (20, Op.startRecording 2)])._inputEvents.map (·.timeOffset) = [0, 10, 0] := by
    decide
  refine ⟨by simp, h, ?_⟩
  rw [h]
  simp

/-- C5, amended: for every sequence of the operations startRecording, stopRecording,
recorded input events, startPlayback, ticks and stopPlayback (more generally of the
operations of `Op`, which has no `loadFromXml`) applied to a freshly constructed engine
under a non-decreasing clock, the offsets of neighbouring events of the timeline do not
decrease in storage order, except in front of a `Control(Start)` at offset 0 (the
marker with which a recording session begins). -/
theorem C5_offsets_nondecreasing_within_sessions (d : DefaultFlags)
    (junk : ofxAutomatedInput) (trace : List (Int × Op))
    (hclock : List.Chain' (· ≤ ·) (trace.map Prod.fst)) :
    List.Chain'
      (fun a b => a.timeOffset ≤ b.timeOffset ∨
        b = .control 0 ofxAutomatedInputControlEvent.Start)
      (run d (construct junk) trace)._inputEvents := by
  cases trace with
  | nil => exact List.chain'_nil
  | cons x rest =>
    have h0 : OrderInv x.1 (construct junk) :=
      ⟨List.chain'_nil, fun hr => by simp [construct, isRecording] at hr⟩
    exact run_orderInv d (x :: rest) x.1 _ (construct_listenersOK junk) h0
      (List.Chain.cons (le_refl _) hclock)

/-- C5, amended, at a concrete input: two recording sessions under the clock
`0, 5, 10, 20, 25`. -/
theorem C5_offsets_nondecreasing_within_sessions_witness :
    List.Chain' (· ≤ ·) ([(0, Op.startRecording 2),
      (5, Op.mouseEvent .mouseMoved ⟨1, 0, 3, 4⟩), (10, Op.stopRecording),
      (20, Op.startRecording 2), (25, Op.stopRecording)].map Prod.fst : List Int) ∧
    List.Chain'
      (fun a b => a.timeOffset ≤ b.timeOffset ∨
        b = .control 0 ofxAutomatedInputControlEvent.Start)
      (run ⟨0, 0⟩ (construct fresh) [(0, Op.startRecording 2),
        (5, Op.mouseEvent .mouseMoved ⟨1, 0, 3, 4⟩), (10, Op.stopRecording),
        (20, Op.startRecording 2), (25, Op.stopRecording)])._inputEvents :=
  ⟨by simp, C5_offsets_nondecreasing_within_sessions ⟨0, 0⟩ fresh _ (by simp)⟩

/-- C6 as stated fails: after recording, stopping and recording again the timeline
holds two `Control(Start)` events, not exactly one. -/
theorem C6_session_markers_counterexample :
    (run ⟨0, 0⟩ fresh [(0, Op.startRecording 2), (10, Op.stopRecording),
      (20, Op.startRecording 2)])._inputEvents =
      [.control 0 ofxAutomatedInputControlEvent.Start,
       .control 10 ofxAutomatedInputControlEvent.Stop,
       .control 0 ofxAutomatedInputControlEvent.Start] ∧
    (run ⟨0, 0⟩ fresh [(0, Op.startRecording 2), (10, Op.stopRecording),
      (20, Op.startRecording 2)])._inputEvents.countP (·.isStart) ≠ 1 := by
  decide

/-- C6, amended: in every timeline reachable from a freshly constructed engine by
recording operations (more generally by the operations of `Op`, which has no
`loadFromXml`), every `Control(Start)` is at offset 0, and the markers pair up session
by session: there are as many `Control(Start)` as `Control(Stop)` events, plus one
while a recording is in progress; whenever the engine is not recording and the
timeline is not empty, its last event is a `Control(Stop)`. -/
theorem C6_session_markers_paired (d : DefaultFlags) (junk : ofxAutomatedInput)
    (trace : List (Int × Op)) :
    (∀ t, ofxAutomatedInputEvent.control t ofxAutomatedInputControlEvent.Start ∈
        (run d (construct junk) trace)._inputEvents → t = 0) ∧
    ((run d (construct junk) trace)._inputEvents.countP (·.isStart) =
        (run d (construct junk) trace)._inputEvents.countP (·.isStop) +
          if (run d (construct junk) trace).isRecording then 1 else 0) ∧
    ((run d (construct junk) trace).isRecording = false →
      ∀ e ∈ (run d (construct junk) trace)._inputEvents.getLast?,
        ∃ t, e = .control t ofxAutomatedInputControlEvent.Stop) :=
  run_markerInv d trace _ (construct_listenersOK junk)
    ⟨fun t ht => by simp [construct] at ht, by simp [construct, isRecording],
     fun _ e he => by simp [construct] at he⟩

/-- C7: Idempotent `startRecording`.  For every engine state, all flag values `f`, `g`
and all clock times, `startRecording(f)` followed by `startRecording(g)` leaves the
state that `startRecording(f)` alone leaves, its mode being Recording; and when the
engine was not recording before, that state has the old timeline with a single
`Control(Start)@0` appended, `_recordFlags = f`, `_recordStartTime` the time of the
first call and the registrations of the first call. -/
theorem C7_startRecording_idempotent (s : ofxAutomatedInput) (f g t1 t2 : Int) :
    (s.startRecording f t1).startRecording g t2 = s.startRecording f t1 ∧
    (s.startRecording f t1)._mode = .OFX_AUTOMATED_INPUT_MODE_RECORD ∧
    (s.isRecording = false →
      ((s.startRecording f t1).startRecording g t2)._inputEvents =
        s._inputEvents ++ [.control 0 ofxAutomatedInputControlEvent.Start] ∧
      ((s.startRecording f t1).startRecording g t2)._recordFlags = f ∧
      ((s.startRecording f t1).startRecording g t2)._recordStartTime = t1 ∧
      ((s.startRecording f t1).startRecording g t2).listeners =
        setInputListeners f true s.stopPlayback.listeners) := by
  obtain ⟨mode, b1, b2, lo, evs, rf, rs, pf, ps, pi, l⟩ := s
  cases mode
  · exact ⟨rfl, rfl, fun _ => ⟨rfl, rfl, rfl, rfl⟩⟩
  · exact ⟨rfl, rfl, fun h => by simp [isRecording] at h⟩
  · exact ⟨rfl, rfl, fun _ => ⟨rfl, rfl, rfl, rfl⟩⟩

/-- C7 at a concrete input: two calls on a fresh engine leave one `Control(Start)`. -/
theorem C7_startRecording_idempotent_witness :
    fresh.isRecording = false ∧
    ((fresh.startRecording 2 5).startRecording 4 9)._inputEvents =
      fresh._inputEvents ++ [.control 0 ofxAutomatedInputControlEvent.Start] ∧
    ((fresh.startRecording 2 5).startRecording 4 9)._recordFlags = 2 ∧
    ((fresh.startRecording 2 5).startRecording 4 9)._recordStartTime = 5 ∧
    ((fresh.startRecording 2 5).startRecording 4 9).listeners =
      setInputListeners 2 true fresh.stopPlayback.listeners :=
  ⟨rfl, (C7_startRecording_idempotent fresh 2 4 5 9).2.2 rfl⟩

/-- C8: Mutual exclusion of modes.  In every state reachable by the public calls
(`loadFromXml` included) and host callbacks: `startPlayback` called while Recording at
clock time `t` appends `Control(Stop)@(t - _recordStartTime)` to the timeline and
leaves mode Playing, `_playbackIdx = -1` and only the tick channel registered (no input
channel); `startRecording` called while Playing leaves mode Recording, the tick channel
unregistered, an input channel registered exactly when the bit of its kind is in the
flags, and the old timeline with `Control(Start)@0` appended. -/
theorem C8_mutual_exclusion (d : DefaultFlags) (de : DefaultEvents)
    (s : ofxAutomatedInput) (flags t : Int) (hreach : ReachableByCalls d de s) :
    (s._mode = .OFX_AUTOMATED_INPUT_MODE_RECORD →
      (s.startPlayback flags t)._mode = .OFX_AUTOMATED_INPUT_MODE_PLAYBACK ∧
      (s.startPlayback flags t)._inputEvents = s._inputEvents ++
        [.control (t - s._recordStartTime) ofxAutomatedInputControlEvent.Stop] ∧
      (s.startPlayback flags t)._playbackIdx = -1 ∧
      (s.startPlayback flags t).listeners = { Listeners.none with update := true }) ∧
    (s._mode = .OFX_AUTOMATED_INPUT_MODE_PLAYBACK →
      (s.startRecording flags t)._mode = .OFX_AUTOMATED_INPUT_MODE_RECORD ∧
      (s.startRecording flags t).listeners.update = false ∧
      (s.startRecording flags t).listeners = setInputListeners flags true Listeners.none ∧
      (∀ ch, (s.startRecording flags t).listeners.mouse ch = true ↔
        Int.land flags OFX_AUTOMATED_INPUT_TYPE_MOUSE ≠ 0) ∧
      (∀ ch, (s.startRecording flags t).listeners.key ch = true ↔
        Int.land flags OFX_AUTOMATED_INPUT_TYPE_KEY ≠ 0) ∧
      (∀ ch, (s.startRecording flags t).listeners.touch ch = true ↔
        Int.land flags OFX_AUTOMATED_INPUT_TYPE_TOUCH ≠ 0) ∧
      (s.startRecording flags t)._inputEvents = s._inputEvents ++
        [.control 0 ofxAutomatedInputControlEvent.Start]) := by
  have hl := reachableByCalls_listenersOK hreach
  obtain ⟨mode, b1, b2, lo, evs, rf, rs, pf, ps, pi, l⟩ := s
  simp only [ListenersOK, expectedListeners] at hl
  subst hl
  refine ⟨fun hm => ?_, fun hm => ?_⟩
  · cases hm
    refine ⟨rfl, rfl, rfl, ?_⟩
    simp [startPlayback, stopRecording, isPlaying, isRecording, setInputListeners_off_on]
  · cases hm
    have h3 : (startRecording flags t
        { _mode := .OFX_AUTOMATED_INPUT_MODE_PLAYBACK, _bTriggerOFEvents := b1,
          _bLooping := b2, _loopOffsetTime := lo, _inputEvents := evs, _recordFlags := rf,
          _recordStartTime := rs, _playbackFlags := pf, _playbackStartTime := ps,
          _playbackIdx := pi,
          listeners := { Listeners.none with update := true } }).listeners =
        setInputListeners flags true Listeners.none := rfl
    refine ⟨rfl, ?_, h3, ?_, ?_, ?_, rfl⟩
    · rw [h3]
      exact listeners_update_off flags
    · intro ch
      rw [h3]
      exact listeners_mouse_iff flags ch
    · intro ch
      rw [h3]
      exact listeners_key_iff flags ch
    · intro ch
      rw [h3]
      exact listeners_touch_iff flags ch

/-- C8 at a concrete input: a timeline is loaded and played; `startRecording` with the
flags Mouse and Key at time 40 stops the playback, and `startPlayback` at time 70
stops that recording. -/
theorem C8_mutual_exclusion_witness :
    runCalls ⟨0, 0⟩ demoDefaults (construct fresh)
        [(0, .loadFromXml (some (demoEngine.saveToXml 0).2)), (10, .op (.startPlayback 2))] =
      some (demoEngine.startPlayback 2 10) ∧
    (demoEngine.startPlayback 2 10)._mode = .OFX_AUTOMATED_INPUT_MODE_PLAYBACK ∧
    ((demoEngine.startPlayback 2 10).startRecording 6 40)._mode =
      .OFX_AUTOMATED_INPUT_MODE_RECORD ∧
    ((demoEngine.startPlayback 2 10).startRecording 6 40).listeners =
      { mouseMoved := true, mousePressed := true, mouseDragged := true,
        mouseReleased := true, keyPressed := true, keyReleased := true,
        touchDown := false, touchMoved := false, touchUp := false,
        touchDoubleTap := false, touchCancelled := false, update := false } ∧
    ((demoEngine.startPlayback 2 10).startRecording 6 40).listeners.update = false ∧
    ((demoEngine.startPlayback 2 10).startRecording 6 40)._inputEvents =
      (demoEngine.startPlayback 2 10)._inputEvents ++
        [.control 0 ofxAutomatedInputControlEvent.Start] :=
  ⟨by decide, rfl,
   ((C8_mutual_exclusion ⟨0, 0⟩ demoDefaults (demoEngine.startPlayback 2 10) 6 40
      ⟨fresh, [(0, .loadFromXml (some (demoEngine.saveToXml 0).2)),
        (10, .op (.startPlayback 2))], by decide⟩).2 rfl).1,
   by decide,
   ((C8_mutual_exclusion ⟨0, 0⟩ demoDefaults (demoEngine.startPlayback 2 10) 6 40
      ⟨fresh, [(0, .loadFromXml (some (demoEngine.saveToXml 0).2)),
        (10, .op (.startPlayback 2))], by decide⟩).2 rfl).2.1,
   ((C8_mutual_exclusion ⟨0, 0⟩ demoDefaults (demoEngine.startPlayback 2 10) 6 40
      ⟨fresh, [(0, .loadFromXml (some (demoEngine.saveToXml 0).2)),
        (10, .op (.startPlayback 2))], by decide⟩).2 rfl).2.2.2.2.2.2⟩

/-- C9 as stated fails: with playback begun at time 0 the Stop of the first pass is sent
out at time 150; the next tick, at time 200 = 150 + 50, only rewinds and sends out
nothing, and the Start of the second pass is sent out at time 300 (where the claim has
the Mouse event), not at 200.  With a tick every millisecond after the Stop, the tick
at 151 rewinds, the tick at 200 sends out nothing and the Start goes out at 201. -/
theorem C9_loop_continuity_counterexample :
    demoLoopEngine._inputEvents =
      [.control 0 ofxAutomatedInputControlEvent.Start,
       .mouse 100 { type := ofMouseEventArgs.Pressed, button := 0, x := 5, y := 7 },
       .control 150 ofxAutomatedInputControlEvent.Stop] ∧
    demoLoopEngine._bLooping = true ∧ demoLoopEngine._loopOffsetTime = 50 ∧
    (demoLoopEngine.startPlayback 2 0).tickEmissions [0, 100, 150, 200, 300] =
      [[.playbackStartedEvent 0],
       [.mousePressed { type := ofMouseEventArgs.Pressed, button := 0, x := 5, y := 7 },
        .mouseInputEvent { type := ofMouseEventArgs.Pressed, button := 0, x := 5, y := 7 }],
       [.playbackStoppedEvent 150],
       [],
       [.playbackStartedEvent 50]] ∧
    (demoLoopEngine.startPlayback 2 0).tickEmissions [0, 100, 150, 151, 200, 201] =
      [[.playbackStartedEvent 0],
       [.mousePressed { type := ofMouseEventArgs.Pressed, button := 0, x := 5, y := 7 },
        .mouseInputEvent { type := ofMouseEventArgs.Pressed, button := 0, x := 5, y := 7 }],
       [.playbackStoppedEvent 150],
       [],
       [],
       [.playbackStartedEvent 0]] := by
  decide

/-- C9, amended: for the timeline `[Start@0, Mouse@100, Stop@150]` played with looping
enabled, `loopOffset = 50` and Mouse in the playback flags, whenever the Stop of a pass
is sent out (by a tick at any clock time `stopTime` at which it is due), the rewind
takes a tick of its own: the next tick, at clock time `r`, sends out nothing and sets
`_playbackStartTime = r + 50` and the cursor to `-1`; however many ticks follow before
`r + 50`, none of them sends out anything; the tick at `r + 50` sends out the Start of
the second pass; the ticks between it and `r + 150` send out nothing, and the tick at
`r + 150`, 100 ms after the Start, sends out the Mouse event: its observer notification
with the recorded payload, preceded by host events of kind Mouse only when mirroring
is enabled. -/
theorem C9_loop_restart_after_rewind (p : ofxAutomatedInput) (args : ofMouseEventArgs)
    (stopTime r : Int) (early mid : List Int)
    (hp : p.isPlaying = true)
    (hev : p._inputEvents = [.control 0 ofxAutomatedInputControlEvent.Start,
      .mouse 100 args, .control 150 ofxAutomatedInputControlEvent.Stop])
    (hloop : p._bLooping = true) (hoff : p._loopOffsetTime = 50)
    (hm : Int.land OFX_AUTOMATED_INPUT_TYPE_MOUSE p._playbackFlags ≠ 0)
    (hi : p._playbackIdx = 1) (hstop : p._playbackStartTime + 150 ≤ stopTime)
    (hearly : ∀ t ∈ early, t < r + 50) (hmid : ∀ t ∈ mid, t < r + 150) :
    ((p.update stopTime).1.update r).1._playbackStartTime = r + 50 ∧
    ((p.update stopTime).1.update r).1._playbackIdx = -1 ∧
    ∃ host : List Emission,
      (∀ em ∈ host, em.isHost = true ∧ em.kind = OFX_AUTOMATED_INPUT_TYPE_MOUSE) ∧
      (p._bTriggerOFEvents = false → host = []) ∧
      p.tickEmissions (stopTime :: r :: (early ++ (r + 50) :: (mid ++ [r + 150]))) =
        [.playbackStoppedEvent (stopTime - p._playbackStartTime)] :: [] ::
          (early.map (fun _ => []) ++ [.playbackStartedEvent 0] ::
            (mid.map (fun _ => []) ++ [host ++ [.mouseInputEvent args]])) := by
  have hq : ∀ (i st : Int), LoopDemo args
      { p with _playbackStartTime := st, _playbackIdx := i } :=
    fun i st => ⟨hp, hev, hloop, hoff, hm⟩
  have hp0 : LoopDemo args p := ⟨hp, hev, hloop, hoff, hm⟩
  have e3 := loopDemo_stop args p stopTime hp0 hi hstop
  have e4 := loopDemo_rewind args { p with _playbackIdx := 2 } r
    (hq 2 p._playbackStartTime) rfl
  have e5 := loopDemo_start args _ (r + 50) (hq (-1) (r + 50)) rfl (le_refl _)
  have e6 := loopDemo_mouse args _ (r + 150) (hq 0 (r + 50)) rfl
    (by show r + 50 + 100 ≤ r + 150; omega)
  have w1 : ∀ t ∈ early,
      ({ p with _playbackStartTime := r + 50, _playbackIdx := -1 } :
        ofxAutomatedInput).update t =
        ({ p with _playbackStartTime := r + 50, _playbackIdx := -1 }, []) :=
    fun t ht => loopDemo_wait args _ t (hq (-1) (r + 50)) rfl (hearly t ht)
  have w2 : ∀ t ∈ mid,
      ({ p with _playbackStartTime := r + 50, _playbackIdx := 0 } :
        ofxAutomatedInput).update t =
        ({ p with _playbackStartTime := r + 50, _playbackIdx := 0 }, []) :=
    fun t ht => loopDemo_wait_mouse args _ t (hq 0 (r + 50)) rfl
      (by show t < r + 50 + 100; have := hmid t ht; omega)
  simp only [sub_self, add_sub_cancel_left] at e5
  obtain ⟨host, hh1, hh2, hh3⟩ := triggerMouse_shape p._bTriggerOFEvents args
  refine ⟨?_, ?_, host, hh1, hh2, ?_⟩
  · rw [e3, e4]
  · rw [e3, e4]
  · simp only [tickEmissions, e3, e4]
    rw [tickEmissions_idle _ early _ w1]
    simp only [tickEmissions, e5]
    rw [tickEmissions_idle _ mid _ w2]
    simp only [tickEmissions, e6, hh3]

/-- C9, amended, at a concrete input: `demoTimeline` looping with offset 50, begun at
time 0; the Stop goes out late, at time 155, the rewinding tick is at time 160, the
ticks at 170 and 209 send out nothing, the second pass starts at 210 and, after a
silent tick at 250, its Mouse event goes out at 310. -/
theorem C9_loop_restart_after_rewind_witness :
    ((demoLoopEngine.startPlayback 2 0).tickStates [0, 100]).getLast? =
      some { demoLoopEngine.startPlayback 2 0 with _playbackIdx := 1 } ∧
    ({ demoLoopEngine.startPlayback 2 0 with _playbackIdx := 1 } :
      ofxAutomatedInput).tickEmissions [155, 160, 170, 209, 210, 250, 310] =
      [[.playbackStoppedEvent 155], [], [], [], [.playbackStartedEvent 0], [],
       [.mousePressed { type := ofMouseEventArgs.Pressed, button := 0, x := 5, y := 7 },
        .mouseInputEvent { type := ofMouseEventArgs.Pressed, button := 0, x := 5, y := 7 }]] ∧
    ((({ demoLoopEngine.startPlayback 2 0 with _playbackIdx := 1 } :
      ofxAutomatedInput).update 155).1.update 160).1._playbackStartTime = 160 + 50 ∧
    ∃ host : List Emission,
      (∀ em ∈ host, em.isHost = true ∧ em.kind = OFX_AUTOMATED_INPUT_TYPE_MOUSE) ∧
      (({ demoLoopEngine.startPlayback 2 0 with _playbackIdx := 1 } :
        ofxAutomatedInput)._bTriggerOFEvents = false → host = []) ∧
      ({ demoLoopEngine.startPlayback 2 0 with _playbackIdx := 1 } :
        ofxAutomatedInput).tickEmissions
          (155 :: 160 :: ([170, 209] ++ (160 + 50) :: ([250] ++ [160 + 150]))) =
        [.playbackStoppedEvent
            (155 - ({ demoLoopEngine.startPlayback 2 0 with _playbackIdx := 1 } :
              ofxAutomatedInput)._playbackStartTime)] :: [] ::
          ([170, 209].map (fun _ => []) ++ [.playbackStartedEvent 0] ::
            ([250].map (fun _ => []) ++
              [host ++ [.mouseInputEvent
                { type := ofMouseEventArgs.Pressed, button := 0, x := 5, y := 7 }]])) :=
  ⟨by decide, by decide,
   (C9_loop_restart_after_rewind { demoLoopEngine.startPlayback 2 0 with _playbackIdx := 1 }
      { type := ofMouseEventArgs.Pressed, button := 0, x := 5, y := 7 } 155 160
      [170, 209] [250] (by decide) (by decide) (by decide) (by decide) (by decide)
      (by decide) (by decide) (by decide) (by decide)).1,
   (C9_loop_restart_after_rewind { demoLoopEngine.startPlayback 2 0 with _playbackIdx := 1 }
      { type := ofMouseEventArgs.Pressed, button := 0, x := 5, y := 7 } 155 160
      [170, 209] [250] (by decide) (by decide) (by decide) (by decide) (by decide)
      (by decide) (by decide) (by decide) (by decide)).2.2⟩

/-- C10 as stated fails: whatever the default argument of `startRecording` is, there
are flags `f` (here `f = default + 1`) such that after `startRecording(f)` and
`stopRecording` a call of `toggleRecording` records with flags other than `f`. -/
theorem C10_toggleRecording_flags_counterexample :
    ¬ ∃ defaultRecordFlags : Int, ∀ f : Int,
      (((fresh.startRecording f 0).stopRecording 10).toggleRecording
        defaultRecordFlags 20)._recordFlags = f := by
  rintro ⟨dflt, h⟩
  have h1 := h (dflt + 1)
  have h2 : (((fresh.startRecording (dflt + 1) 0).stopRecording 10).toggleRecording
      dflt 20)._recordFlags = dflt := rfl
  rw [h2] at h1
  omega

/-- C10, amended: after `startRecording(f)` followed by `stopRecording`, in any state
reachable by the public calls and host callbacks, `toggleRecording` starts recording
with `_recordFlags` equal to the default argument of `startRecording` (whatever `f`
was), registering exactly the channels implied by that default: a mouse, key or touch
channel is registered exactly when the bit of its kind is in the default flags, and the
tick channel is not; and while recording is active `toggleRecording` does what
`stopRecording` does. -/
theorem C10_toggleRecording_default_flags (d : DefaultFlags) (de : DefaultEvents)
    (s : ofxAutomatedInput) (f t1 t2 t3 : Int) (hreach : ReachableByCalls d de s) :
    (((s.startRecording f t1).stopRecording t2).toggleRecording d.recordFlags t3)._mode =
      .OFX_AUTOMATED_INPUT_MODE_RECORD ∧
    (((s.startRecording f t1).stopRecording t2).toggleRecording
      d.recordFlags t3)._recordFlags = d.recordFlags ∧
    (∀ ch, (((s.startRecording f t1).stopRecording t2).toggleRecording
        d.recordFlags t3).listeners.mouse ch = true ↔
      Int.land d.recordFlags OFX_AUTOMATED_INPUT_TYPE_MOUSE ≠ 0) ∧
    (∀ ch, (((s.startRecording f t1).stopRecording t2).toggleRecording
        d.recordFlags t3).listeners.key ch = true ↔
      Int.land d.recordFlags OFX_AUTOMATED_INPUT_TYPE_KEY ≠ 0) ∧
    (∀ ch, (((s.startRecording f t1).stopRecording t2).toggleRecording
        d.recordFlags t3).listeners.touch ch = true ↔
      Int.land d.recordFlags OFX_AUTOMATED_INPUT_TYPE_TOUCH ≠ 0) ∧
    (((s.startRecording f t1).stopRecording t2).toggleRecording
      d.recordFlags t3).listeners.update = false ∧
    (∀ (q : ofxAutomatedInput) (t : Int), q.isRecording = true →
      q.toggleRecording d.recordFlags t = q.stopRecording t) := by
  have hl : ListenersOK
      (((s.startRecording f t1).stopRecording t2).toggleRecording d.recordFlags t3) := by
    have h1 := stopRecording_listenersOK t2 _
      (startRecording_listenersOK f t1 s (reachableByCalls_listenersOK hreach))
    unfold toggleRecording
    split_ifs
    · exact stopRecording_listenersOK t3 _ h1
    · exact startRecording_listenersOK _ t3 _ h1
  have hm : (((s.startRecording f t1).stopRecording t2).toggleRecording
        d.recordFlags t3)._mode = .OFX_AUTOMATED_INPUT_MODE_RECORD ∧
      (((s.startRecording f t1).stopRecording t2).toggleRecording
        d.recordFlags t3)._recordFlags = d.recordFlags := by
    obtain ⟨mode, b1, b2, lo, evs, rf, rs, pf, ps, pi, l⟩ := s
    cases mode <;> exact ⟨rfl, rfl⟩
  rw [ListenersOK, expectedListeners, hm.1, hm.2] at hl
  refine ⟨hm.1, hm.2, fun ch => ?_, fun ch => ?_, fun ch => ?_, ?_, fun q t hr => ?_⟩
  · rw [hl]
    exact listeners_mouse_iff _ ch
  · rw [hl]
    exact listeners_key_iff _ ch
  · rw [hl]
    exact listeners_touch_iff _ ch
  · rw [hl]
    exact listeners_update_off _
  · simp [toggleRecording, hr]

/-- C10, amended, at a concrete input: with the default flags Key and Touch (12), after
recording with the flags Mouse (2) and stopping, `toggleRecording` records with the
flags 12 and registers the key and touch channels, no mouse channel. -/
theorem C10_toggleRecording_default_flags_witness :
    runCalls ⟨12, 0⟩ demoDefaults (construct fresh) [] = some fresh ∧
    (((fresh.startRecording 2 0).stopRecording 10).toggleRecording 12 20)._recordFlags =
      12 ∧
    (((fresh.startRecording 2 0).stopRecording 10).toggleRecording 12 20).listeners =
      { mouseMoved := false, mousePressed := false, mouseDragged := false,
        mouseReleased := false, keyPressed := true, keyReleased := true,
        touchDown := true, touchMoved := true, touchUp := true,
        touchDoubleTap := true, touchCancelled := true, update := false } ∧
    (((fresh.startRecording 2 0).stopRecording 10).toggleRecording 12 20)._mode =
      .OFX_AUTOMATED_INPUT_MODE_RECORD :=
  ⟨rfl, by decide, by decide,
   (C10_toggleRecording_default_flags ⟨12, 0⟩ demoDefaults fresh 2 0 10 20
     ⟨fresh, [], rfl⟩).1⟩

/-- C11: `clear` from any state.  For every state the engine can reach (Idle, Recording
or Playing, any timeline), after `clear()` the mode is Idle, the timeline is empty and
no host channel, input or tick, remains registered. -/
theorem C11_clear_from_any_state (d : DefaultFlags) (de : DefaultEvents)
    (s : ofxAutomatedInput) (now : Int) (hreach : ReachableByCalls d de s) :
    (s.clear now)._mode = .OFX_AUTOMATED_INPUT_MODE_IDLE ∧
    (s.clear now)._inputEvents = [] ∧
    (s.clear now).listeners = Listeners.none := by
  refine ⟨clear_mode now s, rfl, ?_⟩
  have h := clear_listenersOK now s (reachableByCalls_listenersOK hreach)
  rw [ListenersOK, expectedListeners, clear_mode] at h
  exact h

/-- C11 at a concrete input: `clear` during a recording of mouse and key events. -/
theorem C11_clear_from_any_state_witness :
    runCalls ⟨0, 0⟩ demoDefaults (construct fresh)
        [(0, .op (.startRecording 6)), (5, .op (.keyEvent .keyPressed ⟨0, 65⟩))] =
      some ((fresh.startRecording 6 0).keyEventReceived ⟨0, 65⟩ 5) ∧
    (((fresh.startRecording 6 0).keyEventReceived ⟨0, 65⟩ 5).clear 9)._mode =
      .OFX_AUTOMATED_INPUT_MODE_IDLE ∧
    (((fresh.startRecording 6 0).keyEventReceived ⟨0, 65⟩ 5).clear 9)._inputEvents = [] ∧
    (((fresh.startRecording 6 0).keyEventReceived ⟨0, 65⟩ 5).clear 9).listeners =
      Listeners.none :=
  ⟨by decide,
   C11_clear_from_any_state ⟨0, 0⟩ demoDefaults _ 9
     ⟨fresh, [(0, .op (.startRecording 6)), (5, .op (.keyEvent .keyPressed ⟨0, 65⟩))],
      by decide⟩⟩

/-- C12 (the code at the failing input): a loadable document whose only record has the
unrecognized tag 99.  Best-effort loading skips the record, which leaves the empty
list of decodings; the call then reads `_inputEvents.back()` of the empty vector and
has no defined result, where the claim has it return `true` with that timeline. -/
theorem C12_load_skipping_all_records_undefined (now : Int) :
    demoUnknownFile.automated_input =
      some [{ event_type := some 99, values := [("time_offset", 5)] }] ∧
    ([{ event_type := some 99, values := [("time_offset", 5)] }] :
      List XmlEventTag).filterMap (decodeRecord demoDefaults) = [] ∧
    (fresh.loadedState demoDefaults demoUnknownFile now)._inputEvents = [] ∧
    fresh.loadFromXml demoDefaults (some demoUnknownFile) now = none := by
  refine ⟨rfl, by decide, rfl, rfl⟩

/-- C13 (the code at the failing input): for a document with an empty root container,
which the file can hold and `loadFile` loads, `loadFromXml` reaches line 107 with an
empty timeline: the read of the last event is not a read of an existing element, and
the call has no defined result. -/
theorem C13_load_duration_reads_empty_timeline (d : DefaultEvents) (now : Int)
    (s : ofxAutomatedInput) :
    (s.loadedState d { automated_input := some [] } now)._inputEvents = [] ∧
    (s.loadedState d { automated_input := some [] } now)._inputEvents.getLast? = none ∧
    s.loadFromXml d (some { automated_input := some [] }) now = none ∧
    (s.loadedState d { automated_input := none } now)._inputEvents = [] ∧
    s.loadFromXml d (some { automated_input := none }) now = none := by
  refine ⟨rfl, rfl, rfl, rfl, rfl⟩

/-- C14: Record-side filtering.  For every flag set `F` passed to a `startRecording`
that begins a recording (at clock time `t`, in a reachable state that is not
recording) and every stream of host events of all kinds delivered while recording, the
timeline grows by exactly the input events whose kind is in `F`, each with the offset
of its delivery, in order; so every event appended during the recording is a
non-Control event with its kind in `F`, and an event on a channel whose kind is not in
`F` is not appended. -/
theorem C14_record_side_filtering (d : DefaultFlags) (de : DefaultEvents)
    (s : ofxAutomatedInput) (F t : Int) (stream : List (Int × Op))
    (hreach : ReachableByCalls d de s) (hrec : s.isRecording = false)
    (hhost : ∀ x ∈ stream, x.2.isHostEvent = true) :
    (run d (s.startRecording F t) stream)._inputEvents =
      (s.startRecording F t)._inputEvents ++ stream.filterMap (recorded F t) ∧
    (∀ e ∈ stream.filterMap (recorded F t),
      e.type ≠ OFX_AUTOMATED_INPUT_TYPE_CONTROL ∧ Int.land F e.type ≠ 0) ∧
    (∀ x ∈ stream, ∀ ch args,
      (x.2 = Op.mouseEvent ch args → Int.land F OFX_AUTOMATED_INPUT_TYPE_MOUSE = 0 →
        recorded F t x = none)) ∧
    (∀ x ∈ stream, ∀ ch args,
      (x.2 = Op.keyEvent ch args → Int.land F OFX_AUTOMATED_INPUT_TYPE_KEY = 0 →
        recorded F t x = none)) ∧
    (∀ x ∈ stream, ∀ ch args,
      (x.2 = Op.touchEvent ch args → Int.land F OFX_AUTOMATED_INPUT_TYPE_TOUCH = 0 →
        recorded F t x = none)) := by
  have hl0 := startRecording_listenersOK F t s (reachableByCalls_listenersOK hreach)
  have hm : (s.startRecording F t)._mode = .OFX_AUTOMATED_INPUT_MODE_RECORD ∧
      (s.startRecording F t)._recordFlags = F ∧
      (s.startRecording F t)._recordStartTime = t := by
    obtain ⟨mode, b1, b2, lo, evs, rf, rs, pf, ps, pi, l⟩ := s
    cases mode
    · exact ⟨rfl, rfl, rfl⟩
    · simp [isRecording] at hrec
    · exact ⟨rfl, rfl, rfl⟩
  rw [ListenersOK, expectedListeners, hm.1, hm.2.1] at hl0
  refine ⟨?_, ?_, ?_, ?_, ?_⟩
  · rw [run_hostEvents_recording d F t stream _ hhost hm.2.2 hl0]
  · intro e he
    obtain ⟨x, _, hx⟩ := List.mem_filterMap.mp he
    exact ⟨(recorded_type F t x e hx).1, (recorded_type F t x e hx).2.1⟩
  · rintro ⟨now, op⟩ _ ch args hop hf
    simp only at hop
    subst hop
    simp [recorded, hf]
  · rintro ⟨now, op⟩ _ ch args hop hf
    simp only at hop
    subst hop
    simp [recorded, hf]
  · rintro ⟨now, op⟩ _ ch args hop hf
    simp only at hop
    subst hop
    simp [recorded, hf]

/-- C14 at a concrete input: a recording with `F = Mouse` keeps the mouse event and not
the key event or the touch event. -/
theorem C14_record_side_filtering_witness :
    (run ⟨0, 0⟩ ((construct fresh).startRecording OFX_AUTOMATED_INPUT_TYPE_MOUSE 10)
      [(12, Op.keyEvent .keyPressed ⟨0, 65⟩),
       (15, Op.mouseEvent .mouseMoved ⟨1, 0, 3, 4⟩),
       (18, Op.touchEvent .touchDown ⟨0, 1, 3, 4⟩), (20, Op.tick)])._inputEvents =
      [.control 0 ofxAutomatedInputControlEvent.Start, .mouse 5 ⟨1, 0, 3, 4⟩] ∧
    (run ⟨0, 0⟩ ((construct fresh).startRecording OFX_AUTOMATED_INPUT_TYPE_MOUSE 10)
      [(12, Op.keyEvent .keyPressed ⟨0, 65⟩),
       (15, Op.mouseEvent .mouseMoved ⟨1, 0, 3, 4⟩),
       (18, Op.touchEvent .touchDown ⟨0, 1, 3, 4⟩), (20, Op.tick)])._inputEvents =
      ((construct fresh).startRecording OFX_AUTOMATED_INPUT_TYPE_MOUSE 10)._inputEvents ++
        [(12, Op.keyEvent .keyPressed ⟨0, 65⟩),
         (15, Op.mouseEvent .mouseMoved ⟨1, 0, 3, 4⟩),
         (18, Op.touchEvent .touchDown ⟨0, 1, 3, 4⟩), (20, Op.tick)].filterMap
          (recorded OFX_AUTOMATED_INPUT_TYPE_MOUSE 10) :=
  ⟨by decide,
   (C14_record_side_filtering ⟨0, 0⟩ demoDefaults (construct fresh)
     OFX_AUTOMATED_INPUT_TYPE_MOUSE 10 _ ⟨fresh, [], rfl⟩ rfl (by decide)).1⟩

/-- C15: Observer vs mirroring.  For every due Mouse, Key or Touch event whose kind is
in `_playbackFlags`, the tick sends out exactly one observer notification, with the
recorded payload, on the observer channel of that kind, whether or not mirroring
(`_bTriggerOFEvents`) is enabled; without mirroring it sends out nothing else; a host
event is sent out only if mirroring is enabled, and then with the recorded payload on
the sub-channel that matches the payload's type (Mouse `Pressed` on `mousePressed`,
and so on for every enumerator). -/
theorem C15_observer_vs_mirroring (s : ofxAutomatedInput) (now t : Int)
    (hp : s.isPlaying = true) (hd : t ≤ now - s._playbackStartTime) :
    (∀ args : ofMouseEventArgs,
      s.eventAt (s._playbackIdx + 1) = some (.mouse t args) →
      Int.land OFX_AUTOMATED_INPUT_TYPE_MOUSE s._playbackFlags ≠ 0 →
      (s.update now).2.filter (fun em => !em.isHost) = [.mouseInputEvent args] ∧
      (s._bTriggerOFEvents = false → (s.update now).2 = [.mouseInputEvent args]) ∧
      (∀ em ∈ (s.update now).2, em.isHost = true → s._bTriggerOFEvents = true ∧
        ((args.type = ofMouseEventArgs.Moved ∧ em = .mouseMoved args) ∨
         (args.type = ofMouseEventArgs.Pressed ∧ em = .mousePressed args) ∨
         (args.type = ofMouseEventArgs.Dragged ∧ em = .mouseDragged args) ∨
         (args.type = ofMouseEventArgs.Released ∧ em = .mouseReleased args))) ∧
      (s._bTriggerOFEvents = true →
        (args.type = ofMouseEventArgs.Moved →
          (s.update now).2 = [.mouseMoved args, .mouseInputEvent args]) ∧
        (args.type = ofMouseEventArgs.Pressed →
          (s.update now).2 = [.mousePressed args, .mouseInputEvent args]) ∧
        (args.type = ofMouseEventArgs.Dragged →
          (s.update now).2 = [.mouseDragged args, .mouseInputEvent args]) ∧
        (args.type = ofMouseEventArgs.Released →
          (s.update now).2 = [.mouseReleased args, .mouseInputEvent args]))) ∧
    (∀ args : ofKeyEventArgs,
      s.eventAt (s._playbackIdx + 1) = some (.key t args) →
      Int.land OFX_AUTOMATED_INPUT_TYPE_KEY s._playbackFlags ≠ 0 →
      (s.update now).2.filter (fun em => !em.isHost) = [.keyInputEvent args] ∧
      (s._bTriggerOFEvents = false → (s.update now).2 = [.keyInputEvent args]) ∧
      (∀ em ∈ (s.update now).2, em.isHost = true → s._bTriggerOFEvents = true ∧
        ((args.type = ofKeyEventArgs.Pressed ∧ em = .keyPressed args) ∨
         (args.type = ofKeyEventArgs.Released ∧ em = .keyReleased args))) ∧
      (s._bTriggerOFEvents = true →
        (args.type = ofKeyEventArgs.Pressed →
          (s.update now).2 = [.keyPressed args, .keyInputEvent args]) ∧
        (args.type = ofKeyEventArgs.Released →
          (s.update now).2 = [.keyReleased args, .keyInputEvent args]))) ∧
    (∀ args : ofTouchEventArgs,
      s.eventAt (s._playbackIdx + 1) = some (.touch t args) →
      Int.land OFX_AUTOMATED_INPUT_TYPE_TOUCH s._playbackFlags ≠ 0 →
      (s.update now).2.filter (fun em => !em.isHost) = [.touchInputEvent args] ∧
      (s._bTriggerOFEvents = false → (s.update now).2 = [.touchInputEvent args]) ∧
      (∀ em ∈ (s.update now).2, em.isHost = true → s._bTriggerOFEvents = true ∧
        ((args.type = ofTouchEventArgs.down ∧ em = .touchDown args) ∨
         (args.type = ofTouchEventArgs.move ∧ em = .touchMoved args) ∨
         (args.type = ofTouchEventArgs.up ∧ em = .touchUp args) ∨
         (args.type = ofTouchEventArgs.doubleTap ∧ em = .touchDoubleTap args) ∨
         (args.type = ofTouchEventArgs.cancel ∧ em = .touchCancelled args))) ∧
      (s._bTriggerOFEvents = true →
        (args.type = ofTouchEventArgs.down →
          (s.update now).2 = [.touchDown args, .touchInputEvent args]) ∧
        (args.type = ofTouchEventArgs.move →
          (s.update now).2 = [.touchMoved args, .touchInputEvent args]) ∧
        (args.type = ofTouchEventArgs.up →
          (s.update now).2 = [.touchUp args, .touchInputEvent args]) ∧
        (args.type = ofTouchEventArgs.doubleTap →
          (s.update now).2 = [.touchDoubleTap args, .touchInputEvent args]) ∧
        (args.type = ofTouchEventArgs.cancel →
          (s.update now).2 = [.touchCancelled args, .touchInputEvent args]))) := by
  refine ⟨fun args he hf => ?_, fun args he hf => ?_, fun args he hf => ?_⟩
  · rw [update_due_mouse now t s args hp he hd hf]
    exact triggerMouse_spec _ args
  · rw [update_due_key now t s args hp he hd hf]
    exact triggerKey_spec _ args
  · rw [update_due_touch now t s args hp he hd hf]
    exact triggerTouch_spec _ args

/-- C15 at a concrete input: the Mouse `Pressed` event of `demoTimeline`, due at offset
100 with mirroring enabled, goes out on `mousePressed` and on the observer channel. -/
theorem C15_observer_vs_mirroring_witness :
    ((demoEngine.startPlayback 2 0).update 0).1.isPlaying = true ∧
    (((demoEngine.startPlayback 2 0).update 0).1.update 100).2 =
      [.mousePressed { type := ofMouseEventArgs.Pressed, button := 0, x := 5, y := 7 },
       .mouseInputEvent { type := ofMouseEventArgs.Pressed, button := 0, x := 5, y := 7 }] :=
  ⟨by decide,
   ((((C15_observer_vs_mirroring ((demoEngine.startPlayback 2 0).update 0).1 100 100
      (by decide) (by decide)).1
      { type := ofMouseEventArgs.Pressed, button := 0, x := 5, y := 7 }
      (by decide) (by decide)).2.2.2 (by decide)).2.1 rfl)⟩

/-- C16: One event per tick.  For every Playing state and tick time: if the next event
exists and its `timeOffset <= now - _playbackStartTime`, `update` advances
`_playbackIdx` by exactly 1, changes nothing else and sends out only what that one
event triggers (nothing when it is filtered out), however many later events are due as
well; if the next event exists and is not yet due, the state is unchanged and nothing
is sent out.  In every case the cursor advances by at most one event: either it
advances by 1, or nothing is sent out and the cursor stays or is rewound to `-1`. -/
theorem C16_one_event_per_tick (s : ofxAutomatedInput) (now : Int) :
    (∀ e, s.isPlaying = true → s.eventAt (s._playbackIdx + 1) = some e →
      e.timeOffset ≤ now - s._playbackStartTime →
      (s.update now).1 = { s with _playbackIdx := s._playbackIdx + 1 } ∧
      (s.update now).2 = s.trigger e (now - s._playbackStartTime)) ∧
    (∀ e, s.isPlaying = true → s.eventAt (s._playbackIdx + 1) = some e →
      ¬ e.timeOffset ≤ now - s._playbackStartTime →
      s.update now = (s, [])) ∧
    ((s.update now).1._playbackIdx = s._playbackIdx + 1 ∨
      ((s.update now).2 = [] ∧
        ((s.update now).1._playbackIdx = s._playbackIdx ∨
          (s.update now).1._playbackIdx = -1))) := by
  refine ⟨fun e hp he hd => ?_, fun e hp he hd => ?_, ?_⟩
  · rw [update_due now s e hp (eventAt_some_not_exhausted s _ _ he) he hd]
    exact ⟨rfl, rfl⟩
  · exact update_not_due now s e hp (eventAt_some_not_exhausted s _ _ he) he hd
  · rcases update_cases now s with ⟨_, h⟩ | ⟨_, _, _, h⟩ | ⟨hp, _, _, h⟩ |
      ⟨e, _, _, _, _, h⟩ | ⟨_, h⟩ <;> rw [h]
    · exact Or.inr ⟨rfl, Or.inl rfl⟩
    · exact Or.inr ⟨rfl, Or.inr rfl⟩
    · refine Or.inr ⟨rfl, Or.inl ?_⟩
      simp only [stopPlayback, hp, if_true]
    · exact Or.inl rfl
    · exact Or.inr ⟨rfl, Or.inl rfl⟩

/-- C16 at a concrete input: at time 1000 all three events of `demoTimeline` are due;
the tick consumes the first one only. -/
theorem C16_one_event_per_tick_witness :
    (demoEngine.startPlayback 2 0).isPlaying = true ∧
    ((demoEngine.startPlayback 2 0).update 1000).1 =
      { demoEngine.startPlayback 2 0 with
        _playbackIdx := (demoEngine.startPlayback 2 0)._playbackIdx + 1 } ∧
    ((demoEngine.startPlayback 2 0).update 1000).2 =
      (demoEngine.startPlayback 2 0).trigger
        (.control 0 ofxAutomatedInputControlEvent.Start)
        (1000 - (demoEngine.startPlayback 2 0)._playbackStartTime) :=
  ⟨by decide,
   (C16_one_event_per_tick (demoEngine.startPlayback 2 0) 1000).1
     (.control 0 ofxAutomatedInputControlEvent.Start) (by decide) (by decide) (by decide)⟩

/-- C17: Subscription invariant.  In every state reachable from a freshly constructed
engine by the public operations (loading included) and host callbacks, the registered
host channels are determined by the mode: none when Idle; when Recording, a mouse, key
or touch channel exactly when the bit of its kind (Mouse, Key, Touch) is in the stored
`_recordFlags`, and not the tick channel; exactly the tick channel when Playing.  Hence
the tick channel and an input channel are never registered at the same time, and
`stopRecording` after `startRecording` leaves no channel registered: it removes exactly
what `startRecording` added. -/
theorem C17_subscription_invariant (d : DefaultFlags) (de : DefaultEvents)
    (s : ofxAutomatedInput) (hreach : ReachableByCalls d de s) :
    (s._mode = .OFX_AUTOMATED_INPUT_MODE_IDLE → s.listeners = Listeners.none) ∧
    (s._mode = .OFX_AUTOMATED_INPUT_MODE_RECORD →
      (∀ ch, s.listeners.mouse ch = true ↔
        Int.land s._recordFlags OFX_AUTOMATED_INPUT_TYPE_MOUSE ≠ 0) ∧
      (∀ ch, s.listeners.key ch = true ↔
        Int.land s._recordFlags OFX_AUTOMATED_INPUT_TYPE_KEY ≠ 0) ∧
      (∀ ch, s.listeners.touch ch = true ↔
        Int.land s._recordFlags OFX_AUTOMATED_INPUT_TYPE_TOUCH ≠ 0) ∧
      s.listeners.update = false ∧
      s.listeners = setInputListeners s._recordFlags true Listeners.none) ∧
    (s._mode = .OFX_AUTOMATED_INPUT_MODE_PLAYBACK →
      s.listeners = { Listeners.none with update := true }) ∧
    (s.listeners.update = true →
      (∀ ch, s.listeners.mouse ch = false) ∧ (∀ ch, s.listeners.key ch = false) ∧
        (∀ ch, s.listeners.touch ch = false)) ∧
    (∀ f t1 t2 : Int, s.isRecording = false →
      s.stopPlayback.listeners = Listeners.none ∧
      (∀ ch, (s.startRecording f t1).listeners.mouse ch = true ↔
        Int.land f OFX_AUTOMATED_INPUT_TYPE_MOUSE ≠ 0) ∧
      (∀ ch, (s.startRecording f t1).listeners.key ch = true ↔
        Int.land f OFX_AUTOMATED_INPUT_TYPE_KEY ≠ 0) ∧
      (∀ ch, (s.startRecording f t1).listeners.touch ch = true ↔
        Int.land f OFX_AUTOMATED_INPUT_TYPE_TOUCH ≠ 0) ∧
      (s.startRecording f t1).listeners.update = false ∧
      ((s.startRecording f t1).stopRecording t2).listeners = Listeners.none) := by
  have hl := (reachableByCalls_listenersOK hreach)
  obtain ⟨mode, b1, b2, lo, evs, rf, rs, pf, ps, pi, l⟩ := s
  simp only [ListenersOK, expectedListeners] at hl
  subst hl
  refine ⟨fun h => ?_, fun h => ?_, fun h => ?_, fun h => ?_, fun f t1 t2 h => ?_⟩
  · simp only at h
    subst h
    rfl
  · simp only at h
    subst h
    exact ⟨fun ch => listeners_mouse_iff rf ch, fun ch => listeners_key_iff rf ch,
      fun ch => listeners_touch_iff rf ch, listeners_update_off rf, rfl⟩
  · simp only at h
    subst h
    rfl
  · cases mode
    · simp [Listeners.none] at h
    · simp [setInputListeners_update, Listeners.none] at h
    · exact ⟨fun ch => by cases ch <;> rfl, fun ch => by cases ch <;> rfl,
        fun ch => by cases ch <;> rfl⟩
  · cases mode
    · refine ⟨rfl, fun ch => listeners_mouse_iff f ch, fun ch => listeners_key_iff f ch,
        fun ch => listeners_touch_iff f ch, listeners_update_off f, ?_⟩
      simp [startRecording, stopRecording, isRecording, isPlaying,
        setInputListeners_off_on]
    · simp [isRecording] at h
    · refine ⟨rfl, fun ch => listeners_mouse_iff f ch, fun ch => listeners_key_iff f ch,
        fun ch => listeners_touch_iff f ch, listeners_update_off f, ?_⟩
      simp only [startRecording, stopRecording, stopPlayback, isRecording, isPlaying]
      exact setInputListeners_off_on f

/-- C17 at a concrete input: while recording with the flags Mouse and Key (6), the four
mouse channels and the two key channels are registered, and no touch channel and not
the tick channel. -/
theorem C17_subscription_invariant_witness :
    runCalls ⟨0, 0⟩ demoDefaults (construct fresh) [(0, .op (.startRecording 6))] =
      some (fresh.startRecording 6 0) ∧
    (fresh.startRecording 6 0)._mode = .OFX_AUTOMATED_INPUT_MODE_RECORD ∧
    (fresh.startRecording 6 0).listeners =
      { mouseMoved := true, mousePressed := true, mouseDragged := true,
        mouseReleased := true, keyPressed := true, keyReleased := true,
        touchDown := false, touchMoved := false, touchUp := false,
        touchDoubleTap := false, touchCancelled := false, update := false } ∧
    ((fresh.startRecording 6 0).listeners.mouse .mousePressed = true ↔
      Int.land (fresh.startRecording 6 0)._recordFlags OFX_AUTOMATED_INPUT_TYPE_MOUSE ≠ 0) ∧
    ((fresh.startRecording 6 0).listeners.touch .touchDown = true ↔
      Int.land (fresh.startRecording 6 0)._recordFlags OFX_AUTOMATED_INPUT_TYPE_TOUCH ≠ 0) :=
  ⟨by decide, rfl, by decide,
   ((C17_subscription_invariant ⟨0, 0⟩ demoDefaults (fresh.startRecording 6 0)
     ⟨fresh, [(0, .op (.startRecording 6))], by decide⟩).2.1 rfl).1 .mousePressed,
   ((C17_subscription_invariant ⟨0, 0⟩ demoDefaults (fresh.startRecording 6 0)
     ⟨fresh, [(0, .op (.startRecording 6))], by decide⟩).2.1 rfl).2.2.1 .touchDown⟩

/-- C18 as stated fails: a file can hold a negative `time_offset`.  After loading a
Mouse event at offset -100, with looping enabled and a loop offset of 50, playback
begun at time 0 consumes the event at once; the tick at time 10 rewinds and anchors
the next pass at `10 + 50 = 60`; the tick at time 11, earlier than 60, consumes the
event again and sends it out. -/
theorem C18_no_early_dispatch_counterexample :
    runCalls ⟨0, 0⟩ demoDefaults (construct fresh)
      [(0, .loadFromXml (some demoNegativeFile)), (0, .op (.setLooping true)),
       (0, .op (.setLoopOffsetTime 50)), (0, .op (.startPlayback 2)), (0, .op .tick),
       (10, .op .tick)] =
      some { fresh with
        _mode := .OFX_AUTOMATED_INPUT_MODE_PLAYBACK
        _inputEvents := [.mouse (-100) ⟨1, 0, 3, 4⟩]
        _bLooping := true
        _loopOffsetTime := 50
        _playbackFlags := 2
        _playbackStartTime := 10 + 50
        _playbackIdx := -1
        listeners := { Listeners.none with update := true } } ∧
    (11 : Int) < 10 + 50 ∧
    (({ fresh with
        _mode := .OFX_AUTOMATED_INPUT_MODE_PLAYBACK
        _inputEvents := [.mouse (-100) ⟨1, 0, 3, 4⟩]
        _bLooping := true
        _loopOffsetTime := 50
        _playbackFlags := 2
        _playbackStartTime := 10 + 50
        _playbackIdx := -1
        listeners := { Listeners.none with update := true } } :
      ofxAutomatedInput).update 11).1._playbackIdx = 0 ∧
    (({ fresh with
        _mode := .OFX_AUTOMATED_INPUT_MODE_PLAYBACK
        _inputEvents := [.mouse (-100) ⟨1, 0, 3, 4⟩]
        _bLooping := true
        _loopOffsetTime := 50
        _playbackFlags := 2
        _playbackStartTime := 10 + 50
        _playbackIdx := -1
        listeners := { Listeners.none with update := true } } :
      ofxAutomatedInput).update 11).2 =
      [.mouseMoved ⟨1, 0, 3, 4⟩, .mouseInputEvent ⟨1, 0, 3, 4⟩] := by
  refine ⟨by decide, by decide, by decide, by decide⟩

/-- C18, amended: whenever a tick at clock time `t` consumes an event `e` (advances the
cursor over it, dispatching it or skipping it by filter), or sends anything out,
`e.timeOffset <= t - _playbackStartTime`.  In particular, in a timeline without
negative offsets, after a loop rewind performed at clock time `r` with loop offset `L`
(which sets `_playbackStartTime = r + L` and `_playbackIdx = -1` and keeps the mode
Playing), no tick at a time earlier than `r + L` consumes an event or sends anything
out. -/
theorem C18_no_early_dispatch (s : ofxAutomatedInput) :
    (∀ t, -1 ≤ s._playbackIdx → (s.update t).1._playbackIdx = s._playbackIdx + 1 →
      ∃ e, s.eventAt (s._playbackIdx + 1) = some e ∧
        e.timeOffset ≤ t - s._playbackStartTime) ∧
    (∀ t, ∀ em ∈ (s.update t).2,
      ∃ e, s.eventAt (s._playbackIdx + 1) = some e ∧
        e.timeOffset ≤ t - s._playbackStartTime) ∧
    (∀ r, s.isPlaying = true → s._bLooping = true →
      toSizeT (s._playbackIdx + 1) ≥ s._inputEvents.length →
      (∀ e ∈ s._inputEvents, 0 ≤ e.timeOffset) →
      (s.update r).1._playbackStartTime = r + s._loopOffsetTime ∧
      (s.update r).1._playbackIdx = -1 ∧
      (s.update r).1.isPlaying = true ∧
      ∀ ticks : List Int, (∀ t ∈ ticks, t < r + s._loopOffsetTime) →
        (∀ out ∈ (s.update r).1.tickEmissions ticks, out = []) ∧
        (∀ a ∈ (s.update r).1.tickStates ticks, a._playbackIdx = -1)) := by
  refine ⟨fun t hb h => update_advance_due t s hb h,
    fun t em h => update_emission_due t s em h, fun r hp hl hx hoff => ?_⟩
  rw [update_rewind r s hp hx hl]
  refine ⟨rfl, rfl, hp, fun ticks ht => ?_⟩
  exact ticks_before_anchor (r + s._loopOffsetTime) ticks _ rfl hoff (fun _ _ => rfl) ht

/-- C18, amended, at a concrete input: `demoTimeline` looping with offset 50, played to its end
and rewound by the tick at time 160; the ticks at 170, 200 and 209 send out nothing and
leave the cursor at `-1`. -/
theorem C18_no_early_dispatch_witness :
    ((demoLoopEngine.startPlayback 2 0).tickStates [0, 100, 150]).getLast? =
      some { demoLoopEngine.startPlayback 2 0 with _playbackIdx := 2 } ∧
    (∀ out ∈ ({ demoLoopEngine.startPlayback 2 0 with _playbackIdx := 2 }.update
        160).1.tickEmissions [170, 200, 209], out = []) ∧
    (∀ a ∈ ({ demoLoopEngine.startPlayback 2 0 with _playbackIdx := 2 }.update
        160).1.tickStates [170, 200, 209], a._playbackIdx = -1) :=
  ⟨by decide,
   ((C18_no_early_dispatch { demoLoopEngine.startPlayback 2 0 with _playbackIdx := 2 }).2.2
      160 (by decide) (by decide) (by decide) (by decide)).2.2.2 [170, 200, 209]
      (by decide)⟩

/-- C19: Cursor bounds.  In every Playing state reachable from a freshly constructed
engine (by the public operations, loading included, and host callbacks),
`-1 <= _playbackIdx <= _inputEvents.size() - 1`; so, the size of the vector fitting
`size_t`, whenever the exhaustion test `nextIdx >= _inputEvents.size()` of `update`
fails, the read `_inputEvents[nextIdx]` is a read within the timeline: the read
outside the vector does not occur. -/
theorem C19_cursor_bounds (d : DefaultFlags) (de : DefaultEvents) (s : ofxAutomatedInput)
    (hreach : ReachableByCalls d de s) (hp : s.isPlaying = true) :
    -1 ≤ s._playbackIdx ∧ s._playbackIdx ≤ (s._inputEvents.length : Int) - 1 ∧
    ((s._inputEvents.length : Int) < 2 ^ 64 →
      ¬ toSizeT (s._playbackIdx + 1) ≥ s._inputEvents.length →
      ∃ e, s.eventAt (s._playbackIdx + 1) = some e) := by
  obtain ⟨h1, h2⟩ := reachableByCalls_cursorBound hreach hp
  refine ⟨h1, h2, fun hsz hx => ?_⟩
  have h3 : toSizeT (s._playbackIdx + 1) = s._playbackIdx + 1 := by
    unfold toSizeT
    exact Int.emod_eq_of_lt (by omega) (by omega)
  rw [h3] at hx
  have h4 : (s._playbackIdx + 1).toNat < s._inputEvents.length := by omega
  refine ⟨s._inputEvents.get ⟨_, h4⟩, ?_⟩
  unfold eventAt
  rw [if_pos (by omega)]
  exact List.get?_eq_get h4

/-- C19 at a concrete input: `demoTimeline` played for two ticks; the cursor is 1 and
the next read, at index 2, is within the three events. -/
theorem C19_cursor_bounds_witness :
    runCalls ⟨0, 0⟩ demoDefaults (construct fresh)
        [(0, .loadFromXml (some (demoEngine.saveToXml 0).2)), (0, .op (.startPlayback 2)),
         (0, .op .tick), (100, .op .tick)] =
      some (((demoEngine.startPlayback 2 0).update 0).1.update 100).1 ∧
    (((demoEngine.startPlayback 2 0).update 0).1.update 100).1._playbackIdx = 1 ∧
    (-1 ≤ (((demoEngine.startPlayback 2 0).update 0).1.update 100).1._playbackIdx ∧
      (((demoEngine.startPlayback 2 0).update 0).1.update 100).1._playbackIdx ≤
        ((((demoEngine.startPlayback 2 0).update 0).1.update 100).1._inputEvents.length :
          Int) - 1) :=
  ⟨by decide, by decide,
   ((C19_cursor_bounds ⟨0, 0⟩ demoDefaults
      (((demoEngine.startPlayback 2 0).update 0).1.update 100).1
      ⟨fresh, [(0, .loadFromXml (some (demoEngine.saveToXml 0).2)),
        (0, .op (.startPlayback 2)), (0, .op .tick), (100, .op .tick)], by decide⟩
      (by decide)).1),
   ((C19_cursor_bounds ⟨0, 0⟩ demoDefaults
      (((demoEngine.startPlayback 2 0).update 0).1.update 100).1
      ⟨fresh, [(0, .loadFromXml (some (demoEngine.saveToXml 0).2)),
        (0, .op (.startPlayback 2)), (0, .op .tick), (100, .op .tick)], by decide⟩
      (by decide)).2.1)⟩
